import Mathlib

/-!
# Kernel selection and binary caching: a verification development

Shallow embedding of

* `src/ocl/tensorocl.cpp` (the broadcast tensor-op planner `OpTensor`),
* `src/binary_cache.cpp` (the content-addressed binary store),
* `src/solver/conv_hip_implicit_gemm_3d_grouped_fwd_xdlops.cpp`
  (applicability and performance-config search of the grouped 3-D forward solver),

followed by the theorems established about them.

Conventions.  State is passed explicitly (`Handle`, `Process`).  A store function that
may throw returns `Except`; `OpTensor` returns the value it throws, if any, next to the
handle; a function whose body contains an `assert` or an unchecked `operator[]` returns
`Option`, with `none` standing for "the assertion fails / the access is out of range".
Machine integers are `Int`/`Nat` with explicit wrap-around (`toInt`, `toSizeT`).
Each planner function is split at the point where the source branches on the kernel
variant: `locals` computes the local variables up to there, `branch` the kernel looked
up and what is passed to `AddKernel` and to the kernel, and `Handle.run` performs the
lookup, the `AddKernel` on a miss, and the launch.
-/

namespace MIOpen

/-- The element types of `miopenDataType_t`, as listed by the exhaustive `switch`
statements of the solver.  Their numeric values are declared in the public header and
are supplied through `TypeTable` where a function needs them. -/
inductive miopenDataType_t
  | miopenHalf
  | miopenFloat
  | miopenInt32
  | miopenInt8
  | miopenInt8x4
  | miopenBFloat16
  | miopenDouble
  deriving DecidableEq, Repr

/-! ## Machine integers -/

/-- Conversion to the 32-bit `int`: the value modulo `2^32` in `[-2^31, 2^31)`. -/
def toInt (x : Int) : Int := (x + 2 ^ 31) % 2 ^ 32 - 2 ^ 31

/-- Conversion to the 64-bit `long`. -/
def toLong (x : Int) : Int := (x + 2 ^ 63) % 2 ^ 64 - 2 ^ 63

/-- Conversion to the 64-bit `size_t`: the value modulo `2^64`. -/
def toSizeT (x : Int) : Nat := (x % 2 ^ 64).toNat

/-- The compound assignment `x *= y` for `int x` and `size_t y`: the product is formed
in `size_t` and converted back to `int`. -/
def mulAssign (x : Int) (y : Nat) : Int := toInt ((toSizeT x * y % 2 ^ 64 : Nat) : Int)

/-- The compound assignment `x /= y` for `int x` and `size_t y`. -/
def divAssign (x : Int) (y : Nat) : Int := toInt ((toSizeT x / y : Nat) : Int)

/-- The product `a * b` of two `int` values, wrapped to 32 bits. -/
def intMul (a b : Int) : Int := toInt (a * b)

/-- The quotient `a / b` of two `int` values: the truncating division of C++; `none` where
the division traps, i.e. for the divisor 0 and for `INT_MIN / -1`. -/
def intDiv (a b : Int) : Option Int :=
  if b = 0 then none
  else if a = -2 ^ 31 ∧ b = -1 then none
  else some (Int.tdiv a b)

/-! ## `ocl/tensorocl.cpp`: collaborators -/

/-- What the planner needs to know about `miopenDataType_t` beyond the enumerators: the
numeric value printed by `std::to_string` and the type name returned by `GetDataType`.
Both are declared in headers that are not among the sources, so they are parameters. -/
structure TypeTable where
  code : miopenDataType_t → Nat
  GetDataType : miopenDataType_t → String

/-- A tensor descriptor as the planner reads it: `GetLengths()`, `GetStrides()`,
`GetType()` and `IsPacked()`. -/
structure TensorDescriptor where
  lens : List Nat
  strides : List Nat
  type : miopenDataType_t
  IsPacked : Bool
  deriving DecidableEq, Repr

/-- Modelled from the spec: `GetElementSize()` (declared in the tensor header, which is not
among the sources) is the descriptor's element count, the product of its lengths. -/
def TensorDescriptor.GetElementSize (t : TensorDescriptor) : Nat :=
  t.lens.foldl (fun acc l => acc * l) 1

/-- One argument of a kernel launch.  Data pointers carry their address; the scalars
`alpha0`, `alpha1`, `beta` (after `as_float`) are kept symbolic. -/
inductive KernelArg
  | ptr (address : Nat)
  | int (v : Int)
  | uint (v : Nat)
  | long (v : Int)
  | alpha0
  | alpha1
  | beta
  deriving DecidableEq, Repr

/-- A kernel object of the handle: the arguments `AddKernel` was called with. -/
structure Kernel where
  algorithm : String
  network_config : String
  program_name : String
  kernel_name : String
  vld : List Nat
  vgd : List Nat
  parms : String
  deriving DecidableEq, Repr

/-- The operations a call performs on the handle, in order. -/
inductive Event
  | GetKernels (algorithm network_config : String)
  | AddKernel (kernel : Kernel)
  | launch (kernel : Kernel) (args : List KernelArg)
  deriving DecidableEq, Repr

/-- Modelled from the spec: the runtime handle (its header is not among the sources),
exposing `GetKernels(name, config)` and `AddKernel(...) -> invocable`: the kernel objects
it holds, and the record of the operations performed on it. -/
structure Handle where
  kernels : List Kernel
  trace : List Event
  deriving DecidableEq, Repr

/-- Modelled from the spec: `Handle::GetKernels(algorithm, network_config)`, the kernel
objects cached under that pair. -/
def Handle.GetKernels (h : Handle) (algorithm network_config : String) :
    List Kernel × Handle :=
  (h.kernels.filter (fun k => k.algorithm == algorithm && k.network_config == network_config),
   { h with trace := h.trace ++ [Event.GetKernels algorithm network_config] })

/-- Modelled from the spec: `Handle::AddKernel`, which builds the kernel object, caches it
under `(algorithm, network_config)` and returns it. -/
def Handle.AddKernel (h : Handle) (algorithm network_config program_name kernel_name : String)
    (vld vgd : List Nat) (parms : String) : Kernel × Handle :=
  let k : Kernel := { algorithm := algorithm, network_config := network_config,
                      program_name := program_name, kernel_name := kernel_name,
                      vld := vld, vgd := vgd, parms := parms }
  (k, { kernels := h.kernels ++ [k], trace := h.trace ++ [Event.AddKernel k] })

/-- Invoking a kernel object with an argument list. -/
def Handle.launch (h : Handle) (k : Kernel) (args : List KernelArg) : Handle :=
  { h with trace := h.trace ++ [Event.launch k args] }

/-- What one branch of a planner function determines: the pair the kernel is looked up
under, and what `AddKernel` and the kernel call receive. -/
structure Launch where
  algorithm : String
  network_config : String
  program_name : String
  kernel_name : String
  vld : List Nat
  vgd : List Nat
  parms : String
  args : List KernelArg
  deriving DecidableEq, Repr

/-- The protocol every branch of the planner follows: look the kernel up with
`GetKernels`; on a hit call `kernels.front()` and return; on a miss build the options,
call `AddKernel` and call the returned kernel. -/
def Handle.run (h : Handle) (l : Launch) : Handle :=
  let (kernels, h1) := h.GetKernels l.algorithm l.network_config
  match kernels with
  | kernel :: _ => h1.launch kernel l.args
  | [] =>
    let (kernel, h2) :=
      h1.AddKernel l.algorithm l.network_config l.program_name l.kernel_name l.vld l.vgd l.parms
    h2.launch kernel l.args

/-- The arguments of `OpTensor` (and of `OpTensor3d`, `OpTensor4d`, `OpTensorOther`).
`tensorOp` is the numeric value of the `miopenTensorOp_t` enumerator (0 add, 1 mul,
2 min, 3 max, as in the `switch`); a data pointer is its address, 0 for `nullptr`;
`beta_is_zero` is the value of `float_equal(miopen_beta, 0.0)`. -/
structure OpTensorArgs where
  tensorOp : Nat
  aTensorDesc : TensorDescriptor
  ATensor : Nat
  bTensorDesc : TensorDescriptor
  BTensor : Nat
  beta_is_zero : Bool
  cTensorDesc : TensorDescriptor
  CTensor : Nat
  Aoffset : Nat
  Boffset : Nat
  Coffset : Nat
  deriving DecidableEq, Repr

/-! ## `ocl/tensorocl.cpp`: the planner -/

/-- `v[i]` of a `std::vector<size_t>`.  Every index the planner uses on `blens` and
`clens` is in range for the rank it was dispatched on; an index past the end (possible
only on A's vectors, when A's rank differs from C's) reads as 0 here. -/
def elemAt (v : List Nat) (i : Nat) : Nat := v.getD i 0

/-- `int(v[i])`. -/
def intAt (v : List Nat) (i : Nat) : KernelArg :=
  KernelArg.int (toInt ((elemAt v i : Nat) : Int))

/-- The loop of `CreateBitmapAndGrid`, for `i` running from `n - 1` down to 0, on
`(bitmap, num_wg, work)`. -/
def CreateBitmapAndGrid.loop (a_lens c_lens : List Nat) :
    Nat → Nat × Int × Int → Nat × Int × Int
  | 0, st => st
  | i + 1, (bitmap, num_wg, work) =>
    if elemAt a_lens i ≠ 1 then
      CreateBitmapAndGrid.loop a_lens c_lens i
        (bitmap ||| (1 <<< (a_lens.length - (i + 1))), mulAssign num_wg (elemAt a_lens i), work)
    else
      CreateBitmapAndGrid.loop a_lens c_lens i (bitmap, num_wg, mulAssign work (elemAt c_lens i))

/-- `CreateBitmapAndGrid(bitmap, a_lens, c_lens, num_wg, work, d)`: the updated
`(bitmap, num_wg, work)`. -/
def CreateBitmapAndGrid (bitmap : Nat) (a_lens c_lens : List Nat) (num_wg work : Int)
    (d : Int) : Nat × Int × Int :=
  CreateBitmapAndGrid.loop a_lens c_lens (d + 1).toNat (bitmap, num_wg, work)

/-- The loop of `IsBitmapLeadingOnes`, for `i` running from `n - 1` down to 0. -/
def IsBitmapLeadingOnes.loop (bitmap : Nat) (n_size : Nat) : Nat → Bool → Bool
  | 0, leading_ones => leading_ones
  | i + 1, leading_ones =>
    let is_one := (bitmap &&& (1 <<< (n_size - 1 - i))) != 0
    IsBitmapLeadingOnes.loop bitmap n_size i (leading_ones && is_one)

/-- `IsBitmapLeadingOnes(bitmap, n_size, first_not_one)`. -/
def IsBitmapLeadingOnes (bitmap : Nat) (n_size : Nat) (first_not_one : Int) : Bool :=
  IsBitmapLeadingOnes.loop bitmap n_size (first_not_one + 1).toNat true

/-- The value `d = std::distance(blens.begin(), first_not_one.base())`: the length of
`blens` without its trailing entries that the predicate `[](int i) { return i != 1; }`
rejects. -/
def firstNotOneDistance (blens : List Nat) : Nat :=
  blens.length - (blens.reverse.takeWhile (fun (l : Nat) => toInt (l : Int) == 1)).length

/-- The values every planner function computes first (the same statements open
`OpTensor3d`, `OpTensor4d` and `OpTensorOther`). -/
structure Grid where
  d : Nat
  bitmap : Nat
  num_wg : Int
  work_per_wg : Int
  deriving DecidableEq, Repr

/-- The opening statements of `OpTensor3d`, `OpTensor4d` and `OpTensorOther`, up to and
including the call of `CreateBitmapAndGrid`. -/
def computeGrid (blens clens : List Nat) : Grid :=
  let bsize := blens.length
  let d := firstNotOneDistance blens
  let num_wg : Int :=
    if d ≠ 0 then
      toInt (((if elemAt blens (d - 1) = 0 then 1 else elemAt blens (d - 1) : Nat)) : Int)
    else 1
  let work_per_wg : Int :=
    (clens.drop d).foldl (fun (acc : Int) (l : Nat) => toInt (acc * toInt (l : Int))) 1
  let bitmap : Nat := 0 ||| (1 <<< (bsize - d))
  let r := CreateBitmapAndGrid bitmap blens clens num_wg work_per_wg ((d : Int) - 2)
  { d := d, bitmap := r.1, num_wg := r.2.1, work_per_wg := r.2.2 }

/-- The text appended after ` -DMIOPEN_TENSOR_OP=` by the `switch` on `tensorOp`. -/
def tensorOpParm (tensorOp : Nat) : String :=
  match tensorOp with
  | 0 => "miopenAdd"
  | 1 => "miopenMul"
  | 2 => "miopenMin"
  | 3 => "miopenMax"
  | _ => ""

/-- The two precision defines selected by the type of A. -/
def precisionParms (t : miopenDataType_t) : String :=
  if t = .miopenFloat then " -DMIOPEN_USE_FP16=0" ++ " -DMIOPEN_USE_FP32=1"
  else if t = .miopenHalf then " -DMIOPEN_USE_FP16=1" ++ " -DMIOPEN_USE_FP32=0"
  else ""

/-- `std::to_string` of a `bool` converted to `int`. -/
def boolToString (b : Bool) : String := if b then "1" else "0"

/-- The local variables of a planner function at the point where it branches on the
kernel variant (the start of the `visit_float` lambda). -/
structure Locals where
  d : Int
  bitmap : Nat
  work_per_wg : Int
  num_wg : Int
  num_wg_orig : Int
  max_num_wg : Int
  incr_wg : Int
  fwd_conv_bias : Int
  leading_ones : Bool
  local_threads : Nat
  global_threads : Nat
  packed_tensor : Bool
  packed_equal_tensor : Bool
  network_config : String
  parms : String
  program_name : String
  deriving DecidableEq, Repr

/-- The three offsets as they are passed to every kernel: `long(Aoffset)`,
`long(Boffset)`, `long(Coffset)`. -/
def offsetArgs (x : OpTensorArgs) : List KernelArg :=
  [.long (toLong x.Aoffset), .long (toLong x.Boffset), .long (toLong x.Coffset)]

/-- `OpTensor3d`, up to the branch on the kernel variant.  The fields that `OpTensor3d`
does not have (`incr_wg`, `fwd_conv_bias`, `leading_ones`, the packing flags and
`global_threads`, which it computes inside the generic branch) are left at 0 / `false`.
`parms` holds the options common to both variants. -/
def OpTensor3d.locals (T : TypeTable) (x : OpTensorArgs) : Locals :=
  let blens := x.bTensorDesc.lens
  let clens := x.cTensorDesc.lens
  let g := computeGrid blens clens
  let num_wg := g.num_wg
  let num_wg_orig := num_wg
  let max_num_wg : Int := 4096
  let num_wg := if num_wg > max_num_wg then max_num_wg else num_wg
  let local_threads : Nat := 256
  let network_config := toString (T.code x.bTensorDesc.type) ++
    toString (T.code x.aTensorDesc.type) ++ toString x.tensorOp
  let parms := " -DMIOPEN_TYPE=" ++ T.GetDataType x.bTensorDesc.type ++
    precisionParms x.aTensorDesc.type ++ " -DMIOPEN_TENSOR_OP=" ++ tensorOpParm x.tensorOp
  { d := g.d, bitmap := g.bitmap, work_per_wg := g.work_per_wg, num_wg := num_wg,
    num_wg_orig := num_wg_orig, max_num_wg := max_num_wg, incr_wg := 0, fwd_conv_bias := 0,
    leading_ones := false, local_threads := local_threads, global_threads := 0,
    packed_tensor := false, packed_equal_tensor := false,
    network_config := network_config, parms := parms,
    program_name := "MIOpenTensorKernels.cl" }

/-- The condition under which `OpTensor3d` uses `Op2dTensorLite` (it is evaluated twice in
the source, before the lookup and before `AddKernel`, with the same operands). -/
def OpTensor3d.lite (x : OpTensorArgs) : Bool :=
  let alens := x.aTensorDesc.lens
  let blens := x.bTensorDesc.lens
  let clens := x.cTensorDesc.lens
  elemAt clens 0 == 1 && elemAt blens 0 == 1 && elemAt alens 0 == 1 &&
    (elemAt blens 1 == elemAt clens 1 || elemAt blens 1 == 1) && elemAt blens 2 == elemAt clens 2

/-- `OpTensor3d`, from the branch on: the kernel it looks up, and what it passes to
`AddKernel` and to the kernel call. -/
def OpTensor3d.branch (T : TypeTable) (x : OpTensorArgs) (v : Locals) : Launch :=
  let blens := x.bTensorDesc.lens
  let clens := x.cTensorDesc.lens
  let astrides := x.aTensorDesc.strides
  let bstrides := x.bTensorDesc.strides
  let cstrides := x.cTensorDesc.strides
  let vld := [v.local_threads, 1, 1]
  if OpTensor3d.lite x then
    let network_config := v.network_config ++
      (toString (elemAt clens 2) ++ toString (elemAt clens 1) ++ boolToString x.beta_is_zero ++
        boolToString (elemAt blens 1 == 1) ++ toString v.max_num_wg)
    let parms := v.parms ++ " -DUSE_2D_TENSOR_LITE"
    let RD_BLCK : Nat :=
      if elemAt clens 2 % 4 = 0 then 4 else if elemAt clens 2 % 2 = 0 then 2 else 1
    let data_type := T.GetDataType x.bTensorDesc.type
    let READ_TYPE := if RD_BLCK = 1 then data_type else data_type ++ toString RD_BLCK
    let MAP_RD := elemAt clens 2 / RD_BLCK
    let parms := parms ++ (" -DRD_BLCK=" ++ toString RD_BLCK ++ " -DMAP_RD=" ++
      toString MAP_RD ++ " -DREAD_TYPE=" ++ READ_TYPE)
    let parms := if !x.beta_is_zero then parms ++ " -DBETA" else parms
    let parms := if elemAt blens 1 = 1 then parms ++ " -DBIAS" else parms
    let num_wg : Int := toInt ((elemAt clens 1 : Nat) : Int)
    let num_wg := if num_wg > v.max_num_wg then v.max_num_wg else num_wg
    let parms := parms ++ (" -DMAX_NUM_WG=" ++ toString v.max_num_wg)
    let vgd1 := [MAP_RD, toSizeT num_wg, 1]
    { algorithm := "Op2dTensorLite", network_config := network_config,
      program_name := v.program_name, kernel_name := "Op2dTensorLite",
      vld := vld, vgd := vgd1, parms := parms,
      args := [.ptr x.ATensor, intAt astrides 1, .ptr x.BTensor, intAt bstrides 1,
        .ptr x.CTensor, intAt cstrides 1, .alpha0, .alpha1, .beta] ++ offsetArgs x ++
        [intAt clens 1] }
  else
    let network_config := v.network_config ++
      (toString v.max_num_wg ++ toString v.local_threads ++ toString v.num_wg)
    let global_threads : Nat := toSizeT v.num_wg * v.local_threads % 2 ^ 64
    let vgd := [global_threads, 1, 1]
    let parms := v.parms ++ " -DUSE_3D_TENSOR_GENERIC"
    let parms := parms ++ (" -DMAX_NUM_WG=" ++ toString v.max_num_wg)
    { algorithm := "Op3dTensorGeneric", network_config := network_config,
      program_name := v.program_name, kernel_name := "Op3dTensorGeneric",
      vld := vld, vgd := vgd, parms := parms,
      args := [.ptr x.ATensor, intAt astrides 0, intAt astrides 1, .ptr x.BTensor,
        intAt blens 1, intAt blens 2, intAt bstrides 0, intAt bstrides 1, .ptr x.CTensor,
        intAt clens 1, intAt clens 2, intAt cstrides 0, intAt cstrides 1,
        .alpha0, .alpha1, .beta, .uint v.bitmap, .int v.work_per_wg] ++ offsetArgs x ++
        [.int (toInt v.num_wg_orig)] }

/-- `OpTensor3d`: the kernel it looks up, and what it passes to `AddKernel` and to the
kernel call. -/
def OpTensor3d.plan (T : TypeTable) (x : OpTensorArgs) : Launch :=
  OpTensor3d.branch T x (OpTensor3d.locals T x)

/-- `OpTensor3d`. -/
def OpTensor3d (T : TypeTable) (handle : Handle) (x : OpTensorArgs) : Handle :=
  handle.run (OpTensor3d.plan T x)

/-- `OpTensor4d`, up to the branch on the kernel variant.  `parms` holds the options
common to all variants. -/
def OpTensor4d.locals (T : TypeTable) (x : OpTensorArgs) : Locals :=
  let blens := x.bTensorDesc.lens
  let clens := x.cTensorDesc.lens
  let dims := clens.length
  let g := computeGrid blens clens
  let d : Int := g.d
  let bitmap := g.bitmap
  let work_per_wg := g.work_per_wg
  let num_wg := g.num_wg
  let fwd_conv_bias : Int := if bitmap = 1 <<< 2 then 1 else 0
  let rebalance : Bool :=
    fwd_conv_bias == 1 && decide (dims < 5) && decide (num_wg < 640) &&
      decide (work_per_wg > 256) && decide (elemAt clens 0 > 0)
  let work_per_wg := if rebalance then divAssign work_per_wg (elemAt clens 0) else work_per_wg
  let num_wg := if rebalance then mulAssign num_wg (elemAt clens 0) else num_wg
  let incr_wg : Int := if rebalance then 1 else 0
  let num_wg_orig := num_wg
  let max_num_wg : Int := 4096
  let num_wg := if num_wg > max_num_wg then max_num_wg else num_wg
  let leading_ones := IsBitmapLeadingOnes bitmap dims (d - 2)
  let local_threads : Nat := if leading_ones && decide (work_per_wg < 64) then 64 else 256
  let network_config := T.GetDataType x.bTensorDesc.type ++ toString max_num_wg
  let global_threads : Nat :=
    if leading_ones && decide (d - 1 = 3) then toSizeT num_wg
    else toSizeT num_wg * local_threads % 2 ^ 64
  let global_threads := if global_threads < local_threads then local_threads else global_threads
  let packed_tensor :=
    true && x.aTensorDesc.IsPacked && x.bTensorDesc.IsPacked && x.cTensorDesc.IsPacked
  let packed_equal_tensor := packed_tensor &&
    decide (x.bTensorDesc.GetElementSize = x.cTensorDesc.GetElementSize)
  let network_config := network_config ++
    (toString (T.code x.bTensorDesc.type) ++ toString (T.code x.aTensorDesc.type) ++
      toString x.tensorOp ++ toString global_threads ++ toString local_threads)
  let parms := " -DMIOPEN_TYPE=" ++ T.GetDataType x.bTensorDesc.type ++
    " -DMAX_NUM_WG=" ++ toString max_num_wg ++
    precisionParms x.aTensorDesc.type ++ " -DMIOPEN_TENSOR_OP=" ++ tensorOpParm x.tensorOp
  { d := d, bitmap := bitmap, work_per_wg := work_per_wg, num_wg := num_wg,
    num_wg_orig := num_wg_orig, max_num_wg := max_num_wg, incr_wg := incr_wg,
    fwd_conv_bias := fwd_conv_bias, leading_ones := leading_ones,
    local_threads := local_threads, global_threads := global_threads,
    packed_tensor := packed_tensor, packed_equal_tensor := packed_equal_tensor,
    network_config := network_config, parms := parms,
    program_name := "MIOpenTensorKernels.cl" }

/-- `OpTensor4d`, from the branch on: the kernel it looks up, and what it passes to
`AddKernel` and to the kernel call. -/
def OpTensor4d.branch (T : TypeTable) (x : OpTensorArgs) (v : Locals) : Launch :=
  let blens := x.bTensorDesc.lens
  let clens := x.cTensorDesc.lens
  let astrides := x.aTensorDesc.strides
  let bstrides := x.bTensorDesc.strides
  let cstrides := x.cTensorDesc.strides
  let vld := [v.local_threads, 1, 1]
  let vgd := [v.global_threads, 1, 1]
  if v.fwd_conv_bias ≠ 0 then
    let network_config := v.network_config ++ toString v.incr_wg
    let parms := v.parms ++ (" -DINCR_WG=" ++ toString v.incr_wg)
    if v.packed_tensor then
      { algorithm := "OpTensorFwdBias", network_config := network_config,
        program_name := v.program_name, kernel_name := "OpTensorFwdBias",
        vld := vld, vgd := vgd, parms := parms ++ " -DUSE_FWD_BIAS",
        args := [.ptr x.ATensor, .ptr x.BTensor, intAt blens 1, .ptr x.CTensor,
          intAt clens 0, intAt cstrides 0, intAt cstrides 1, .int v.work_per_wg,
          .alpha0, .alpha1, .beta] ++ offsetArgs x ++ [.int (toInt v.num_wg_orig)] }
    else
      { algorithm := "OpTensorFwdBiasGeneric", network_config := network_config,
        program_name := v.program_name, kernel_name := "OpTensorFwdBiasGeneric",
        vld := vld, vgd := vgd, parms := parms ++ " -DUSE_FWD_BIAS_GENERIC",
        args := [.ptr x.ATensor, intAt astrides 0, intAt astrides 1, intAt astrides 2,
          .ptr x.BTensor, intAt blens 1, intAt bstrides 1, .ptr x.CTensor,
          intAt clens 0, intAt clens 3, intAt cstrides 0, intAt cstrides 1, intAt cstrides 2,
          .alpha0, .alpha1, .beta, .int v.work_per_wg] ++ offsetArgs x ++
          [.int (toInt v.num_wg_orig)] }
  else if v.packed_equal_tensor then
    let network_config := v.network_config ++
      (toString x.bTensorDesc.GetElementSize ++ boolToString x.beta_is_zero)
    let parms := v.parms ++ " -DUSE_4D_TENSOR_LITE"
    let data_type := T.GetDataType x.bTensorDesc.type
    let TENS_LEN := x.cTensorDesc.GetElementSize
    let RD_BLCK : Nat :=
      if TENS_LEN % 4 = 0 then 4 else if TENS_LEN % 3 = 0 then 3
      else if TENS_LEN % 2 = 0 then 2 else 1
    let MAP_RD := TENS_LEN / RD_BLCK
    let READ_TYPE := if RD_BLCK = 1 then data_type else data_type ++ toString RD_BLCK
    let parms := parms ++ (" -DRD_BLCK=" ++ toString RD_BLCK ++ " -DMAP_RD=" ++
      toString MAP_RD ++ " -DREAD_TYPE=" ++ READ_TYPE)
    let parms := if !x.beta_is_zero then parms ++ " -DBETA" else parms
    let vgd1 := [TENS_LEN / RD_BLCK, 1, 1]
    { algorithm := "Op4dTensorLite", network_config := network_config,
      program_name := v.program_name, kernel_name := "Op4dTensorLite",
      vld := vld, vgd := vgd1, parms := parms,
      args := [.ptr x.ATensor, .ptr x.BTensor, .ptr x.CTensor, .alpha0, .alpha1, .beta] ++
        offsetArgs x }
  else if v.leading_ones then
    let network_config := v.network_config ++ toString (v.d - 1)
    let parms := v.parms ++ (" -DFIRST_NOT_ONE=" ++ toString (v.d - 1))
    if v.packed_tensor then
      { algorithm := "OpTensorLeadingOnes", network_config := network_config,
        program_name := v.program_name, kernel_name := "OpTensorLeadingOnes",
        vld := vld, vgd := vgd, parms := parms ++ " -DUSE_LEADING_ONES",
        args := [.ptr x.ATensor, .ptr x.BTensor, .ptr x.CTensor,
          intAt clens 1, intAt clens 2, intAt clens 3, intAt cstrides 0, intAt cstrides 1,
          .int v.work_per_wg, .alpha0, .alpha1, .beta] ++ offsetArgs x ++
          [.int (toInt v.num_wg_orig)] }
    else
      { algorithm := "OpTensorLeadingOnesGeneric", network_config := network_config,
        program_name := v.program_name, kernel_name := "OpTensorLeadingOnesGeneric",
        vld := vld, vgd := vgd, parms := parms ++ " -DUSE_LEADING_ONES_GENERIC",
        args := [.ptr x.ATensor, intAt astrides 0, intAt astrides 1, intAt astrides 2,
          .ptr x.BTensor, intAt bstrides 0, intAt bstrides 1, intAt bstrides 2,
          .ptr x.CTensor, intAt clens 1, intAt clens 2, intAt clens 3,
          intAt cstrides 0, intAt cstrides 1, intAt cstrides 2,
          .alpha0, .alpha1, .beta, .int v.work_per_wg] ++ offsetArgs x ++
          [.int (toInt v.num_wg_orig)] }
  else
    { algorithm := "Op4dTensorGeneric", network_config := v.network_config,
      program_name := v.program_name, kernel_name := "Op4dTensorGeneric",
      vld := vld, vgd := vgd, parms := v.parms ++ " -DUSE_4D_TENSOR_GENERIC",
      args := [.ptr x.ATensor, intAt astrides 0, intAt astrides 1, intAt astrides 2,
        .ptr x.BTensor, intAt blens 1, intAt blens 2, intAt blens 3,
        intAt bstrides 0, intAt bstrides 1, intAt bstrides 2,
        .ptr x.CTensor, intAt clens 1, intAt clens 2, intAt clens 3,
        intAt cstrides 0, intAt cstrides 1, intAt cstrides 2,
        .alpha0, .alpha1, .beta, .uint v.bitmap, .int v.work_per_wg] ++ offsetArgs x ++
        [.int (toInt v.num_wg_orig)] }

/-- `OpTensor4d`: the kernel it looks up, and what it passes to `AddKernel` and to the
kernel call. -/
def OpTensor4d.plan (T : TypeTable) (x : OpTensorArgs) : Launch :=
  OpTensor4d.branch T x (OpTensor4d.locals T x)

/-- `OpTensor4d`. -/
def OpTensor4d (T : TypeTable) (handle : Handle) (x : OpTensorArgs) : Handle :=
  handle.run (OpTensor4d.plan T x)

/-- `OpTensorOther`, up to the branch on `bsize`.  The fields that `OpTensorOther` does
not have (`incr_wg`, `fwd_conv_bias`, `leading_ones`, the packing flags) are left at
0 / `false`.  `parms` holds the options common to all variants. -/
def OpTensorOther.locals (T : TypeTable) (x : OpTensorArgs) : Locals :=
  let blens := x.bTensorDesc.lens
  let clens := x.cTensorDesc.lens
  let g := computeGrid blens clens
  let num_wg := g.num_wg
  let num_wg_orig := num_wg
  let max_num_wg : Int := 4096
  let num_wg := if num_wg > max_num_wg then max_num_wg else num_wg
  let local_threads : Nat := 256
  let global_threads : Nat := toSizeT num_wg * local_threads % 2 ^ 64
  let network_config := toString (T.code x.bTensorDesc.type) ++
    toString (T.code x.aTensorDesc.type) ++ toString x.tensorOp ++
    toString global_threads ++ toString local_threads
  let parms := " -DMIOPEN_TYPE=" ++ T.GetDataType x.bTensorDesc.type ++
    " -DMAX_NUM_WG=" ++ toString max_num_wg ++
    precisionParms x.aTensorDesc.type ++ " -DMIOPEN_TENSOR_OP=" ++ tensorOpParm x.tensorOp
  { d := g.d, bitmap := g.bitmap, work_per_wg := g.work_per_wg, num_wg := num_wg,
    num_wg_orig := num_wg_orig, max_num_wg := max_num_wg, incr_wg := 0, fwd_conv_bias := 0,
    leading_ones := false, local_threads := local_threads, global_threads := global_threads,
    packed_tensor := false, packed_equal_tensor := false,
    network_config := network_config, parms := parms,
    program_name := "MIOpenTensorKernels.cl" }

/-- `OpTensorOther`, from the branch on: the kernel it looks up, and what it passes to
`AddKernel` and to the kernel call; `none` when `bsize` is none of 5, 2 and 1, in which
case no branch is taken. -/
def OpTensorOther.branch (x : OpTensorArgs) (v : Locals) : Option Launch :=
  let blens := x.bTensorDesc.lens
  let clens := x.cTensorDesc.lens
  let astrides := x.aTensorDesc.strides
  let bstrides := x.bTensorDesc.strides
  let bsize := blens.length
  let cstrides := x.cTensorDesc.strides
  let vld := [v.local_threads, 1, 1]
  let vgd := [v.global_threads, 1, 1]
  let tail : List KernelArg :=
    [.alpha0, .alpha1, .beta, .uint v.bitmap, .int v.work_per_wg] ++ offsetArgs x ++
      [.int (toInt v.num_wg_orig)]
  if bsize = 5 then
    some { algorithm := "Op5dTensorGeneric", network_config := v.network_config,
           program_name := v.program_name, kernel_name := "Op5dTensorGeneric",
           vld := vld, vgd := vgd, parms := v.parms ++ " -DUSE_5D_TENSOR_GENERIC",
           args := [.ptr x.ATensor, intAt astrides 0, intAt astrides 1, intAt astrides 2,
             intAt astrides 3, .ptr x.BTensor, intAt blens 1, intAt blens 2, intAt blens 3,
             intAt blens 4, intAt bstrides 0, intAt bstrides 1, intAt bstrides 2,
             intAt bstrides 3, .ptr x.CTensor, intAt clens 1, intAt clens 2, intAt clens 3,
             intAt clens 4, intAt cstrides 0, intAt cstrides 1, intAt cstrides 2,
             intAt cstrides 3] ++ tail }
  else if bsize = 2 then
    some { algorithm := "Op2dTensorGeneric", network_config := v.network_config,
           program_name := v.program_name, kernel_name := "Op2dTensorGeneric",
           vld := vld, vgd := vgd, parms := v.parms ++ " -DUSE_2D_TENSOR_GENERIC",
           args := [.ptr x.ATensor, intAt astrides 0, .ptr x.BTensor, intAt blens 1,
             intAt bstrides 0, .ptr x.CTensor, intAt clens 1, intAt cstrides 0] ++ tail }
  else if bsize = 1 then
    some { algorithm := "Op1dTensorGeneric", network_config := v.network_config,
           program_name := v.program_name, kernel_name := "Op1dTensorGeneric",
           vld := vld, vgd := vgd, parms := v.parms ++ " -DUSE_1D_TENSOR_GENERIC",
           args := [.ptr x.ATensor, .ptr x.BTensor, intAt blens 0, .ptr x.CTensor,
             intAt clens 0] ++ tail }
  else none

/-- `OpTensorOther`: the kernel it looks up, and what it passes to `AddKernel` and to the
kernel call, if any. -/
def OpTensorOther.plan (T : TypeTable) (x : OpTensorArgs) : Option Launch :=
  OpTensorOther.branch x (OpTensorOther.locals T x)

/-- `OpTensorOther`. -/
def OpTensorOther (T : TypeTable) (handle : Handle) (x : OpTensorArgs) : Handle :=
  match OpTensorOther.plan T x with
  | some l => handle.run l
  | none => handle

/-- The status codes of `miopenStatus_t` that the embedded code names. -/
inductive miopenStatus_t
  | miopenStatusSuccess
  | miopenStatusBadParm
  deriving DecidableEq, Repr

/-- The argument of a `MIOPEN_THROW`: a status code or a message. -/
inductive Thrown
  | status (s : miopenStatus_t)
  | message (msg : String)
  deriving DecidableEq, Repr

/-- The status code that the statement raising the exception passes to `MIOPEN_THROW`, if
it passes one. -/
def Thrown.namedStatus : Thrown → Option miopenStatus_t
  | .status s => some s
  | .message _ => none

/-- The loop of `OpTensor` over the dimensions, from index `i` on: the first index at
which the length of B is neither 1 nor the length of C. -/
def broadcastMismatch : Nat → List Nat → List Nat → Option Nat
  | i, b :: blens, c :: clens =>
    if b ≠ 1 ∧ b ≠ c then some i else broadcastMismatch (i + 1) blens clens
  | _, _, _ => none

/-- `OpTensor`: the exception thrown by its own checks (`none` when they all pass), and
the handle after the call.  Failures inside the collaborators (`visit_float`,
`GetDataType`, the handle's compiler) are outside the model. -/
def OpTensor (T : TypeTable) (handle : Handle) (x : OpTensorArgs) : Option Thrown × Handle :=
  if x.ATensor = 0 ∨ x.BTensor = 0 ∨ x.CTensor = 0 then
    (some (.status .miopenStatusBadParm), handle)
  else if x.aTensorDesc.GetElementSize ≠ x.cTensorDesc.GetElementSize then
    (some (.message "A and C Tensors do not match"), handle)
  else if x.bTensorDesc.type ≠ x.cTensorDesc.type then
    (some (.message "Datatypes for B and C tensors do not match !"), handle)
  else
    let blens := x.bTensorDesc.lens
    let clens := x.cTensorDesc.lens
    if clens.length > 5 then
      (some (.message ("Tensor dimension larger than 5: " ++ toString clens.length)), handle)
    else if blens.length ≠ clens.length then
      (some (.message ("Number of dims in B and C Tensors do not match: " ++
        toString blens.length ++ ", " ++ toString clens.length)), handle)
    else
      match broadcastMismatch 0 blens clens with
      | some i =>
        (some (.message ("BTensor dim != 1 && BTensor dim != CTensor dim: " ++ toString i)),
          handle)
      | none =>
        let bsize := blens.length
        if bsize = 3 then (none, OpTensor3d T handle x)
        else if bsize = 4 then (none, OpTensor4d T handle x)
        else (none, OpTensorOther T handle x)

/-- The six conditions of claim C1 under which `OpTensor` is to reject a call, in the
claim's words: a null data pointer; different element counts of A and C; different data
types of B and C; more than 5 dimensions of C; different numbers of dimensions of B and
C; a dimension `i` with `B[i] ≠ 1` and `B[i] ≠ C[i]`. -/
def ValidationFailure (x : OpTensorArgs) : Prop :=
  (x.ATensor = 0 ∨ x.BTensor = 0 ∨ x.CTensor = 0) ∨
  x.aTensorDesc.GetElementSize ≠ x.cTensorDesc.GetElementSize ∨
  x.bTensorDesc.type ≠ x.cTensorDesc.type ∨
  5 < x.cTensorDesc.lens.length ∨
  x.bTensorDesc.lens.length ≠ x.cTensorDesc.lens.length ∨
  ∃ (i : Nat) (bi ci : Nat), x.bTensorDesc.lens[i]? = some bi ∧
    x.cTensorDesc.lens[i]? = some ci ∧ bi ≠ 1 ∧ bi ≠ ci

/-- The dispatch at the end of `OpTensor`, on the number of dimensions of B. -/
def OpTensor.dispatch (T : TypeTable) (handle : Handle) (x : OpTensorArgs) : Handle :=
  if x.bTensorDesc.lens.length = 3 then OpTensor3d T handle x
  else if x.bTensorDesc.lens.length = 4 then OpTensor4d T handle x
  else OpTensorOther T handle x

/-- The kernel a call that passed the checks of `OpTensor` plans, by the dispatch on the
number of dimensions of B (`none` when `OpTensorOther` takes no branch). -/
def OpTensor.plan (T : TypeTable) (x : OpTensorArgs) : Option Launch :=
  if x.bTensorDesc.lens.length = 3 then some (OpTensor3d.plan T x)
  else if x.bTensorDesc.lens.length = 4 then some (OpTensor4d.plan T x)
  else OpTensorOther.plan T x

/-- The work-group count of claim C23 in the claim's words: the product of the lengths of
B over the dimensions whose length is not 1 (1 if there are none). -/
def nonOnesProduct (blens : List Nat) : Nat := (blens.filter (fun l => l != 1)).prod

/-- The algorithm names of the kernels launched by a sequence of handle operations. -/
def launchedAlgorithms (events : List Event) : List String :=
  events.filterMap (fun e => match e with
    | .launch k _ => some k.algorithm
    | _ => none)

/-- The first strategy of section 4.7 in the spec's words: only the channel dimension of
B does not broadcast, i.e. B's lengths are `[1, c, 1, 1]` with `c ≠ 1`. -/
def isChannelBias : List Nat → Bool
  | [b0, b1, b2, b3] => b0 == 1 && b1 != 1 && b2 == 1 && b3 == 1
  | _ => false

/-- The third strategy of section 4.7 in the words of claim C2: the dimensions of B with
length other than 1 form a (possibly empty) prefix, followed only by 1s. -/
def nonOnesFormPrefix (blens : List Nat) : Bool :=
  (blens.dropWhile (fun l => l != 1)).all (fun l => l == 1)

/-- The priority list of section 4.7 for a 4-D call, in the spec's words; to be compared
with the kernel `OpTensor4d` selects. -/
def strategy4d (x : OpTensorArgs) : String :=
  let packed := x.aTensorDesc.IsPacked && x.bTensorDesc.IsPacked && x.cTensorDesc.IsPacked
  if isChannelBias x.bTensorDesc.lens then
    if packed then "OpTensorFwdBias" else "OpTensorFwdBiasGeneric"
  else if packed && decide (x.bTensorDesc.GetElementSize = x.cTensorDesc.GetElementSize) then
    "Op4dTensorLite"
  else if nonOnesFormPrefix x.bTensorDesc.lens then
    if packed then "OpTensorLeadingOnes" else "OpTensorLeadingOnesGeneric"
  else "Op4dTensorGeneric"

/-- The broadcast pattern of B: for each dimension, whether its length differs from 1. -/
def pattern (blens : List Nat) : List Bool := blens.map (fun l => l != 1)

/-- `firstNotOneDistance` read off the broadcast pattern. -/
def patternDistance (pat : List Bool) : Nat :=
  pat.length - (pat.reverse.takeWhile (fun p => !p)).length

/-- The bitmap component of the loop of `CreateBitmapAndGrid`, read off the pattern. -/
def patternBitmap.loop (pat : List Bool) : Nat → Nat → Nat
  | 0, bitmap => bitmap
  | i + 1, bitmap =>
    if pat.getD i true then
      patternBitmap.loop pat i (bitmap ||| (1 <<< (pat.length - (i + 1))))
    else patternBitmap.loop pat i bitmap

/-- The bitmap of `computeGrid`, read off the broadcast pattern. -/
def patternBitmap (pat : List Bool) : Nat :=
  patternBitmap.loop pat (((patternDistance pat : Nat) : Int) - 2 + 1).toNat
    (0 ||| (1 <<< (pat.length - patternDistance pat)))

/-- The type table used to exercise the planner: the enumerators numbered in declaration
order from 0, with C-like type names. -/
def sampleTypes : TypeTable :=
  { code := fun t => match t with
      | .miopenHalf => 0
      | .miopenFloat => 1
      | .miopenInt32 => 2
      | .miopenInt8 => 3
      | .miopenInt8x4 => 4
      | .miopenBFloat16 => 5
      | .miopenDouble => 6,
    GetDataType := fun t => match t with
      | .miopenHalf => "half"
      | .miopenFloat => "float"
      | .miopenInt32 => "int"
      | .miopenInt8 => "int8_t"
      | .miopenInt8x4 => "int8_t"
      | .miopenBFloat16 => "bfloat16"
      | .miopenDouble => "double" }

/-- A packed float descriptor with the given lengths and row-major strides. -/
def packedFloat (lens : List Nat) : TensorDescriptor :=
  { lens := lens,
    strides := (lens.foldr (fun l acc => (l * acc.1, acc.1 :: acc.2)) (1, [])).2,
    type := .miopenFloat, IsPacked := true }

/-- An `OpTensor` call `C = A + B` on packed float tensors, A having the shape of C. -/
def sampleCall (blens clens : List Nat) : OpTensorArgs :=
  { tensorOp := 0, aTensorDesc := packedFloat clens, ATensor := 4096,
    bTensorDesc := packedFloat blens, BTensor := 8192, beta_is_zero := true,
    cTensorDesc := packedFloat clens, CTensor := 12288,
    Aoffset := 0, Boffset := 0, Coffset := 0 }

/-- The forward-bias call used to exercise the launch geometry: C = [8,16,32,32],
B = [1,16,1,1], packed float tensors. -/
def sampleBiasCall : OpTensorArgs := sampleCall [1, 16, 1, 1] [8, 16, 32, 32]

/-- A handle that holds no kernel object and has performed no operation. -/
def emptyHandle : Handle := { kernels := [], trace := [] }

/-! ## The broadcast bitmap and the work split in closed form -/

/-- The work per work-group of claim C23 in the claim's words: the product of the lengths
of C over the dimensions in which the length of B is 1 (1 if there are none). -/
def broadcastWork (blens clens : List Nat) : Nat :=
  (List.zipWith (fun b c => if b = 1 then c else 1) blens clens).prod

/-- The bitmap of claim C22 in the claim's words: the sum of `2 ^ (n - 1 - i)` over the
dimensions `i` in which the length of B is not 1, `n` being the number of dimensions. -/
def broadcastBits (blens : List Nat) : Nat :=
  ((List.range blens.length).map
    (fun i => if blens.getD i 1 ≠ 1 then 2 ^ (blens.length - 1 - i) else 0)).sum

/-- The sum `broadcastBits` read off the broadcast pattern. -/
def patternBits (pat : List Bool) : Nat :=
  ((List.range pat.length).map
    (fun i => if pat.getD i false = true then 2 ^ (pat.length - 1 - i) else 0)).sum

/-! ## `tensorocl.cpp`: `get_worker_sizes` and `flatten_tensor_descriptor` -/

/-- The `while` loop of `two_exp_ceiling_t::operator()` on `(i, n)`, both `std::size_t`;
the first argument bounds the number of iterations (64 suffice, since `n` is halved each
time), `none` when it is used up. -/
def two_exp_ceiling_t.loop : Nat → Nat → Nat → Option Nat
  | 0, i, n => if n = 0 then some i else none
  | fuel + 1, i, n =>
    if n = 0 then some i else two_exp_ceiling_t.loop fuel (i * 2 % 2 ^ 64) (n / 2)

/-- `two_exp_ceiling_t::operator()`; `none` when the assertion `n > 0` fails. -/
def two_exp_ceiling_t (n : Nat) : Option Nat :=
  if n = 0 then none else two_exp_ceiling_t.loop 64 1 (n - 1)

/-- The `std::transform` of `get_worker_sizes`: `two_exp_ceiling_t` applied to every data
size. -/
def get_worker_sizes.transform : List Nat → Option (List Nat)
  | [] => some []
  | d :: data_sizes =>
    match two_exp_ceiling_t d, get_worker_sizes.transform data_sizes with
    | some p, some ps => some (p :: ps)
    | _, _ => none

/-- The `while(n > 1 && i < dim)` loop of `get_worker_sizes`, on `n` and the worker sizes
from index `i` on; `none` when one of its two divisions has the divisor 0. -/
def get_worker_sizes.reduce : Nat → List Nat → Option (List Nat)
  | _, [] => some []
  | n, size_old :: worker_sizes =>
    if n > 1 then
      let w := ((size_old + 2 ^ 64 - 1) % 2 ^ 64 / n + 1) % 2 ^ 64
      if w = 0 then none
      else if size_old / w = 0 then none
      else
        match get_worker_sizes.reduce (n / (size_old / w)) worker_sizes with
        | none => none
        | some rest => some (w :: rest)
    else some (size_old :: worker_sizes)

/-- `get_worker_sizes`. -/
def get_worker_sizes (data_sizes : List Nat) : Option (List Nat) :=
  match get_worker_sizes.transform data_sizes with
  | none => none
  | some worker_sizes =>
    let wgd := worker_sizes.foldl (fun acc w => acc * w % 2 ^ 64) 1
    if wgd > 65536 then get_worker_sizes.reduce (wgd / 65536) worker_sizes
    else some worker_sizes

/-- Claim C30's `p(n)` in the claim's words: `p` is the smallest power of two that is at
least `n`. -/
def IsTwoExpCeiling (n p : Nat) : Prop :=
  (∃ k, p = 2 ^ k) ∧ n ≤ p ∧ ∀ k, n ≤ 2 ^ k → p ≤ 2 ^ k

/-- The first loop of `flatten_tensor_descriptor`: the pairs `(length, stride)` of the
dimensions whose length is greater than 1 (the vectors `lengths` and `strides`). -/
def flatten_tensor_descriptor.nonOnes : List Nat → List Nat → List (Nat × Nat)
  | len :: lens, s :: strides =>
    if len > 1 then (len, s) :: flatten_tensor_descriptor.nonOnes lens strides
    else flatten_tensor_descriptor.nonOnes lens strides
  | _, _ => []

/-- The flattening loop of `flatten_tensor_descriptor`, on the running `flattened_len`,
the stride `strides[i-1]` and the dimensions from index `i` on: the pairs
`(flattened length, flattened stride)` it pushes, followed by the final pair.  `none`
when `full_lengths[i] = strides[i-1] / strides[i]` divides by zero. -/
def flatten_tensor_descriptor.merge : Nat → Nat → List (Nat × Nat) → Option (List (Nat × Nat))
  | flattened_len, prev, [] => some [(flattened_len, prev)]
  | flattened_len, prev, (len, s) :: rest =>
    if s = 0 then none
    else if len = prev / s then
      flatten_tensor_descriptor.merge (flattened_len * len % 2 ^ 64) s rest
    else
      match flatten_tensor_descriptor.merge len s rest with
      | none => none
      | some out => some ((flattened_len, prev) :: out)

/-- `flatten_tensor_descriptor`: `(flattened_dim, flattened_lengths, flattened_strides)`.
The lengths and strides of a descriptor are vectors of the same size. -/
def flatten_tensor_descriptor (desc : TensorDescriptor) : Option (Nat × List Nat × List Nat) :=
  if desc.IsPacked then some (1, [desc.GetElementSize], [1])
  else
    match flatten_tensor_descriptor.nonOnes desc.lens desc.strides with
    | [] => some (1, [1], [1])
    | (len0, s0) :: rest =>
      match flatten_tensor_descriptor.merge len0 s0 rest with
      | none => none
      | some out => some (out.length, out.map (fun p => p.1), out.map (fun p => p.2))

/-- The linear offsets of claim C28: all sums `i_0 * stride_0 + i_1 * stride_1 + ...` with
`0 ≤ i_k < len_k`. -/
def offsets : List Nat → List Nat → List Nat
  | len :: lens, s :: strides =>
    (List.range len).flatMap (fun i => (offsets lens strides).map (fun o => i * s + o))
  | _, _ => [0]

/-- A descriptor of a 2x3 tensor with the strides 7 and 2, not packed. -/
def sampleStrided : TensorDescriptor :=
  { lens := [2, 3], strides := [7, 2], type := .miopenFloat, IsPacked := false }

/-- A descriptor of a 2x3x4 view into a packed 2x6x4 tensor: strides 24, 4 and 1, not
packed. -/
def sampleView : TensorDescriptor :=
  { lens := [2, 3, 4], strides := [24, 4, 1], type := .miopenFloat, IsPacked := false }

/-- The offsets of claim C28 for a list of pairs `(length, stride)`. -/
def pairOffsets (ps : List (Nat × Nat)) : List Nat :=
  offsets (ps.map (fun p => p.1)) (ps.map (fun p => p.2))

/-- The condition under which the flattening loop merges correctly: whenever the length
of a dimension equals the truncated quotient `strides[i-1] / strides[i]`, that quotient is
exact, i.e. `strides[i-1] = len[i] * strides[i]`. -/
def ExactQuotient (a b : Nat × Nat) : Prop := b.1 = a.2 / b.2 → a.2 = b.1 * b.2

/-! ## `solver/groupnorm/forward_groupnorm.cpp` -/

namespace groupnorm

/-- The macro `LOCAL_SIZE` of `forward_groupnorm.cpp`. -/
def LOCAL_SIZE : Nat := 256

/-- The part of `miopen::groupnorm::ProblemDescription` read by `GetSolution`: the
descriptor of x and `GetNumGroups()` as the `size_t` it is stored into. -/
structure ProblemDescription where
  xDesc : TensorDescriptor
  num_groups : Nat

/-- The fields of `KernelInfo` set by `GetSolution`. -/
structure KernelInfo where
  kernel_file : String
  kernel_name : String
  comp_options : String
  l_wk : List Nat
  g_wk : List Nat

/-- The part of `ConvSolution` built by `GetSolution`; the invoker factory, which only
forwards the invoke parameters to the kernel, is left out. -/
structure ConvSolution where
  status : miopenStatus_t
  construction_params : List KernelInfo

/-- The initializer list from which `GetSolution` constructs its
`KernelBuildParameters`: the defines and their values, in order. -/
def build_params (dtype : miopenDataType_t) : List (String × Int) :=
  [("MIOPEN_USE_FP16", if dtype = .miopenHalf then 1 else 0),
   ("MIOPEN_USE_FP32", if dtype = .miopenFloat then 1 else 0),
   ("MIOPEN_USE_FP64", if dtype = .miopenDouble then 1 else 0),
   ("MIOPEN_USE_BFP16", if dtype = .miopenBFloat16 then 1 else 0),
   ("LOCAL_SIZE", (LOCAL_SIZE : Int))]

/-- `GroupNormForward::GetSolution`.  `GenerateFor` stands for
`KernelBuildParameters::GenerateFor(kbp::HIP{})`, which is defined outside the file;
`none` when `dims[0]` is read from an empty vector of lengths. -/
def GetSolution (GenerateFor : List (String × Int) → String) (problem : ProblemDescription) :
    Option ConvSolution :=
  let dtype := problem.xDesc.type
  let dims := problem.xDesc.lens
  match dims[0]? with
  | none => none
  | some dims0 =>
    let num_groups := problem.num_groups
    let outer_size := dims0 * num_groups % 2 ^ 64
    let xlocalsize := LOCAL_SIZE
    let xgridsize := outer_size * xlocalsize % 2 ^ 64
    let ylocalsize := 1
    let ygridsize := 1
    let zlocalsize := 1
    let zgridsize := 1
    let kernel : KernelInfo :=
      { kernel_file := "MIOpenGroupNorm.cpp", kernel_name := "GroupNormFwdContiguous",
        comp_options := GenerateFor (build_params dtype),
        l_wk := [xlocalsize, ylocalsize, zlocalsize],
        g_wk := [xgridsize, ygridsize, zgridsize] }
    some { status := .miopenStatusSuccess, construction_params := [kernel] }

/-- A stand-in for `GenerateFor(kbp::HIP{})`: each define as `-DNAME=value`, separated by
blanks. -/
def sampleGenerateFor (ps : List (String × Int)) : String :=
  " ".intercalate (ps.map (fun p => "-D" ++ p.1 ++ "=" ++ toString p.2))

/-- A group-norm problem on a packed float tensor of lengths [4,32,16,16] with 8 groups. -/
def sampleGroupNorm : ProblemDescription :=
  { xDesc := packedFloat [4, 32, 16, 16], num_groups := 8 }

end groupnorm

/-! ## `conv_hip_implicit_gemm_3d_grouped_fwd_xdlops.cpp` -/

namespace solver

/-- The values the solver reads from a `ProblemDescription`: the `ProblemInterpreter`
getters used by `CKArgs` (each is stored into an `int`), the three data types of
`conv_problem`, and the predicates tested by `IsApplicable`.  The descriptor itself is a
read-only oracle for the solver. -/
structure ProblemDescription where
  GroupCountG : Int
  BatchN : Int
  OutputChannelK : Int
  InputChannelC : Int
  InputHeightHi : Int
  InputWidthWi : Int
  OutputHeightHo : Int
  OutputWidthWo : Int
  FilterHeightY : Int
  FilterWidthX : Int
  InputDepthDi : Int
  OutputDepthDo : Int
  FilterDepthZ : Int
  AdjustedConvolutionStrideD : Int
  AdjustedConvolutionStrideH : Int
  AdjustedConvolutionStrideW : Int
  AdjustedConvolutionDilationD : Int
  AdjustedConvolutionDilationH : Int
  AdjustedConvolutionDilationW : Int
  InputLeftPadD : Int
  InputLeftPadH : Int
  InputLeftPadW : Int
  AdjustedInputRightPadD : Int
  AdjustedInputRightPadH : Int
  AdjustedInputRightPadW : Int
  InDataType : miopenDataType_t
  WeightsDataType : miopenDataType_t
  OutDataType : miopenDataType_t
  IsForward : Bool
  Is3d : Bool
  IsLayoutNHWC : Bool

/-- The struct `CKArgs`: lengths, strides, dilations and paddings handed to the backend. -/
structure CKArgs where
  G : Int
  N : Int
  K : Int
  C : Int
  C1 : Int
  K1 : Int
  Hi : Int
  Wi : Int
  Di : Int
  Ho : Int
  Wo : Int
  Do : Int
  Y : Int
  X : Int
  Z : Int
  input : List Int
  in_strides : List Int
  output : List Int
  out_strides : List Int
  weight : List Int
  wei_strides : List Int
  strides : List Int
  dilation : List Int
  lPadding : List Int
  rPadding : List Int

/-- The constructor `CKArgs(const ProblemDescription&)`.  All members are `int`: `C1 / G`
and `K1 / G` are the truncating `int` divisions of C++, and the constructor does not
return when they trap (`none`); the stride products are formed from left to right in
32-bit `int`. -/
def CKArgs.ofProblem (problem : ProblemDescription) : Option CKArgs :=
  let G := problem.GroupCountG
  let N := problem.BatchN
  let K1 := problem.OutputChannelK
  let C1 := problem.InputChannelC
  match intDiv C1 G with
  | none => none
  | some C =>
    match intDiv K1 G with
    | none => none
    | some K =>
      let Hi := problem.InputHeightHi
      let Wi := problem.InputWidthWi
      let Ho := problem.OutputHeightHo
      let Wo := problem.OutputWidthWo
      let Y := problem.FilterHeightY
      let X := problem.FilterWidthX
      let Di := problem.InputDepthDi
      let Do := problem.OutputDepthDo
      let Z := problem.FilterDepthZ
      some
        { G := G, N := N, K := K, C := C, C1 := C1, K1 := K1, Hi := Hi, Wi := Wi, Di := Di,
          Ho := Ho, Wo := Wo, Do := Do, Y := Y, X := X, Z := Z,
          input := [G, N, C, Di, Hi, Wi],
          output := [G, N, K, Do, Ho, Wo],
          weight := [G, K, C, Z, Y, X],
          in_strides := [C, intMul (intMul (intMul (intMul Di Hi) Wi) G) C, 1,
            intMul (intMul (intMul Hi Wi) G) C, intMul (intMul Wi G) C, intMul G C],
          out_strides := [K, intMul (intMul (intMul (intMul Do Ho) Wo) G) K, 1,
            intMul (intMul (intMul Ho Wo) G) K, intMul (intMul Wo G) K, intMul G K],
          wei_strides := [C, intMul (intMul (intMul (intMul Z Y) X) G) C, 1,
            intMul (intMul (intMul Y X) G) C, intMul (intMul X G) C, intMul G C],
          strides := [problem.AdjustedConvolutionStrideD, problem.AdjustedConvolutionStrideH,
            problem.AdjustedConvolutionStrideW],
          dilation := [problem.AdjustedConvolutionDilationD,
            problem.AdjustedConvolutionDilationH, problem.AdjustedConvolutionDilationW],
          lPadding := [problem.InputLeftPadD, problem.InputLeftPadH, problem.InputLeftPadW],
          rPadding := [problem.AdjustedInputRightPadD, problem.AdjustedInputRightPadH,
            problem.AdjustedInputRightPadW] }

/-- The template parameter `DataType` of `DeviceOpGFwdPtrs<DataType>`. -/
inductive CKDataType
  | half_t
  | float
  | int8_t
  deriving DecidableEq, Repr

/-- One element of `DeviceOpGFwdPtrs<DataType>::GetInstances()`: its type string and its
answer to `IsSupportedArgument` on the argument built by `MakeArgumentPointer` from the
lengths, strides, dilations and paddings of a `CKArgs` (the data pointers are null in
every applicability query). -/
structure DeviceOp where
  GetTypeString : String
  IsSupportedArgument : CKArgs → Bool

/-- The backend library: `DeviceOpGFwdPtrs<DataType>::GetInstances()` for each `DataType`. -/
abbrev Backend := CKDataType → List DeviceOp

/-- The members of `PerformanceConfigHipImplicitGemm3DGroupFwdXdlops`. -/
structure PerformanceConfigHipImplicitGemm3DGroupFwdXdlops where
  index : Nat
  kernel_id : String
  valid_kernels : List String
  deriving DecidableEq, Repr

/-- The `for` loop of `Init`: every instance that supports the argument has its type
string pushed to the back of `valid_kernels`. -/
def Init.loop (args : CKArgs) : List DeviceOp → List String → List String
  | [], valid_kernels => valid_kernels
  | p :: conv_ptrs, valid_kernels =>
    if p.IsSupportedArgument args then
      Init.loop args conv_ptrs (valid_kernels ++ [p.GetTypeString])
    else
      Init.loop args conv_ptrs valid_kernels

/-- The method `Init<DataType>`.  `none` when the constructor of `CKArgs` traps or one
of the two assertions fails. -/
def Init (be : Backend) (T : CKDataType)
    (self : PerformanceConfigHipImplicitGemm3DGroupFwdXdlops) (problem : ProblemDescription) :
    Option PerformanceConfigHipImplicitGemm3DGroupFwdXdlops :=
  match CKArgs.ofProblem problem with
  | none => none
  | some args =>
    let conv_ptrs := be T
    if conv_ptrs.isEmpty then none
    else
      let valid_kernels := Init.loop args conv_ptrs self.valid_kernels
      match valid_kernels with
      | [] => none
      | k :: _ => some { index := 0, kernel_id := k, valid_kernels := valid_kernels }

/-- The method `HeuristicInit` (build with the HIP backend and composable kernel). -/
def HeuristicInit (be : Backend) (self : PerformanceConfigHipImplicitGemm3DGroupFwdXdlops)
    (problem : ProblemDescription) : Option PerformanceConfigHipImplicitGemm3DGroupFwdXdlops :=
  match problem.InDataType with
  | .miopenHalf => Init be .half_t self problem
  | .miopenFloat => Init be .float self problem
  | .miopenInt8 => Init be .int8_t self problem
  | .miopenInt32 => some self
  | .miopenInt8x4 => some self
  | .miopenBFloat16 => some self
  | .miopenDouble => some self

/-- The method `SetNextValue`: the returned flag and the updated config. -/
def SetNextValue (be : Backend) (self : PerformanceConfigHipImplicitGemm3DGroupFwdXdlops)
    (problem : ProblemDescription) :
    Option (Bool × PerformanceConfigHipImplicitGemm3DGroupFwdXdlops) :=
  if self.valid_kernels.isEmpty then
    match HeuristicInit be self problem with
    | none => none
    | some c => if c.valid_kernels.isEmpty then none else some (true, c)
  else if h : self.index + 1 < self.valid_kernels.length then
    some (true, { self with index := self.index + 1,
                            kernel_id := self.valid_kernels[self.index + 1] })
  else
    some (false, self)

/-- The method `IsValidValue`. -/
def IsValidValue (self : PerformanceConfigHipImplicitGemm3DGroupFwdXdlops) : Bool :=
  decide (self.index < self.valid_kernels.length)

/-- The search loop of `CheckIsSupportCKArgs` and `RunCKSolution`: the position of the
first instance whose type string is `kernel_id`, or the number of instances. -/
def findKernelId (kernel_id : String) : List DeviceOp → Nat
  | [] => 0
  | p :: conv_ptrs =>
    if p.GetTypeString = kernel_id then 0 else findKernelId kernel_id conv_ptrs + 1

/-- The method `CheckIsSupportCKArgs<DataType>`.  `none` when the constructor of
`CKArgs` traps or `conv_ptrs[i]` is read out of range. -/
def CheckIsSupportCKArgs (be : Backend) (T : CKDataType)
    (self : PerformanceConfigHipImplicitGemm3DGroupFwdXdlops) (problem : ProblemDescription) :
    Option Bool :=
  match CKArgs.ofProblem problem with
  | none => none
  | some args =>
    let conv_ptrs := be T
    let i := findKernelId self.kernel_id conv_ptrs
    if i = self.valid_kernels.length then some false
    else
      match conv_ptrs[i]? with
      | none => none
      | some p => some (p.IsSupportedArgument args)

/-- The method `IsValid` (build with the HIP backend and composable kernel). -/
def IsValid (be : Backend) (self : PerformanceConfigHipImplicitGemm3DGroupFwdXdlops)
    (problem : ProblemDescription) : Option Bool :=
  match problem.InDataType with
  | .miopenHalf => CheckIsSupportCKArgs be .half_t self problem
  | .miopenFloat => CheckIsSupportCKArgs be .float self problem
  | .miopenInt8 => CheckIsSupportCKArgs be .int8_t self problem
  | .miopenInt32 => some false
  | .miopenInt8x4 => some false
  | .miopenBFloat16 => some false
  | .miopenDouble => some false

/-- The enumeration loop of `CheckCKApplicability`: returns `true` at the first
supporting instance; when the list is exhausted one diagnostic line is written to the
standard output and `false` is returned. -/
def CheckCKApplicability.loop (args : CKArgs) : List DeviceOp → Bool × List String
  | [] => (false, ["Boom!!! No qualified instances! Game Over!"])
  | p :: conv_ptrs =>
    if p.IsSupportedArgument args then (true, [])
    else CheckCKApplicability.loop args conv_ptrs

/-- The method `CheckCKApplicability<DataType>`: the result and the lines written to
the standard output.  `none` when the assertion on the instance list fails or the
constructor of `CKArgs` traps. -/
def CheckCKApplicability (be : Backend) (T : CKDataType) (problem : ProblemDescription) :
    Option (Bool × List String) :=
  let conv_ptrs := be T
  if conv_ptrs.isEmpty then none
  else
    match CKArgs.ofProblem problem with
    | none => none
    | some args =>
      if !(args.strides.all (fun x => decide (x = 1))) then some (false, [])
      else some (CheckCKApplicability.loop args conv_ptrs)

/-- The two environment toggles consulted by `IsApplicable`:
`IsDisabled(MIOPEN_DEBUG_3D_CONV_IMPLICIT_GEMM_HIP_FWD_XDLOPS)` and
`IsEnabled(MIOPEN_DEBUG_CONVOLUTION_DETERMINISTIC)`. -/
structure DebugEnv where
  solverDisabled : Bool
  deterministic : Bool

/-- The part of `ConvolutionContext` read by `IsApplicable`:
`ctx.GetStream().GetDeviceName()`. -/
structure ConvolutionContext where
  GetDeviceName : String

/-- The method `ConvHipImplicitGemm3DGroupFwdXdlops::IsApplicable` (build with the HIP
backend and composable kernel): the result and the lines written to the standard output. -/
def IsApplicable (env : DebugEnv) (be : Backend) (ctx : ConvolutionContext)
    (problem : ProblemDescription) : Option (Bool × List String) :=
  if env.solverDisabled then some (false, [])
  else if env.deterministic then some (false, [])
  else if problem.InDataType ≠ problem.WeightsDataType ∨
      problem.WeightsDataType ≠ problem.OutDataType ∨
      problem.InDataType ≠ problem.OutDataType then some (false, [])
  else if !problem.IsForward then some (false, [])
  else if !problem.Is3d then some (false, [])
  else if !problem.IsLayoutNHWC then some (false, [])
  else
    let arch := ctx.GetDeviceName
    if !(arch = "gfx908" || arch = "gfx90a") then some (false, [])
    else
      match problem.InDataType with
      | .miopenHalf => CheckCKApplicability be .half_t problem
      | .miopenFloat => CheckCKApplicability be .float problem
      | .miopenInt8 => CheckCKApplicability be .int8_t problem
      | .miopenInt32 => some (false, [])
      | .miopenInt8x4 => some (false, [])
      | .miopenBFloat16 => some (false, [])
      | .miopenDouble => some (false, [])

/-- The method `GetDefaultPerformanceConfig`: `HeuristicInit` on a default-constructed
config (whose candidate list is the empty vector). -/
def GetDefaultPerformanceConfig (be : Backend)
    (pp : PerformanceConfigHipImplicitGemm3DGroupFwdXdlops) (problem : ProblemDescription) :
    Option PerformanceConfigHipImplicitGemm3DGroupFwdXdlops :=
  HeuristicInit be pp problem

/-- Repeated calls of `SetNextValue`: the flags returned by `k` successive calls, in
order, and the config after the last one. -/
def SetNextValueTimes (be : Backend) (problem : ProblemDescription) :
    Nat → PerformanceConfigHipImplicitGemm3DGroupFwdXdlops →
      Option (List Bool × PerformanceConfigHipImplicitGemm3DGroupFwdXdlops)
  | 0, c => some ([], c)
  | k + 1, c =>
    match SetNextValue be c problem with
    | none => none
    | some (b, c') =>
      match SetNextValueTimes be problem k c' with
      | none => none
      | some (bs, c'') => some (b :: bs, c'')

/-- The instantiation chosen by the `switch` on the input data type, shared by
`HeuristicInit`, `IsValid` and `IsApplicable`: `half`, `float` and `int8` have a backend
instantiation, the other four types have none. -/
def ckDataTypeOf : miopenDataType_t → Option CKDataType
  | .miopenHalf => some .half_t
  | .miopenFloat => some .float
  | .miopenInt8 => some .int8_t
  | .miopenInt32 => none
  | .miopenInt8x4 => none
  | .miopenBFloat16 => none
  | .miopenDouble => none

/-- The type strings of the instances that accept the arguments, in enumeration order. -/
def supportingTypeStrings (be : Backend) (T : CKDataType) (args : CKArgs) : List String :=
  ((be T).filter (fun p => p.IsSupportedArgument args)).map (fun p => p.GetTypeString)

/-- Modelled from the spec: a default-constructed config (the constructor is declared in
the solver's header, which is not among the sources): empty identifier, empty candidate
list, index 0. -/
def defaultConfig : PerformanceConfigHipImplicitGemm3DGroupFwdXdlops :=
  { index := 0, kernel_id := "", valid_kernels := [] }

/-- A small float problem used to exercise the definitions: one group, batch 2. -/
def sampleProblem : ProblemDescription :=
  { GroupCountG := 1, BatchN := 2, OutputChannelK := 8, InputChannelC := 4,
    InputHeightHi := 5, InputWidthWi := 5, OutputHeightHo := 3, OutputWidthWo := 3,
    FilterHeightY := 3, FilterWidthX := 3, InputDepthDi := 5, OutputDepthDo := 3,
    FilterDepthZ := 3,
    AdjustedConvolutionStrideD := 1, AdjustedConvolutionStrideH := 1,
    AdjustedConvolutionStrideW := 1,
    AdjustedConvolutionDilationD := 1, AdjustedConvolutionDilationH := 1,
    AdjustedConvolutionDilationW := 1,
    InputLeftPadD := 0, InputLeftPadH := 0, InputLeftPadW := 0,
    AdjustedInputRightPadD := 0, AdjustedInputRightPadH := 0, AdjustedInputRightPadW := 0,
    InDataType := .miopenFloat, WeightsDataType := .miopenFloat, OutDataType := .miopenFloat,
    IsForward := true, Is3d := true, IsLayoutNHWC := true }

/-- A synthetic instance that accepts a problem iff `m` divides the per-group output
channel count. -/
def sampleOp (name : String) (m : Int) : DeviceOp :=
  { GetTypeString := name, IsSupportedArgument := fun a => decide (a.K % m = 0) }

/-- A synthetic backend with three float instances; `sampleProblem` (K = 8) is rejected
by the first and accepted by the other two. -/
def sampleBackend3 : Backend := fun _ =>
  [sampleOp "Fwd<16>" 16, sampleOp "Fwd<8>" 8, sampleOp "Fwd<4>" 4]

/-- A synthetic backend with two instances; `sampleProblem` is rejected by the first and
accepted by the second. -/
def sampleBackend2 : Backend := fun _ =>
  [sampleOp "Fwd<16>" 16, sampleOp "Fwd<8>" 8]

/-- A half-precision problem with an input of 2 x 128 x 512 x 512 x 64 elements (NDHWC,
one group) and a 3x3x3 filter with 64 output channels. -/
def sampleLargeProblem : ProblemDescription :=
  { sampleProblem with
    BatchN := 2, OutputChannelK := 64, InputChannelC := 64,
    InputDepthDi := 128, InputHeightHi := 512, InputWidthWi := 512,
    OutputDepthDo := 126, OutputHeightHo := 510, OutputWidthWo := 510,
    InDataType := .miopenHalf, WeightsDataType := .miopenHalf, OutDataType := .miopenHalf }

/-- The offset of claim C29: `g*s0 + n*s1 + c*s2 + d*s3 + h*s4 + w*s5` for a vector of six
strides `s`. -/
def offset6 (s : List Int) (g n c d h w : Int) : Int :=
  g * s.getD 0 0 + n * s.getD 1 0 + c * s.getD 2 0 + d * s.getD 3 0 + h * s.getD 4 0 +
    w * s.getD 5 0

/-- Claim C29 in the claim's words, for one tensor with six lengths `l` and six strides
`s`: the offset map, over the index ranges given by `l`, is a bijection onto
`[0, l0*l1*l2*l3*l4*l5)`. -/
def DenseLayout (l s : List Int) : Prop :=
  (∀ g n c d h w : Int, 0 ≤ g → g < l.getD 0 0 → 0 ≤ n → n < l.getD 1 0 →
    0 ≤ c → c < l.getD 2 0 → 0 ≤ d → d < l.getD 3 0 → 0 ≤ h → h < l.getD 4 0 →
    0 ≤ w → w < l.getD 5 0 →
    0 ≤ offset6 s g n c d h w ∧ offset6 s g n c d h w < l.prod) ∧
  (∀ g n c d h w g' n' c' d' h' w' : Int, 0 ≤ g → g < l.getD 0 0 → 0 ≤ n → n < l.getD 1 0 →
    0 ≤ c → c < l.getD 2 0 → 0 ≤ d → d < l.getD 3 0 → 0 ≤ h → h < l.getD 4 0 →
    0 ≤ w → w < l.getD 5 0 →
    0 ≤ g' → g' < l.getD 0 0 → 0 ≤ n' → n' < l.getD 1 0 →
    0 ≤ c' → c' < l.getD 2 0 → 0 ≤ d' → d' < l.getD 3 0 → 0 ≤ h' → h' < l.getD 4 0 →
    0 ≤ w' → w' < l.getD 5 0 →
    offset6 s g n c d h w = offset6 s g' n' c' d' h' w' →
    g = g' ∧ n = n' ∧ c = c' ∧ d = d' ∧ h = h' ∧ w = w') ∧
  (∀ o : Int, 0 ≤ o → o < l.prod →
    ∃ g n c d h w : Int, (0 ≤ g ∧ g < l.getD 0 0) ∧ (0 ≤ n ∧ n < l.getD 1 0) ∧
      (0 ≤ c ∧ c < l.getD 2 0) ∧ (0 ≤ d ∧ d < l.getD 3 0) ∧ (0 ≤ h ∧ h < l.getD 4 0) ∧
      (0 ≤ w ∧ w < l.getD 5 0) ∧ offset6 s g n c d h w = o)

end solver

/-! ## `binary_cache.cpp` -/

/-- `operator/` of `std::filesystem::path` on POSIX paths in native string form: an
absolute right operand replaces the left one; otherwise a separator is inserted when the
left operand has a filename (is non-empty and does not end in a separator). -/
def pathAppend (p q : String) : String :=
  match q.data with
  | '/' :: _ => q
  | _ =>
    if p = "" then q
    else if p.data.getLast? = some '/' then p ++ q
    else p ++ "/" ++ q

/-- `path::parent_path()` on POSIX paths: the path without its last component
(`"/a/b/c.o"` gives `"/a/b"`, `"/a"` gives `"/"`, `"a"` gives `""`). -/
def parent_path (p : String) : String :=
  let upto := (p.data.reverse.dropWhile (fun c => c != '/')).reverse
  let stem := (upto.reverse.dropWhile (fun c => c == '/')).reverse
  if upto = [] then ""
  else if stem = [] then "/"
  else String.mk stem

/-- The part of the file system the store touches, with paths compared in their lexical
form: the regular files with their bytes, and the directories. -/
structure FileSystem where
  files : List (String × List UInt8)
  dirs : List String
  deriving DecidableEq, Repr

/-- The bytes of the regular file at `p`, if there is one. -/
def FileSystem.read (fs : FileSystem) (p : String) : Option (List UInt8) :=
  fs.files.lookup p

/-- `std::filesystem::is_directory`. -/
def FileSystem.is_directory (fs : FileSystem) (p : String) : Bool :=
  fs.dirs.contains p

/-- `std::filesystem::exists`. -/
def FileSystem.pathExists (fs : FileSystem) (p : String) : Bool :=
  (fs.read p).isSome || fs.is_directory p

/-- The directory `p` and its ancestors up to (excluding) the root and the empty path. -/
def directoryChain : Nat → String → List String
  | 0, _ => []
  | n + 1, p => if p = "" ∨ p = "/" then [] else p :: directoryChain n (parent_path p)

/-- `std::filesystem::create_directories`: creates `p` and every missing ancestor; it is
an error when `p` is empty or when a regular file is in the way. -/
def create_directories (fs : FileSystem) (p : String) : Except String FileSystem :=
  if p = "" then .error "create_directories: invalid argument"
  else
    let chain := directoryChain (p.length + 1) p
    if chain.any (fun d => (fs.read d).isSome) then .error "create_directories: not a directory"
    else .ok { fs with dirs := (chain.filter (fun d => !fs.dirs.contains d)) ++ fs.dirs }

/-- `std::filesystem::rename` for a regular file: the file at `old_p` is moved to `new_p`,
replacing a regular file there; renaming a file onto itself does nothing.  It is an error
when `old_p` does not exist, when `new_p` is a directory, or when the directory that is
to hold `new_p` does not exist.  Renaming a directory is outside the model and reported
as an error. -/
def rename (fs : FileSystem) (old_p new_p : String) : Except String FileSystem :=
  match fs.read old_p with
  | none =>
    if fs.is_directory old_p then .error "rename: directories are outside the model"
    else .error "rename: no such file or directory"
  | some bytes =>
    if fs.is_directory new_p then .error "rename: is a directory"
    else if parent_path new_p != "" && !fs.is_directory (parent_path new_p)
        && parent_path new_p != "/" then
      .error "rename: no such file or directory"
    else if old_p = new_p then .ok fs
    else .ok { fs with
      files := (new_p, bytes) :: fs.files.filter (fun e => e.1 != old_p && e.1 != new_p) }

/-- `std::filesystem::remove`: deletes the regular file or the empty directory at `p`;
nothing happens when `p` does not exist; a non-empty directory is an error. -/
def remove (fs : FileSystem) (p : String) : Except String FileSystem :=
  if (fs.read p).isSome then .ok { fs with files := fs.files.filter (fun e => e.1 != p) }
  else if fs.is_directory p then
    if fs.files.any (fun e => (p.data ++ ['/']).isPrefixOf e.1.data) ||
        fs.dirs.any (fun d => (p.data ++ ['/']).isPrefixOf d.data) then
      .error "remove: directory not empty"
    else .ok { fs with dirs := fs.dirs.filter (fun d => d != p) }
  else .ok fs

/-- The compile-time configuration read by `binary_cache.cpp`.  `MIOPEN_CACHE_DIR` is
`none` when the macro is not defined; `WIN32` stands for `_WIN32`.  The development
covers the file-based store (`MIOPEN_ENABLE_SQLITE_KERN_CACHE` off). -/
structure BuildConfig where
  MIOPEN_CACHE_DIR : Option String
  MIOPEN_DISABLE_USERDB : Bool
  MIOPEN_DISABLE_SYSDB : Bool
  MIOPEN_BUILD_DEV : Bool
  MIOPEN_VERSION_MAJOR : Nat
  MIOPEN_VERSION_MINOR : Nat
  MIOPEN_VERSION_PATCH : Nat
  MIOPEN_VERSION_TWEAK : String
  WIN32 : Bool

/-- The run-time collaborators of `binary_cache.cpp`: the two environment variables, and
the library helpers `ExpandUser`, `GetSystemDbPath`, `IsNetworkedFilesystem`,
`std::filesystem::temp_directory_path` and `miopen::md5`. -/
structure Host where
  MIOPEN_DISABLE_CACHE : Bool
  MIOPEN_CUSTOM_CACHE_DIR : String
  ExpandUser : String → String
  GetSystemDbPath : String
  IsNetworkedFilesystem : String → Bool
  temp_directory_path : String
  md5 : String → String

/-- The state a call of the store runs in: the file system and the two function-local
statics of `GetCachePath` (`user_path`, `sys_path`), `none` until their initialisation. -/
structure Process where
  fs : FileSystem
  cache_paths : Option (String × String)
  deriving DecidableEq, Repr

/-- `ComputeSysCachePath`. -/
def ComputeSysCachePath (H : Host) (fs : FileSystem) : String :=
  let p := H.ExpandUser H.GetSystemDbPath
  if !fs.pathExists p then "" else p

/-- The path `p` computed by the first half of `ComputeUserCachePath` when
`MIOPEN_CACHE_DIR` is defined as `cache_dir`. -/
def userCachePathName (B : BuildConfig) (H : Host) (cache_dir : String) : String :=
  let custom := H.MIOPEN_CUSTOM_CACHE_DIR
  if custom ≠ "" then H.ExpandUser custom
  else
    let version := toString B.MIOPEN_VERSION_MAJOR ++ "." ++
      toString B.MIOPEN_VERSION_MINOR ++ "." ++
      toString B.MIOPEN_VERSION_PATCH ++ "." ++ B.MIOPEN_VERSION_TWEAK
    let p := pathAppend (H.ExpandUser cache_dir) version
    if !B.MIOPEN_BUILD_DEV && H.IsNetworkedFilesystem p then H.temp_directory_path else p

/-- `ComputeUserCachePath`: the path and the file system after the directory creation. -/
def ComputeUserCachePath (B : BuildConfig) (H : Host) (fs : FileSystem) :
    Except String (String × FileSystem) :=
  match B.MIOPEN_CACHE_DIR with
  | none => .ok ("", fs)
  | some cache_dir =>
    let p := userCachePathName B H cache_dir
    if !fs.pathExists p && !B.MIOPEN_DISABLE_USERDB then
      match create_directories fs p with
      | .error e => .error e
      | .ok fs' => .ok (p, fs')
    else .ok (p, fs)

/-- `GetCachePath`: the first call initialises the two statics, later calls read them. -/
def GetCachePath (B : BuildConfig) (H : Host) (is_system : Bool) (s : Process) :
    Except String (String × Process) :=
  let initialised : Except String (String × String × Process) :=
    match s.cache_paths with
    | some (user_path, sys_path) => .ok (user_path, sys_path, s)
    | none =>
      match ComputeUserCachePath B H s.fs with
      | .error e => .error e
      | .ok (user_path, fs') =>
        let sys_path := ComputeSysCachePath H fs'
        .ok (user_path, sys_path, { fs := fs', cache_paths := some (user_path, sys_path) })
  match initialised with
  | .error e => .error e
  | .ok (user_path, sys_path, s') =>
    if is_system then
      if B.MIOPEN_DISABLE_SYSDB then .ok ("", s') else .ok (sys_path, s')
    else
      if B.MIOPEN_DISABLE_USERDB then .ok ("", s') else .ok (user_path, s')

/-- The path `GetCachePath` answers with once the statics hold `(user_path, sys_path)`. -/
def cachePathOf (B : BuildConfig) (is_system : Bool) (user_path sys_path : String) : String :=
  if is_system then (if B.MIOPEN_DISABLE_SYSDB then "" else sys_path)
  else (if B.MIOPEN_DISABLE_USERDB then "" else user_path)

/-- `IsCacheDisabled`. -/
def IsCacheDisabled (B : BuildConfig) (H : Host) : Bool :=
  match B.MIOPEN_CACHE_DIR with
  | none => true
  | some _ =>
    if B.MIOPEN_DISABLE_USERDB && B.MIOPEN_DISABLE_SYSDB then true
    else H.MIOPEN_DISABLE_CACHE

/-- `GetCacheFile`. -/
def GetCacheFile (B : BuildConfig) (H : Host) (device name args : String) (s : Process) :
    Except String (String × Process) :=
  if B.WIN32 then
    let filename := name ++ ".obj"
    match GetCachePath B H false s with
    | .error e => .error e
    | .ok (root, s') =>
      .ok (pathAppend (pathAppend root (H.md5 (device ++ "-" ++ args))) filename, s')
  else
    let filename := name ++ ".o"
    match GetCachePath B H false s with
    | .error e => .error e
    | .ok (root, s') =>
      .ok (pathAppend (pathAppend root (H.md5 (device ++ ":" ++ args))) filename, s')

/-- The part of `TargetProperties` read by the store. -/
structure TargetProperties where
  DbId : String

/-- `LoadBinary` of the file-based store: the returned path (empty on a miss). -/
def LoadBinary (B : BuildConfig) (H : Host) (target : TargetProperties) (num_cu : Nat)
    (name args : String) (s : Process) : Except String (String × Process) :=
  if IsCacheDisabled B H then .ok ("", s)
  else
    let _ := num_cu
    match GetCacheFile B H target.DbId name args s with
    | .error e => .error e
    | .ok (f, s') => if s'.fs.pathExists f then .ok (f, s') else .ok ("", s')

/-- `SaveBinary` of the file-based store. -/
def SaveBinary (B : BuildConfig) (H : Host) (binary_path : String) (target : TargetProperties)
    (name args : String) (s : Process) : Except String Process :=
  if IsCacheDisabled B H then
    match remove s.fs binary_path with
    | .error e => .error e
    | .ok fs' => .ok { s with fs := fs' }
  else
    match GetCacheFile B H target.DbId name args s with
    | .error e => .error e
    | .ok (p, s1) =>
      match create_directories s1.fs (parent_path p) with
      | .error e => .error e
      | .ok fs2 =>
        match rename fs2 binary_path p with
        | .error e => .error e
        | .ok fs3 => .ok { s1 with fs := fs3 }

/-- A build configuration used to exercise the store: POSIX, both tiers enabled. -/
def sampleBuild : BuildConfig :=
  { MIOPEN_CACHE_DIR := some "~/.cache/miopen", MIOPEN_DISABLE_USERDB := false,
    MIOPEN_DISABLE_SYSDB := false, MIOPEN_BUILD_DEV := false,
    MIOPEN_VERSION_MAJOR := 2, MIOPEN_VERSION_MINOR := 20, MIOPEN_VERSION_PATCH := 0,
    MIOPEN_VERSION_TWEAK := "abc", WIN32 := false }

/-- A host used to exercise the store.  The digest is a stand-in (the length of its
input, in decimal, after a fixed tag), not MD5. -/
def sampleHost : Host :=
  { MIOPEN_DISABLE_CACHE := false, MIOPEN_CUSTOM_CACHE_DIR := "",
    ExpandUser := fun p => match p.data with
      | '~' :: rest => "/home/u" ++ String.mk rest
      | _ => p,
    GetSystemDbPath := "/opt/rocm/share/miopen/db",
    IsNetworkedFilesystem := fun _ => false,
    temp_directory_path := "/tmp",
    md5 := fun x => "d" ++ toString x.length }

/-- A process that has not yet resolved its cache paths, with one compiled artifact of
three bytes in the temporary directory. -/
def sampleProcess : Process :=
  { fs := { files := [("/tmp/kernel.tmp", [0x7f, 0x45, 0x4c])], dirs := ["/tmp"] },
    cache_paths := none }

/-- The sample process after its first call of `GetCachePath`: the user cache directory
has been created and the statics hold the two paths (there is no system cache). -/
def sampleResolvedProcess : Process :=
  { fs := { files := [("/tmp/kernel.tmp", [0x7f, 0x45, 0x4c])],
            dirs := ["/home/u/.cache/miopen/2.20.0.abc", "/home/u/.cache/miopen",
                     "/home/u/.cache", "/home/u", "/home", "/tmp"] },
    cache_paths := some ("/home/u/.cache/miopen/2.20.0.abc", "") }

/-- The sample process after the sample artifact has been saved as kernel `conv` with
arguments `-O3` for device `gfx90a`. -/
def sampleSavedProcess : Process :=
  { fs := { files := [("/home/u/.cache/miopen/2.20.0.abc/d10/conv.o", [0x7f, 0x45, 0x4c])],
            dirs := ["/home/u/.cache/miopen/2.20.0.abc/d10", "/home/u/.cache/miopen/2.20.0.abc",
                     "/home/u/.cache/miopen", "/home/u/.cache", "/home/u", "/home", "/tmp"] },
    cache_paths := some ("/home/u/.cache/miopen/2.20.0.abc", "") }

/-- What `GetDb` (compiled when `MIOPEN_ENABLE_SQLITE_KERN_CACHE` is on) reads beyond
`BuildConfig`: the macro `MIOPEN_EMBED_DB`, and `Handle::GetDbBasename`, which is defined
outside `binary_cache.cpp`. -/
structure KernDbConfig where
  MIOPEN_EMBED_DB : Bool
  GetDbBasename : TargetProperties → Nat → String

/-- The state a call of `GetDb` runs in: the file system and the two function-local
statics of `GetDb` (`user_dir`, `sys_dir`), `none` until their initialisation. -/
structure DbProcess where
  fs : FileSystem
  db_dirs : Option (String × String)
  deriving DecidableEq, Repr

/-- `GetDb`, after its statics: the pair `{sys_path, user_path}` of file names that the
returned database object is built from. -/
def GetDb.paths (K : KernDbConfig) (fs : FileSystem) (user_dir sys_dir : String)
    (target : TargetProperties) (num_cu : Nat) : String × String :=
  let user_path := pathAppend user_dir (K.GetDbBasename target num_cu ++ ".ukdb")
  let sys_path := pathAppend sys_dir (K.GetDbBasename target num_cu ++ ".kdb")
  let user_path := if user_dir = "" then user_dir else user_path
  let sys_path :=
    if !fs.pathExists sys_path then pathAppend sys_dir (target.DbId ++ ".kdb") else sys_path
  let sys_path := if !K.MIOPEN_EMBED_DB && !fs.pathExists sys_path then "" else sys_path
  (sys_path, user_path)

/-- `GetDb`: the first call initialises the two statics, later calls read them. -/
def GetDb (B : BuildConfig) (H : Host) (K : KernDbConfig) (target : TargetProperties)
    (num_cu : Nat) (s : DbProcess) : Except String ((String × String) × DbProcess) :=
  let initialised : Except String (String × String × DbProcess) :=
    match s.db_dirs with
    | some (user_dir, sys_dir) => .ok (user_dir, sys_dir, s)
    | none =>
      match ComputeUserCachePath B H s.fs with
      | .error e => .error e
      | .ok (user_dir, fs') =>
        let sys_dir := ComputeSysCachePath H fs'
        .ok (user_dir, sys_dir, { fs := fs', db_dirs := some (user_dir, sys_dir) })
  match initialised with
  | .error e => .error e
  | .ok (user_dir, sys_dir, s') => .ok (GetDb.paths K s'.fs user_dir sys_dir target num_cu, s')

/-- The two database files of claim C19 in the claim's words, as `(system, user)`: the
user file is `userDir / (basename + ".ukdb")`, or empty when `userDir` is empty; the
system file is `sysDir / (basename + ".kdb")` if that file exists, otherwise
`sysDir / (DbId + ".kdb")`, except that in a non-embedded build the system file is empty
when that second file does not exist either.  To be compared with `GetDb.paths`. -/
def selectedDbFiles (K : KernDbConfig) (fs : FileSystem) (userDir sysDir : String)
    (target : TargetProperties) (num_cu : Nat) : String × String :=
  let basename := K.GetDbBasename target num_cu
  let userFile := if userDir = "" then "" else pathAppend userDir (basename ++ ".ukdb")
  let primary := pathAppend sysDir (basename ++ ".kdb")
  let secondary := pathAppend sysDir (target.DbId ++ ".kdb")
  let sysFile :=
    if fs.pathExists primary then primary
    else if K.MIOPEN_EMBED_DB then secondary
    else if fs.pathExists secondary then secondary
    else ""
  (sysFile, userFile)

/-- The sample build with the user tier switched off (`MIOPEN_DISABLE_USERDB`), the system
tier left on. -/
def sampleBuildNoUserDb : BuildConfig := { sampleBuild with MIOPEN_DISABLE_USERDB := true }

/-- The configuration of a non-embedded SQLite build whose database base name is the
device name followed by `_` and the number of compute units. -/
def sampleKernDb : KernDbConfig :=
  { MIOPEN_EMBED_DB := false,
    GetDbBasename := fun target num_cu => target.DbId ++ "_" ++ toString num_cu }

/-- A process of the SQLite build with both cache directories resolved, in which only the
per-device system database `gfx90a.kdb` is installed. -/
def sampleDbProcess : DbProcess :=
  { fs := { files := [("/opt/rocm/share/miopen/db/gfx90a.kdb", [0x53, 0x51])],
            dirs := ["/opt/rocm/share/miopen/db", "/home/u/.cache/miopen/2.20.0.abc"] },
    db_dirs := some ("/home/u/.cache/miopen/2.20.0.abc", "/opt/rocm/share/miopen/db") }


/-! ## Theorems: binary store -/

theorem create_directories_files (fs fs' : FileSystem) (p : String)
    (h : create_directories fs p = .ok fs') : fs'.files = fs.files := by
  unfold create_directories at h
  split at h
  · cases h
  · dsimp only at h
    split at h
    · cases h
    · cases h
      rfl

theorem ComputeUserCachePath_files (B : BuildConfig) (H : Host) (fs fs' : FileSystem)
    (p : String) (h : ComputeUserCachePath B H fs = .ok (p, fs')) : fs'.files = fs.files := by
  unfold ComputeUserCachePath at h
  split at h
  · cases h
    rfl
  · dsimp only at h
    split at h
    · cases hc : create_directories fs (userCachePathName B H _) with
      | error e => rw [hc] at h; cases h
      | ok fs1 =>
        rw [hc] at h
        cases h
        exact create_directories_files _ _ _ hc
    · cases h
      rfl

theorem GetCachePath_initialised (B : BuildConfig) (H : Host) (is_system : Bool) (s : Process)
    (u sy : String) (h : s.cache_paths = some (u, sy)) :
    GetCachePath B H is_system s = .ok (cachePathOf B is_system u sy, s) := by
  unfold GetCachePath cachePathOf
  simp only [h]
  cases is_system <;> cases B.MIOPEN_DISABLE_SYSDB <;> cases B.MIOPEN_DISABLE_USERDB <;> rfl

theorem GetCachePath_ok (B : BuildConfig) (H : Host) (is_system : Bool) (s s1 : Process)
    (r : String) (h : GetCachePath B H is_system s = .ok (r, s1)) :
    s1.fs.files = s.fs.files ∧
      ∃ u sy, s1.cache_paths = some (u, sy) ∧ r = cachePathOf B is_system u sy := by
  cases hc : s.cache_paths with
  | some us =>
    obtain ⟨u, sy⟩ := us
    rw [GetCachePath_initialised B H is_system s u sy hc] at h
    simp only [Except.ok.injEq, Prod.mk.injEq] at h
    obtain ⟨h1, h2⟩ := h
    subst h2
    exact ⟨rfl, u, sy, hc, h1.symm⟩
  | none =>
    unfold GetCachePath at h
    simp only [hc] at h
    cases hu : ComputeUserCachePath B H s.fs with
    | error e => simp [hu] at h
    | ok v =>
      obtain ⟨u, fs'⟩ := v
      have hf := ComputeUserCachePath_files B H s.fs fs' u hu
      simp only [hu] at h
      have key : s1 = { fs := fs', cache_paths := some (u, ComputeSysCachePath H fs') } ∧
          r = cachePathOf B is_system u (ComputeSysCachePath H fs') := by
        unfold cachePathOf
        split_ifs at h ⊢ <;> cases h <;> exact ⟨rfl, rfl⟩
      obtain ⟨hs1, hr⟩ := key
      subst hs1
      exact ⟨hf, u, _, rfl, hr⟩

theorem rename_read (fs fs' : FileSystem) (old_p new_p : String) (bytes : List UInt8)
    (hold : fs.read old_p = some bytes) (h : rename fs old_p new_p = .ok fs') :
    fs'.read new_p = some bytes := by
  unfold rename at h
  simp only [hold] at h
  split_ifs at h with h1 h2 h3
  · simp only [Except.ok.injEq] at h
    subst h
    rw [← h3]
    exact hold
  · simp only [Except.ok.injEq] at h
    subst h
    simp [FileSystem.read, List.lookup]

theorem lookup_filter_ne (files : List (String × List UInt8)) (old_p new_p : String) :
    (files.filter (fun e => e.1 != old_p && e.1 != new_p)).lookup old_p = none := by
  induction files with
  | nil => rfl
  | cons e es ih =>
    by_cases hk : (e.1 != old_p && e.1 != new_p) = true
    · simp only [List.filter_cons, hk, if_true]
      have hne : (old_p == e.1) = false := by
        simp only [Bool.and_eq_true, bne_iff_ne, ne_eq] at hk
        exact beq_eq_false_iff_ne.mpr (fun h => hk.1 h.symm)
      obtain ⟨k, v⟩ := e
      simp only [List.lookup_cons, hne]
      exact ih
    · simp only [List.filter_cons, hk, if_false, Bool.false_eq_true]
      exact ih

theorem rename_read_old (fs fs' : FileSystem) (old_p new_p : String)
    (hne : old_p ≠ new_p) (h : rename fs old_p new_p = .ok fs') :
    fs'.read old_p = none := by
  unfold rename at h
  cases hold : fs.read old_p with
  | none =>
    simp only [hold] at h
    split_ifs at h
  | some bytes =>
    simp only [hold] at h
    split_ifs at h
    simp only [Except.ok.injEq] at h
    subst h
    have hb : (old_p == new_p) = false := beq_eq_false_iff_ne.mpr hne
    simp only [FileSystem.read, List.lookup_cons, hb]
    exact lookup_filter_ne _ _ _

theorem pathAppend_ne_empty (p q : String) (hq : q ≠ "") : pathAppend p q ≠ "" := by
  have hd : q.data ≠ [] := by
    intro h
    apply hq
    exact String.ext h
  have happ : ∀ a : String, a ++ q ≠ "" := by
    intro a h
    have := congrArg String.data h
    simp only [String.data_append] at this
    have h2 : a.data ++ q.data = [] := this
    exact hd (List.append_eq_nil.mp h2).2
  unfold pathAppend
  split
  · exact hq
  · split_ifs
    · exact hq
    · exact happ _
    · exact happ _

theorem append_suffix_ne_empty (name : String) : name ++ ".o" ≠ "" := by
  intro h
  have := congrArg String.data h
  simp only [String.data_append] at this
  have h2 : name.data ++ (".o" : String).data = [] := this
  have h3 := (List.append_eq_nil.mp h2).2
  exact absurd h3 (by decide)

theorem SaveBinary_LoadBinary_of_saved (B : BuildConfig) (H : Host) (binary_path : String)
    (target : TargetProperties) (num_cu : Nat) (name args : String) (s s' : Process)
    (bytes : List UInt8)
    (hposix : B.WIN32 = false)
    (henabled : IsCacheDisabled B H = false)
    (hfile : s.fs.read binary_path = some bytes)
    (hsave : SaveBinary B H binary_path target name args s = .ok s') :
    ∃ userCacheRoot, GetCachePath B H false s' = .ok (userCacheRoot, s') ∧
      LoadBinary B H target num_cu name args s' =
        .ok (pathAppend (pathAppend userCacheRoot (H.md5 (target.DbId ++ ":" ++ args)))
              (name ++ ".o"), s') ∧
      pathAppend (pathAppend userCacheRoot (H.md5 (target.DbId ++ ":" ++ args)))
        (name ++ ".o") ≠ "" ∧
      s'.fs.read (pathAppend (pathAppend userCacheRoot (H.md5 (target.DbId ++ ":" ++ args)))
        (name ++ ".o")) = some bytes ∧
      (binary_path ≠ pathAppend (pathAppend userCacheRoot
          (H.md5 (target.DbId ++ ":" ++ args))) (name ++ ".o") →
        s'.fs.read binary_path = none) := by
  unfold SaveBinary at hsave
  simp only [henabled, Bool.false_eq_true, if_false] at hsave
  cases hg : GetCacheFile B H target.DbId name args s with
  | error e => simp [hg] at hsave
  | ok v =>
    obtain ⟨p, s1⟩ := v
    simp only [hg] at hsave
    cases hc : create_directories s1.fs (parent_path p) with
    | error e => simp [hc] at hsave
    | ok fs2 =>
      simp only [hc] at hsave
      cases hr : rename fs2 binary_path p with
      | error e => simp [hr] at hsave
      | ok fs3 =>
        simp only [hr, Except.ok.injEq] at hsave
        -- the cache file computed by the save
        unfold GetCacheFile at hg
        simp only [hposix, Bool.false_eq_true, if_false] at hg
        cases hcp : GetCachePath B H false s with
        | error e => simp [hcp] at hg
        | ok w =>
          obtain ⟨root, s1'⟩ := w
          simp only [hcp, Except.ok.injEq, Prod.mk.injEq] at hg
          obtain ⟨hp, hs1⟩ := hg
          subst hs1
          obtain ⟨hfiles, u, sy, hmemo, hroot⟩ := GetCachePath_ok B H false s s1' root hcp
          have hmemo' : s'.cache_paths = some (u, sy) := by rw [← hsave]; exact hmemo
          have hget : GetCachePath B H false s' = .ok (root, s') := by
            rw [GetCachePath_initialised B H false s' u sy hmemo', hroot]
          have hread : s'.fs.read p = some bytes := by
            rw [← hsave]
            apply rename_read fs2 fs3 binary_path p bytes _ hr
            have h2 := create_directories_files _ _ _ hc
            unfold FileSystem.read at hfile ⊢
            rw [h2, hfiles]
            exact hfile
          refine ⟨root, hget, ?_, ?_, ?_, ?_⟩
          · unfold LoadBinary GetCacheFile
            simp only [henabled, hposix, Bool.false_eq_true, if_false, hget, hp]
            have hex : s'.fs.pathExists p = true := by
              unfold FileSystem.pathExists
              rw [hread]
              rfl
            simp only [hex, if_true]
          · exact pathAppend_ne_empty _ _ (append_suffix_ne_empty name)
          · rw [hp]
            exact hread
          · rw [hp]
            intro hne
            rw [← hsave]
            exact rename_read_old fs2 fs3 binary_path p hne hr

theorem dropWhile_head_false {α : Type} (p : α → Bool) (l : List α) (a : α) (t : List α)
    (h : l.dropWhile p = a :: t) : p a = false := by
  induction l with
  | nil => cases h
  | cons x xs ih =>
    by_cases hx : p x = true
    · rw [List.dropWhile_cons_of_pos hx] at h
      exact ih h
    · rw [List.dropWhile_cons_of_neg hx] at h
      cases h
      simpa using hx

theorem length_dropWhile_le {α : Type} (p : α → Bool) (l : List α) :
    (l.dropWhile p).length ≤ l.length :=
  (List.dropWhile_sublist p).length_le

theorem parent_path_length_lt (p : String) (h1 : parent_path p ≠ "")
    (h2 : parent_path p ≠ "/") :
    (parent_path p).length < p.length := by
  unfold parent_path at h1 h2 ⊢
  dsimp only at h1 h2 ⊢
  by_cases hu : (p.data.reverse.dropWhile (fun c => c != '/')).reverse = []
  · rw [if_pos hu] at h1
    exact absurd rfl h1
  · rw [if_neg hu]
    rw [if_neg hu] at h2
    by_cases hs : (((p.data.reverse.dropWhile (fun c => c != '/')).reverse).reverse.dropWhile
        (fun c => c == '/')).reverse = []
    · rw [if_pos hs] at h2
      exact absurd rfl h2
    · rw [if_neg hs]
      simp only [List.reverse_reverse] at hs ⊢
      have hlen1 : (p.data.reverse.dropWhile (fun c => c != '/')).length ≤ p.data.length := by
        have := length_dropWhile_le (fun c => c != '/') p.data.reverse
        simpa using this
      cases hd : p.data.reverse.dropWhile (fun c => c != '/') with
      | nil =>
        rw [hd] at hu
        exact absurd rfl hu
      | cons c cs =>
        have hc : (c != '/') = false :=
          dropWhile_head_false (fun c => c != '/') _ c cs hd
        have hc' : (c == '/') = true := by
          have : c = '/' := by simpa using hc
          subst this
          rfl
        rw [hd] at hlen1
        have hdrop : List.dropWhile (fun c => c == '/') (c :: cs) =
            List.dropWhile (fun c => c == '/') cs := by
          simp only [List.dropWhile_cons, hc', if_true]
        rw [hdrop]
        have hlen2 := length_dropWhile_le (fun c => c == '/') cs
        simp only [List.length_cons] at hlen1
        show ((cs.dropWhile (fun c => c == '/')).reverse).length < p.data.length
        rw [List.length_reverse]
        omega

theorem directoryChain_length (n : Nat) (d d' : String) (h : d' ∈ directoryChain n d) :
    d'.length ≤ d.length := by
  induction n generalizing d with
  | zero => cases h
  | succ n ih =>
    unfold directoryChain at h
    split_ifs at h with hd
    · cases h
    · rcases List.mem_cons.mp h with rfl | h'
      · exact le_refl _
      · have h3 := ih (parent_path d) h'
        by_cases e1 : parent_path d = ""
        · rw [e1] at h3
          exact le_trans h3 (Nat.zero_le _)
        · by_cases e2 : parent_path d = "/"
          · rw [e2] at h'
            cases n with
            | zero => cases h'
            | succ m =>
              unfold directoryChain at h'
              simp at h'
          · exact le_trans h3 (le_of_lt (parent_path_length_lt d e1 e2))

theorem is_directory_iff (fs : FileSystem) (q : String) :
    fs.is_directory q = true ↔ q ∈ fs.dirs := by
  simp [FileSystem.is_directory]

theorem create_directories_ok (fs : FileSystem) (p : String) (hp : p ≠ "")
    (hchain : ∀ d ∈ directoryChain (p.length + 1) p, fs.read d = none) :
    ∃ fs', create_directories fs p = .ok fs' ∧
      (∀ q, fs'.is_directory q = true →
        fs.is_directory q = true ∨ q ∈ directoryChain (p.length + 1) p) ∧
      (p ≠ "/" → fs'.is_directory p = true) := by
  have hany : (directoryChain (p.length + 1) p).any (fun d => (fs.read d).isSome) = false := by
    rw [List.any_eq_false]
    intro d hd
    rw [hchain d hd]
    simp
  refine ⟨{ fs with dirs := ((directoryChain (p.length + 1) p).filter
      (fun d => !fs.dirs.contains d)) ++ fs.dirs }, ?_, ?_, ?_⟩
  · unfold create_directories
    rw [if_neg hp]
    dsimp only
    rw [hany]
    rfl
  · intro q hq
    rw [is_directory_iff] at hq ⊢
    rcases List.mem_append.mp hq with h | h
    · exact Or.inr (List.mem_filter.mp h).1
    · exact Or.inl h
  · intro hroot
    have hmem : p ∈ directoryChain (p.length + 1) p := by
      unfold directoryChain
      rw [if_neg (by
        rintro (e | e)
        · exact hp e
        · exact hroot e)]
      exact List.mem_cons_self _ _
    rw [is_directory_iff]
    apply List.mem_append.mpr
    by_cases hin : p ∈ fs.dirs
    · exact Or.inr hin
    · left
      apply List.mem_filter.mpr
      refine ⟨hmem, ?_⟩
      simpa using hin

theorem rename_ok (fs : FileSystem) (old_p new_p : String) (bytes : List UInt8)
    (hold : fs.read old_p = some bytes) (hnd : fs.is_directory new_p = false)
    (hpar : parent_path new_p = "/" ∨ fs.is_directory (parent_path new_p) = true) :
    ∃ fs', rename fs old_p new_p = .ok fs' := by
  unfold rename
  simp only [hold, hnd, Bool.false_eq_true, if_false]
  have hguard : (parent_path new_p != "" && !fs.is_directory (parent_path new_p)
      && parent_path new_p != "/") = false := by
    rcases hpar with h | h
    · rw [h]; simp
    · rw [h]; simp
  rw [hguard]
  simp only [Bool.false_eq_true, if_false]
  split_ifs
  · exact ⟨_, rfl⟩
  · exact ⟨_, rfl⟩

/-- C4 (binary-store round trip, file-based store, POSIX build): let caching be enabled,
let `userCacheRoot` be what `GetCachePath(false)` answers, and let `binary_path` hold a
regular file.  Provided nothing blocks the move (no regular file sits where a parent
directory of the cache file is needed, and the cache file path is not a directory),
`SaveBinary(binary_path, target, name, args)` completes, and a following
`LoadBinary(target, num_cu, name, args)` returns the non-empty path
`userCacheRoot / md5(target.DbId() + ":" + args) / (name + ".o")`; the file at that path
holds exactly the bytes that were at `binary_path` before the save, and the artifact has
been moved: unless `binary_path` is that very path, no file is left at `binary_path`. -/
theorem SaveBinary_LoadBinary_round_trip (B : BuildConfig) (H : Host) (binary_path : String)
    (target : TargetProperties) (num_cu : Nat) (name args : String) (s s1 : Process)
    (userCacheRoot : String) (bytes : List UInt8)
    (hposix : B.WIN32 = false)
    (henabled : IsCacheDisabled B H = false)
    (hroot : GetCachePath B H false s = .ok (userCacheRoot, s1))
    (hfile : s.fs.read binary_path = some bytes)
    (hparent : parent_path (pathAppend (pathAppend userCacheRoot
      (H.md5 (target.DbId ++ ":" ++ args))) (name ++ ".o")) ≠ "")
    (hchain : ∀ d ∈ directoryChain
        ((parent_path (pathAppend (pathAppend userCacheRoot
          (H.md5 (target.DbId ++ ":" ++ args))) (name ++ ".o"))).length + 1)
        (parent_path (pathAppend (pathAppend userCacheRoot
          (H.md5 (target.DbId ++ ":" ++ args))) (name ++ ".o"))),
      s.fs.read d = none)
    (hnotdir : s1.fs.is_directory (pathAppend (pathAppend userCacheRoot
      (H.md5 (target.DbId ++ ":" ++ args))) (name ++ ".o")) = false) :
    ∃ s', SaveBinary B H binary_path target name args s = .ok s' ∧
      GetCachePath B H false s' = .ok (userCacheRoot, s') ∧
      LoadBinary B H target num_cu name args s' =
        .ok (pathAppend (pathAppend userCacheRoot (H.md5 (target.DbId ++ ":" ++ args)))
              (name ++ ".o"), s') ∧
      pathAppend (pathAppend userCacheRoot (H.md5 (target.DbId ++ ":" ++ args)))
        (name ++ ".o") ≠ "" ∧
      s'.fs.read (pathAppend (pathAppend userCacheRoot (H.md5 (target.DbId ++ ":" ++ args)))
        (name ++ ".o")) = some bytes ∧
      (binary_path ≠ pathAppend (pathAppend userCacheRoot
          (H.md5 (target.DbId ++ ":" ++ args))) (name ++ ".o") →
        s'.fs.read binary_path = none) := by
  obtain ⟨hfiles, u, sy, hmemo, hrootv⟩ := GetCachePath_ok B H false s s1 userCacheRoot hroot
  have hchain1 : ∀ d ∈ directoryChain
      ((parent_path (pathAppend (pathAppend userCacheRoot
        (H.md5 (target.DbId ++ ":" ++ args))) (name ++ ".o"))).length + 1)
      (parent_path (pathAppend (pathAppend userCacheRoot
        (H.md5 (target.DbId ++ ":" ++ args))) (name ++ ".o"))),
      s1.fs.read d = none := by
    intro d hd
    have := hchain d hd
    unfold FileSystem.read at this ⊢
    rw [hfiles]
    exact this
  obtain ⟨fs2, hc, hdirs, hpardir⟩ := create_directories_ok s1.fs _ hparent hchain1
  have hfiles2 := create_directories_files _ _ _ hc
  have hold : fs2.read binary_path = some bytes := by
    unfold FileSystem.read at hfile ⊢
    rw [hfiles2, hfiles]
    exact hfile
  have hnd2 : fs2.is_directory (pathAppend (pathAppend userCacheRoot
      (H.md5 (target.DbId ++ ":" ++ args))) (name ++ ".o")) = false := by
    by_contra hcon
    have hcon' : fs2.is_directory (pathAppend (pathAppend userCacheRoot
        (H.md5 (target.DbId ++ ":" ++ args))) (name ++ ".o")) = true := by
      simpa using hcon
    rcases hdirs _ hcon' with h | h
    · rw [hnotdir] at h
      cases h
    · have hle := directoryChain_length _ _ _ h
      by_cases e2 : parent_path (pathAppend (pathAppend userCacheRoot
          (H.md5 (target.DbId ++ ":" ++ args))) (name ++ ".o")) = "/"
      · rw [e2] at h
        unfold directoryChain at h
        simp at h
      · have hlt := parent_path_length_lt _ hparent e2
        omega
  have hpar : parent_path (pathAppend (pathAppend userCacheRoot
      (H.md5 (target.DbId ++ ":" ++ args))) (name ++ ".o")) = "/" ∨
      fs2.is_directory (parent_path (pathAppend (pathAppend userCacheRoot
        (H.md5 (target.DbId ++ ":" ++ args))) (name ++ ".o"))) = true := by
    by_cases e2 : parent_path (pathAppend (pathAppend userCacheRoot
        (H.md5 (target.DbId ++ ":" ++ args))) (name ++ ".o")) = "/"
    · exact Or.inl e2
    · exact Or.inr (hpardir e2)
  obtain ⟨fs3, hr⟩ := rename_ok fs2 binary_path _ bytes hold hnd2 hpar
  have hsave : SaveBinary B H binary_path target name args s = .ok { s1 with fs := fs3 } := by
    unfold SaveBinary GetCacheFile
    simp only [henabled, hposix, Bool.false_eq_true, if_false, hroot, hc, hr]
  obtain ⟨root', hget, hload, hne, hread, hmoved⟩ :=
    SaveBinary_LoadBinary_of_saved B H binary_path target num_cu name args s
      { s1 with fs := fs3 } bytes hposix henabled hfile hsave
  have hroot' : root' = userCacheRoot := by
    have h2 := GetCachePath_initialised B H false { s1 with fs := fs3 } u sy hmemo
    rw [h2] at hget
    simp only [Except.ok.injEq, Prod.mk.injEq, and_true] at hget
    rw [← hget, hrootv]
  subst hroot'
  exact ⟨_, hsave, hget, hload, hne, hread, hmoved⟩

/-- Witness for C4: the sample artifact is saved and loaded back on the sample host. -/
theorem SaveBinary_LoadBinary_round_trip_witness :
    sampleBuild.WIN32 = false ∧ IsCacheDisabled sampleBuild sampleHost = false ∧
    GetCachePath sampleBuild sampleHost false sampleProcess =
      .ok ("/home/u/.cache/miopen/2.20.0.abc", sampleResolvedProcess) ∧
    sampleProcess.fs.read "/tmp/kernel.tmp" = some [0x7f, 0x45, 0x4c] ∧
    SaveBinary sampleBuild sampleHost "/tmp/kernel.tmp" { DbId := "gfx90a" } "conv" "-O3"
        sampleProcess = .ok sampleSavedProcess ∧
    LoadBinary sampleBuild sampleHost { DbId := "gfx90a" } 104 "conv" "-O3"
        sampleSavedProcess =
      .ok ("/home/u/.cache/miopen/2.20.0.abc/d10/conv.o", sampleSavedProcess) ∧
    ∃ s', SaveBinary sampleBuild sampleHost "/tmp/kernel.tmp" { DbId := "gfx90a" } "conv"
        "-O3" sampleProcess = .ok s' ∧
      GetCachePath sampleBuild sampleHost false s' =
        .ok ("/home/u/.cache/miopen/2.20.0.abc", s') ∧
      LoadBinary sampleBuild sampleHost { DbId := "gfx90a" } 104 "conv" "-O3" s' =
        .ok (pathAppend (pathAppend "/home/u/.cache/miopen/2.20.0.abc"
              (sampleHost.md5 ("gfx90a" ++ ":" ++ "-O3"))) ("conv" ++ ".o"), s') ∧
      pathAppend (pathAppend "/home/u/.cache/miopen/2.20.0.abc"
        (sampleHost.md5 ("gfx90a" ++ ":" ++ "-O3"))) ("conv" ++ ".o") ≠ "" ∧
      s'.fs.read (pathAppend (pathAppend "/home/u/.cache/miopen/2.20.0.abc"
        (sampleHost.md5 ("gfx90a" ++ ":" ++ "-O3"))) ("conv" ++ ".o")) =
          some [0x7f, 0x45, 0x4c] ∧
      ("/tmp/kernel.tmp" ≠ pathAppend (pathAppend "/home/u/.cache/miopen/2.20.0.abc"
          (sampleHost.md5 ("gfx90a" ++ ":" ++ "-O3"))) ("conv" ++ ".o") →
        s'.fs.read "/tmp/kernel.tmp" = none) :=
  ⟨rfl, rfl, rfl, rfl, rfl, rfl,
    SaveBinary_LoadBinary_round_trip sampleBuild sampleHost "/tmp/kernel.tmp"
      { DbId := "gfx90a" } 104 "conv" "-O3" sampleProcess sampleResolvedProcess
      "/home/u/.cache/miopen/2.20.0.abc" [0x7f, 0x45, 0x4c] rfl rfl rfl rfl
      (by decide) (by decide) (by decide)⟩

/-! ## Theorems: performance-config search and applicability -/

namespace solver

theorem Init_loop_eq (args : CKArgs) (conv_ptrs : List DeviceOp) (valid_kernels : List String) :
    Init.loop args conv_ptrs valid_kernels =
      valid_kernels ++
        (conv_ptrs.filter (fun p => p.IsSupportedArgument args)).map
          (fun p => p.GetTypeString) := by
  induction conv_ptrs generalizing valid_kernels with
  | nil => simp [Init.loop]
  | cons p ps ih =>
    by_cases hp : p.IsSupportedArgument args = true
    · simp [Init.loop, hp, ih]
    · simp [Init.loop, hp, ih]

theorem CKArgs_ofProblem_none_iff (problem : ProblemDescription) :
    CKArgs.ofProblem problem = none ↔
      (problem.GroupCountG = 0 ∨
        (problem.GroupCountG = -1 ∧
          (problem.InputChannelC = -2 ^ 31 ∨ problem.OutputChannelK = -2 ^ 31))) := by
  unfold CKArgs.ofProblem intDiv
  dsimp only
  by_cases hG : problem.GroupCountG = 0
  · simp [hG]
  · by_cases hC : problem.InputChannelC = -2 ^ 31 ∧ problem.GroupCountG = -1
    · simp [hG, hC]
    · rw [if_neg hG, if_neg hC]
      dsimp only
      by_cases hK : problem.OutputChannelK = -2 ^ 31 ∧ problem.GroupCountG = -1
      · simp [hG, hK]
      · rw [if_neg hG, if_neg hK]
        dsimp only
        constructor
        · intro h; cases h
        · rintro (h | ⟨h1, h2 | h2⟩)
          · exact absurd h hG
          · exact absurd ⟨h2, h1⟩ hC
          · exact absurd ⟨h2, h1⟩ hK

theorem CKArgs_ofProblem_strides (problem : ProblemDescription) (args : CKArgs)
    (h : CKArgs.ofProblem problem = some args) :
    args.strides = [problem.AdjustedConvolutionStrideD, problem.AdjustedConvolutionStrideH,
      problem.AdjustedConvolutionStrideW] := by
  unfold CKArgs.ofProblem at h
  dsimp only at h
  cases hC : intDiv problem.InputChannelC problem.GroupCountG with
  | none => rw [hC] at h; cases h
  | some C =>
    rw [hC] at h
    dsimp only at h
    cases hK : intDiv problem.OutputChannelK problem.GroupCountG with
    | none => rw [hK] at h; cases h
    | some K =>
      rw [hK] at h
      simp only [Option.some.injEq] at h
      subst h
      rfl

theorem Init_of_empty (be : Backend) (T : CKDataType)
    (self : PerformanceConfigHipImplicitGemm3DGroupFwdXdlops) (problem : ProblemDescription)
    (args : CKArgs) (hargs : CKArgs.ofProblem problem = some args)
    (hself : self.valid_kernels = [])
    (hsup : ∃ p ∈ be T, p.IsSupportedArgument args = true) :
    ∃ k, (supportingTypeStrings be T args).head? = some k ∧
      Init be T self problem =
        some { index := 0, kernel_id := k,
               valid_kernels := supportingTypeStrings be T args } := by
  obtain ⟨p, hp, hs⟩ := hsup
  have hne : (be T).isEmpty = false := by
    cases h : be T with
    | nil => rw [h] at hp; cases hp
    | cons a l => rfl
  have hmem : p.GetTypeString ∈ supportingTypeStrings be T args := by
    unfold supportingTypeStrings
    exact List.mem_map.mpr ⟨p, List.mem_filter.mpr ⟨hp, by simpa using hs⟩, rfl⟩
  unfold Init
  rw [hargs]
  simp only [hne, Bool.false_eq_true, if_false, Init_loop_eq, hself, List.nil_append]
  unfold supportingTypeStrings at hmem ⊢
  generalize List.map (fun p => p.GetTypeString)
    (List.filter (fun p => p.IsSupportedArgument args) (be T)) = l at hmem ⊢
  cases l with
  | nil => cases hmem
  | cons k ks => exact ⟨k, rfl, rfl⟩

theorem Init_of_trap (be : Backend) (T : CKDataType)
    (self : PerformanceConfigHipImplicitGemm3DGroupFwdXdlops) (problem : ProblemDescription)
    (hargs : CKArgs.ofProblem problem = none) : Init be T self problem = none := by
  unfold Init
  rw [hargs]

theorem Init_some (be : Backend) (T : CKDataType)
    (self c : PerformanceConfigHipImplicitGemm3DGroupFwdXdlops) (problem : ProblemDescription)
    (h : Init be T self problem = some c) :
    c.index = 0 ∧ c.valid_kernels[0]? = some c.kernel_id := by
  unfold Init at h
  cases hargs : CKArgs.ofProblem problem with
  | none => rw [hargs] at h; cases h
  | some args =>
    rw [hargs] at h
    dsimp only at h
    by_cases he : (be T).isEmpty = true
    · simp [he] at h
    · simp only [he, Bool.false_eq_true, if_false] at h
      generalize Init.loop args (be T) self.valid_kernels = l at h
      cases l with
      | nil => simp at h
      | cons k ks =>
        simp only [Option.some.injEq] at h
        subst h
        exact ⟨rfl, by simp⟩

theorem HeuristicInit_seeded (be : Backend)
    (self c : PerformanceConfigHipImplicitGemm3DGroupFwdXdlops) (problem : ProblemDescription)
    (hself : self.valid_kernels = []) (h : HeuristicInit be self problem = some c)
    (hn : 1 ≤ c.valid_kernels.length) :
    c.index = 0 ∧ c.valid_kernels[0]? = some c.kernel_id := by
  have hbad : some self = some c → False := by
    intro e
    simp only [Option.some.injEq] at e
    subst e
    rw [hself] at hn
    simp at hn
  unfold HeuristicInit at h
  cases hT : problem.InDataType <;> rw [hT] at h <;> simp only at h
  · exact Init_some be _ self c problem h
  · exact Init_some be _ self c problem h
  · exact (hbad h).elim
  · exact Init_some be _ self c problem h
  · exact (hbad h).elim
  · exact (hbad h).elim
  · exact (hbad h).elim

theorem SetNextValueTimes_run (be : Backend) (problem : ProblemDescription) :
    ∀ (k : Nat) (c : PerformanceConfigHipImplicitGemm3DGroupFwdXdlops),
      c.index < c.valid_kernels.length → c.valid_kernels[c.index]? = some c.kernel_id →
      ∃ c', SetNextValueTimes be problem k c =
          some (List.replicate (min k (c.valid_kernels.length - 1 - c.index)) true ++
                List.replicate (k - (c.valid_kernels.length - 1 - c.index)) false, c') ∧
        c'.index = c.index + min k (c.valid_kernels.length - 1 - c.index) ∧
        c'.valid_kernels = c.valid_kernels ∧
        c'.valid_kernels[c'.index]? = some c'.kernel_id := by
  intro k
  induction k with
  | zero =>
    intro c _ hk
    exact ⟨c, by simp [SetNextValueTimes], by simp, rfl, hk⟩
  | succ k ih =>
    intro c hlt hk
    have hne : c.valid_kernels.isEmpty = false := by
      cases hv : c.valid_kernels with
      | nil => rw [hv] at hlt; simp at hlt
      | cons a l => rfl
    by_cases hnext : c.index + 1 < c.valid_kernels.length
    · have hstep : SetNextValue be c problem =
          some (true, { c with index := c.index + 1,
                               kernel_id := c.valid_kernels[c.index + 1] }) := by
        simp [SetNextValue, hne, hnext]
      obtain ⟨c', hrun, hidx, hval, hkid⟩ :=
        ih { c with index := c.index + 1, kernel_id := c.valid_kernels[c.index + 1] }
          hnext (by simp [List.getElem?_eq_getElem hnext])
      refine ⟨c', ?_, ?_, hval, hkid⟩
      · simp only [SetNextValueTimes, hstep, hrun]
        have h1 : min (k + 1) (c.valid_kernels.length - 1 - c.index) =
            min k (c.valid_kernels.length - 1 - (c.index + 1)) + 1 := by omega
        have h2 : k + 1 - (c.valid_kernels.length - 1 - c.index) =
            k - (c.valid_kernels.length - 1 - (c.index + 1)) := by omega
        simp only [h1, h2, List.replicate_succ, List.cons_append]
      · rw [hidx]
        simp only
        omega
    · have hstep : SetNextValue be c problem = some (false, c) := by
        simp [SetNextValue, hne, hnext]
      obtain ⟨c', hrun, hidx, hval, hkid⟩ := ih c hlt hk
      refine ⟨c', ?_, ?_, hval, hkid⟩
      · simp only [SetNextValueTimes, hstep, hrun]
        have h0 : c.valid_kernels.length - 1 - c.index = 0 := by omega
        simp only [h0, Nat.min_zero, Nat.sub_zero, List.replicate_zero, List.nil_append,
          List.replicate_succ]
      · rw [hidx]
        omega

theorem CheckCKApplicability_loop_spec (args : CKArgs) (conv_ptrs : List DeviceOp) :
    ((CheckCKApplicability.loop args conv_ptrs).1 = true ↔
      ∃ p ∈ conv_ptrs, p.IsSupportedArgument args = true) ∧
    ((CheckCKApplicability.loop args conv_ptrs).1 = true →
      (CheckCKApplicability.loop args conv_ptrs).2 = []) := by
  induction conv_ptrs with
  | nil => simp [CheckCKApplicability.loop]
  | cons p ps ih =>
    by_cases hp : p.IsSupportedArgument args = true
    · simp [CheckCKApplicability.loop, hp]
    · simp only [CheckCKApplicability.loop, hp, Bool.false_eq_true, if_false]
      refine ⟨?_, ih.2⟩
      rw [ih.1]
      constructor
      · rintro ⟨q, hq, hs⟩
        exact ⟨q, List.mem_cons_of_mem _ hq, hs⟩
      · rintro ⟨q, hq, hs⟩
        rcases List.mem_cons.mp hq with rfl | hq'
        · exact absurd hs hp
        · exact ⟨q, hq', hs⟩

theorem CheckCKApplicability_none_iff (be : Backend) (T : CKDataType)
    (problem : ProblemDescription) :
    CheckCKApplicability be T problem = none ↔
      (be T = [] ∨ CKArgs.ofProblem problem = none) := by
  unfold CheckCKApplicability
  dsimp only
  cases hl : be T with
  | nil => simp
  | cons a l =>
    simp only [List.isEmpty_cons, Bool.false_eq_true, if_false]
    cases hargs : CKArgs.ofProblem problem with
    | none => simp
    | some args =>
      dsimp only
      by_cases hs : args.strides.all (fun x => decide (x = 1)) = true
      · simp [hs]
      · simp [hs]

theorem CheckCKApplicability_spec (be : Backend) (T : CKDataType) (problem : ProblemDescription)
    (args : CKArgs) (hne : be T ≠ []) (hargs : CKArgs.ofProblem problem = some args) :
    ∃ b out, CheckCKApplicability be T problem = some (b, out) ∧
      (b = true ↔
        ((problem.AdjustedConvolutionStrideD = 1 ∧ problem.AdjustedConvolutionStrideH = 1 ∧
            problem.AdjustedConvolutionStrideW = 1) ∧
          ∃ p ∈ be T, p.IsSupportedArgument args = true)) ∧
      (b = true → out = []) := by
  have he : (be T).isEmpty = false := by
    cases h : be T with
    | nil => exact absurd h hne
    | cons a l => rfl
  have hstr := CKArgs_ofProblem_strides problem args hargs
  unfold CheckCKApplicability
  rw [hargs]
  simp only [he, Bool.false_eq_true, if_false]
  by_cases hs : args.strides.all (fun x => decide (x = 1)) = true
  · have hs' : problem.AdjustedConvolutionStrideD = 1 ∧
        problem.AdjustedConvolutionStrideH = 1 ∧ problem.AdjustedConvolutionStrideW = 1 := by
      rw [hstr] at hs
      simpa using hs
    simp only [hs, Bool.not_true, Bool.false_eq_true, if_false]
    refine ⟨(CheckCKApplicability.loop args (be T)).1,
      (CheckCKApplicability.loop args (be T)).2, rfl, ?_, ?_⟩
    · rw [(CheckCKApplicability_loop_spec _ _).1]
      exact ⟨fun h => ⟨hs', h⟩, fun h => h.2⟩
    · exact (CheckCKApplicability_loop_spec _ _).2
  · have hs' : ¬ (problem.AdjustedConvolutionStrideD = 1 ∧
        problem.AdjustedConvolutionStrideH = 1 ∧ problem.AdjustedConvolutionStrideW = 1) := by
      intro h
      apply hs
      rw [hstr]
      simpa using h
    simp only [hs, Bool.not_false, if_true]
    exact ⟨false, [], rfl, by simp [hs'], by simp⟩

/-- C5 (search termination): from a config freshly seeded by `HeuristicInit` on a
default-constructed config, with `n ≥ 1` valid candidates, the index is 0 and `k`
successive calls of `SetNextValue` return `true` for the first `min k (n-1)` calls and
`false` for all later ones; after them the index is `min k (n-1)`, the candidate list is
unchanged and `kernel_id` is `valid_kernels[index]`.  Hence exactly `n-1` calls return
`true`, each advancing the index by one, and every later call returns `false` and leaves
index and `kernel_id` as they were. -/
theorem SetNextValue_search_termination (be : Backend)
    (self c0 : PerformanceConfigHipImplicitGemm3DGroupFwdXdlops)
    (problem problem' : ProblemDescription)
    (hself : self.valid_kernels = [])
    (hseed : HeuristicInit be self problem = some c0)
    (hn : 1 ≤ c0.valid_kernels.length) :
    c0.index = 0 ∧
    ∀ k : Nat, ∃ c, SetNextValueTimes be problem' k c0 =
        some (List.replicate (min k (c0.valid_kernels.length - 1)) true ++
              List.replicate (k - (c0.valid_kernels.length - 1)) false, c) ∧
      c.index = min k (c0.valid_kernels.length - 1) ∧
      c.valid_kernels = c0.valid_kernels ∧
      c.valid_kernels[c.index]? = some c.kernel_id := by
  obtain ⟨h0, hk0⟩ := HeuristicInit_seeded be self c0 problem hself hseed hn
  refine ⟨h0, fun k => ?_⟩
  obtain ⟨c, hrun, hidx, hval, hkid⟩ :=
    SetNextValueTimes_run be problem' k c0 (by omega) (by rw [h0]; exact hk0)
  refine ⟨c, ?_, ?_, hval, hkid⟩
  · rw [hrun, h0]
    simp
  · rw [hidx, h0]
    simp

/-- Witness for C5 on the synthetic three-instance backend (two valid candidates). -/
theorem SetNextValue_search_termination_witness :
    defaultConfig.valid_kernels = [] ∧
    HeuristicInit sampleBackend3 defaultConfig sampleProblem =
      some { index := 0, kernel_id := "Fwd<8>", valid_kernels := ["Fwd<8>", "Fwd<4>"] } ∧
    SetNextValueTimes sampleBackend3 sampleProblem 3
        { index := 0, kernel_id := "Fwd<8>", valid_kernels := ["Fwd<8>", "Fwd<4>"] } =
      some ([true, false, false],
        { index := 1, kernel_id := "Fwd<4>", valid_kernels := ["Fwd<8>", "Fwd<4>"] }) ∧
    ∃ c, SetNextValueTimes sampleBackend3 sampleProblem 3
        { index := 0, kernel_id := "Fwd<8>", valid_kernels := ["Fwd<8>", "Fwd<4>"] } =
        some (List.replicate (min 3 (2 - 1)) true ++ List.replicate (3 - (2 - 1)) false, c) ∧
      c.index = min 3 (2 - 1) ∧ c.valid_kernels = ["Fwd<8>", "Fwd<4>"] ∧
      c.valid_kernels[c.index]? = some c.kernel_id :=
  ⟨rfl, by decide, by decide,
    (SetNextValue_search_termination sampleBackend3 defaultConfig
      { index := 0, kernel_id := "Fwd<8>", valid_kernels := ["Fwd<8>", "Fwd<4>"] }
      sampleProblem sampleProblem rfl (by decide) (by decide)).2 3⟩

/-- C6, as stated, fails: on the two-instance backend the seeded config has one candidate;
`SetNextValue` returns `false` (exhaustion) and leaves the config unchanged, and
`IsValidValue` is still `true` afterwards. -/
theorem IsValidValue_after_exhaustion_counterexample :
    HeuristicInit sampleBackend2 defaultConfig sampleProblem =
      some { index := 0, kernel_id := "Fwd<8>", valid_kernels := ["Fwd<8>"] } ∧
    SetNextValue sampleBackend2
        { index := 0, kernel_id := "Fwd<8>", valid_kernels := ["Fwd<8>"] } sampleProblem =
      some (false, { index := 0, kernel_id := "Fwd<8>", valid_kernels := ["Fwd<8>"] }) ∧
    IsValidValue { index := 0, kernel_id := "Fwd<8>", valid_kernels := ["Fwd<8>"] } = true := by
  decide

/-- C6 (amended): during a search over a freshly heuristic-seeded config with `n ≥ 1`
candidates, `IsValidValue` is `true` after seeding and after every call of
`SetNextValue`, whether that call returned `true` or `false`; in particular it stays
`true` after exhaustion. -/
theorem IsValidValue_throughout_search (be : Backend)
    (self c0 : PerformanceConfigHipImplicitGemm3DGroupFwdXdlops)
    (problem problem' : ProblemDescription)
    (hself : self.valid_kernels = [])
    (hseed : HeuristicInit be self problem = some c0)
    (hn : 1 ≤ c0.valid_kernels.length) :
    ∀ k : Nat, ∃ flags c, SetNextValueTimes be problem' k c0 = some (flags, c) ∧
      IsValidValue c = true := by
  obtain ⟨h0, hk0⟩ := HeuristicInit_seeded be self c0 problem hself hseed hn
  intro k
  obtain ⟨c, hrun, hidx, hval, _⟩ :=
    SetNextValueTimes_run be problem' k c0 (by omega) (by rw [h0]; exact hk0)
  refine ⟨_, c, hrun, ?_⟩
  unfold IsValidValue
  rw [hidx, hval, h0]
  simp only [decide_eq_true_eq]
  omega

/-- Witness for the amended C6: two calls on the one-candidate config. -/
theorem IsValidValue_throughout_search_witness :
    defaultConfig.valid_kernels = [] ∧
    HeuristicInit sampleBackend2 defaultConfig sampleProblem =
      some { index := 0, kernel_id := "Fwd<8>", valid_kernels := ["Fwd<8>"] } ∧
    ∃ flags c, SetNextValueTimes sampleBackend2 sampleProblem 2
        { index := 0, kernel_id := "Fwd<8>", valid_kernels := ["Fwd<8>"] } = some (flags, c) ∧
      IsValidValue c = true :=
  ⟨rfl, by decide,
    IsValidValue_throughout_search sampleBackend2 defaultConfig
      { index := 0, kernel_id := "Fwd<8>", valid_kernels := ["Fwd<8>"] }
      sampleProblem sampleProblem rfl (by decide) (by decide) 2⟩

/-- C7 fails on the code: the config that `HeuristicInit` derives for `sampleProblem` on
the two-instance backend names the instance at position 1, which supports the problem,
yet `IsValid` on the same problem returns `false`, because the position found (1) is
compared with the length of the candidate list (1) instead of the number of instances (2). -/
theorem IsValid_rejects_heuristic_config :
    HeuristicInit sampleBackend2 defaultConfig sampleProblem =
      some { index := 0, kernel_id := "Fwd<8>", valid_kernels := ["Fwd<8>"] } ∧
    ((sampleBackend2 .float)[1]?).map (fun p => p.GetTypeString) = some "Fwd<8>" ∧
    ((sampleBackend2 .float)[1]?).bind
      (fun p => (CKArgs.ofProblem sampleProblem).map p.IsSupportedArgument) = some true ∧
    IsValid sampleBackend2
      { index := 0, kernel_id := "Fwd<8>", valid_kernels := ["Fwd<8>"] } sampleProblem =
      some false := by
  decide

theorem IsApplicable_of_guards (env : DebugEnv) (be : Backend) (ctx : ConvolutionContext)
    (problem : ProblemDescription)
    (hG : env.solverDisabled = false ∧ env.deterministic = false ∧
      problem.InDataType = problem.WeightsDataType ∧
      problem.WeightsDataType = problem.OutDataType ∧
      problem.IsForward = true ∧ problem.Is3d = true ∧ problem.IsLayoutNHWC = true ∧
      (ctx.GetDeviceName = "gfx908" ∨ ctx.GetDeviceName = "gfx90a")) :
    IsApplicable env be ctx problem =
      match ckDataTypeOf problem.InDataType with
      | some T => CheckCKApplicability be T problem
      | none => some (false, []) := by
  obtain ⟨g1, g2, g3, g4, g5, g6, g7, g8⟩ := hG
  have hin : ¬ (problem.InDataType ≠ problem.WeightsDataType ∨
      problem.WeightsDataType ≠ problem.OutDataType ∨
      problem.InDataType ≠ problem.OutDataType) := by
    rintro (h | h | h)
    · exact h g3
    · exact h g4
    · exact h (g3.trans g4)
  have hguard : (!(decide (ctx.GetDeviceName = "gfx908") ||
      decide (ctx.GetDeviceName = "gfx90a"))) = false := by
    rcases g8 with h | h <;> simp [h]
  unfold IsApplicable
  simp only [g1, g2, hin, g5, g6, g7, hguard, Bool.false_eq_true, if_false, Bool.not_true]
  cases problem.InDataType <;> rfl

theorem IsApplicable_of_not_guards (env : DebugEnv) (be : Backend) (ctx : ConvolutionContext)
    (problem : ProblemDescription)
    (hG : ¬ (env.solverDisabled = false ∧ env.deterministic = false ∧
      problem.InDataType = problem.WeightsDataType ∧
      problem.WeightsDataType = problem.OutDataType ∧
      problem.IsForward = true ∧ problem.Is3d = true ∧ problem.IsLayoutNHWC = true ∧
      (ctx.GetDeviceName = "gfx908" ∨ ctx.GetDeviceName = "gfx90a"))) :
    IsApplicable env be ctx problem = some (false, []) := by
  unfold IsApplicable
  by_cases h1 : env.solverDisabled = true
  · simp [h1]
  by_cases h2 : env.deterministic = true
  · simp [h1, h2]
  by_cases h3 : problem.InDataType ≠ problem.WeightsDataType ∨
      problem.WeightsDataType ≠ problem.OutDataType ∨
      problem.InDataType ≠ problem.OutDataType
  · simp only [h1, h2, h3, Bool.false_eq_true, if_false, if_true]
  by_cases h4 : problem.IsForward = true
  swap
  · simp [h1, h2, h3, h4]
  by_cases h5 : problem.Is3d = true
  swap
  · simp [h1, h2, h3, h4, h5]
  by_cases h6 : problem.IsLayoutNHWC = true
  swap
  · simp [h1, h2, h3, h4, h5, h6]
  by_cases h7 : ctx.GetDeviceName = "gfx908" ∨ ctx.GetDeviceName = "gfx90a"
  swap
  · have hguard : (!(decide (ctx.GetDeviceName = "gfx908") ||
        decide (ctx.GetDeviceName = "gfx90a"))) = true := by
      have a := fun h => h7 (Or.inl h)
      have b := fun h => h7 (Or.inr h)
      simp only [Bool.not_eq_true', Bool.or_eq_false_iff, decide_eq_false_iff_not]
      exact ⟨a, b⟩
    simp only [h1, h2, h3, h4, h5, h6, hguard, Bool.false_eq_true, if_false, Bool.not_true,
      if_true]
  exfalso
  apply hG
  refine ⟨by simpa using h1, by simpa using h2, ?_, ?_, h4, h5, h6, h7⟩
  · by_contra h; exact h3 (Or.inl h)
  · by_contra h; exact h3 (Or.inr (Or.inl h))


/-- C8: `IsApplicable` returns `true` iff the debug flag does not disable the solver,
deterministic mode is off, the three data types are equal, the direction is forward, the
problem is 3-D, the layout is NHWC, the device is gfx908 or gfx90a, the data type is
half, float or int8, the three convolution strides are 1, and some backend instance for
that data type supports the arguments that `CKArgs` builds from the problem; when it
returns `true` nothing is written to the standard output.  The call fails to return in
one situation only: all the guards in front of the data-type switch pass, the data type
has an instantiation, and either its instance list is empty (the assertion fails) or the
constructor of `CKArgs` traps in `C1 / G`; in every other case it returns `false`. -/
theorem IsApplicable_iff (env : DebugEnv) (be : Backend) (ctx : ConvolutionContext)
    (problem : ProblemDescription) :
    (IsApplicable env be ctx problem = some (true, []) ↔
      ((env.solverDisabled = false ∧ env.deterministic = false ∧
        problem.InDataType = problem.WeightsDataType ∧
        problem.WeightsDataType = problem.OutDataType ∧
        problem.IsForward = true ∧ problem.Is3d = true ∧ problem.IsLayoutNHWC = true ∧
        (ctx.GetDeviceName = "gfx908" ∨ ctx.GetDeviceName = "gfx90a")) ∧
        ∃ T args, ckDataTypeOf problem.InDataType = some T ∧
          CKArgs.ofProblem problem = some args ∧
          (problem.AdjustedConvolutionStrideD = 1 ∧ problem.AdjustedConvolutionStrideH = 1 ∧
            problem.AdjustedConvolutionStrideW = 1) ∧
          ∃ p ∈ be T, p.IsSupportedArgument args = true)) ∧
    (∀ out, IsApplicable env be ctx problem = some (true, out) → out = []) ∧
    (IsApplicable env be ctx problem = none ↔
      ((env.solverDisabled = false ∧ env.deterministic = false ∧
        problem.InDataType = problem.WeightsDataType ∧
        problem.WeightsDataType = problem.OutDataType ∧
        problem.IsForward = true ∧ problem.Is3d = true ∧ problem.IsLayoutNHWC = true ∧
        (ctx.GetDeviceName = "gfx908" ∨ ctx.GetDeviceName = "gfx90a")) ∧
        ∃ T, ckDataTypeOf problem.InDataType = some T ∧
          (be T = [] ∨ CKArgs.ofProblem problem = none))) ∧
    (IsApplicable env be ctx problem ≠ none →
      IsApplicable env be ctx problem ≠ some (true, []) →
      ∃ out, IsApplicable env be ctx problem = some (false, out)) := by
  have hlast : ∀ r : Option (Bool × List String), (∀ out, r = some (true, out) → out = []) →
      r ≠ none → r ≠ some (true, []) → ∃ out, r = some (false, out) := by
    intro r hout h1 h2
    match r, hout, h1, h2 with
    | none, _, h1, _ => exact absurd rfl h1
    | some (false, out), _, _, _ => exact ⟨out, rfl⟩
    | some (true, out), hout, _, h2 =>
      have := hout out rfl
      subst this
      exact absurd rfl h2
  by_cases hG : env.solverDisabled = false ∧ env.deterministic = false ∧
      problem.InDataType = problem.WeightsDataType ∧
      problem.WeightsDataType = problem.OutDataType ∧
      problem.IsForward = true ∧ problem.Is3d = true ∧ problem.IsLayoutNHWC = true ∧
      (ctx.GetDeviceName = "gfx908" ∨ ctx.GetDeviceName = "gfx90a")
  · have hrw := IsApplicable_of_guards env be ctx problem hG
    cases hT : ckDataTypeOf problem.InDataType with
    | none =>
      rw [hT] at hrw
      have hres : IsApplicable env be ctx problem = some (false, []) := hrw
      rw [hres]
      refine ⟨?_, ?_, ?_, fun _ _ => ⟨[], rfl⟩⟩
      · simp
      · intro out h; simp at h
      · simp
    | some T =>
      rw [hT] at hrw
      have hres : IsApplicable env be ctx problem = CheckCKApplicability be T problem := hrw
      rw [hres]
      by_cases hne : be T = []
      · have hn := (CheckCKApplicability_none_iff be T problem).mpr (Or.inl hne)
        rw [hn]
        refine ⟨?_, ?_, ?_, fun h => absurd rfl h⟩
        · constructor
          · intro h; cases h
          · rintro ⟨_, T', args, hT', _, _, p, hp, _⟩
            cases hT'
            rw [hne] at hp
            cases hp
        · intro out h; cases h
        · exact ⟨fun _ => ⟨hG, T, rfl, Or.inl hne⟩, fun _ => rfl⟩
      · cases hargs : CKArgs.ofProblem problem with
        | none =>
          have hn := (CheckCKApplicability_none_iff be T problem).mpr (Or.inr hargs)
          rw [hn]
          refine ⟨?_, ?_, ?_, fun h => absurd rfl h⟩
          · constructor
            · intro h; cases h
            · rintro ⟨_, T', args, _, ha, _⟩
              cases ha
          · intro out h; cases h
          · exact ⟨fun _ => ⟨hG, T, rfl, Or.inr rfl⟩, fun _ => rfl⟩
        | some args =>
          obtain ⟨b, out, hr, hb, ho⟩ := CheckCKApplicability_spec be T problem args hne hargs
          rw [hr]
          have hout : ∀ out', some (b, out) = some (true, out') → out' = [] := by
            intro out' h
            simp only [Option.some.injEq, Prod.mk.injEq] at h
            rw [← h.2]
            exact ho h.1
          refine ⟨?_, hout, ?_, hlast _ hout⟩
          · constructor
            · intro h
              simp only [Option.some.injEq, Prod.mk.injEq] at h
              exact ⟨hG, T, args, rfl, rfl, hb.mp h.1⟩
            · rintro ⟨_, T', args', hT', ha, h⟩
              cases hT'
              cases ha
              have hbt := hb.mpr h
              have := ho hbt
              rw [hbt, this]
          · constructor
            · intro h; cases h
            · rintro ⟨_, T', hT', h | h⟩
              · cases hT'
                exact absurd h hne
              · cases h
  · rw [IsApplicable_of_not_guards env be ctx problem hG]
    refine ⟨?_, ?_, ?_, fun _ _ => ⟨[], rfl⟩⟩
    · constructor
      · intro h; simp at h
      · intro h; exact absurd h.1 hG
    · intro out h; simp at h
    · constructor
      · intro h; cases h
      · intro h; exact absurd h.1 hG

/-- Evaluation of C8 on the sample problem: on gfx90a with the three-instance backend
`IsApplicable` returns `true`, and with a group count of 0 it does not return. -/
theorem IsApplicable_iff_witness :
    IsApplicable { solverDisabled := false, deterministic := false } sampleBackend3
      { GetDeviceName := "gfx90a" } sampleProblem = some (true, []) ∧
    IsApplicable { solverDisabled := false, deterministic := false } sampleBackend3
      { GetDeviceName := "gfx90a" } { sampleProblem with GroupCountG := 0 } = none :=
  ⟨(IsApplicable_iff { solverDisabled := false, deterministic := false } sampleBackend3
      { GetDeviceName := "gfx90a" } sampleProblem).1.mpr
      ⟨by decide, .float, _, rfl, rfl, by decide,
        sampleOp "Fwd<8>" 8, by simp [sampleBackend3], by decide⟩,
    (IsApplicable_iff { solverDisabled := false, deterministic := false } sampleBackend3
      { GetDeviceName := "gfx90a" } { sampleProblem with GroupCountG := 0 }).2.2.1.mpr
      ⟨by decide, .float, rfl, Or.inr rfl⟩⟩

/-- C9: on a config whose candidate list is empty (a default-constructed config), for a
problem of data type half, float or int8 for which some backend instance supports the
arguments that `CKArgs` builds from the problem, `HeuristicInit` sets the candidate list
to the type strings of exactly the supporting instances, in enumeration order, sets the
index to 0 and `kernel_id` to the first candidate; for any other data type it returns the
config unchanged.  For the three data types, when the constructor of `CKArgs` traps (group
count 0) there are no arguments to support and `HeuristicInit` does not return. -/
theorem HeuristicInit_default_config (be : Backend)
    (self : PerformanceConfigHipImplicitGemm3DGroupFwdXdlops) (problem : ProblemDescription)
    (hself : self.valid_kernels = []) :
    (∀ T args, ckDataTypeOf problem.InDataType = some T →
      CKArgs.ofProblem problem = some args →
      (∃ p ∈ be T, p.IsSupportedArgument args = true) →
      ∃ k, (supportingTypeStrings be T args).head? = some k ∧
        HeuristicInit be self problem =
          some { index := 0, kernel_id := k,
                 valid_kernels := supportingTypeStrings be T args }) ∧
    (∀ T, ckDataTypeOf problem.InDataType = some T → CKArgs.ofProblem problem = none →
      HeuristicInit be self problem = none) ∧
    (ckDataTypeOf problem.InDataType = none → HeuristicInit be self problem = some self) := by
  have hdisp : ∀ T, ckDataTypeOf problem.InDataType = some T →
      HeuristicInit be self problem = Init be T self problem := by
    intro T hT
    unfold HeuristicInit
    cases hD : problem.InDataType <;> rw [hD] at hT <;> simp only [ckDataTypeOf] at hT <;>
      cases hT <;> rfl
  refine ⟨?_, ?_, ?_⟩
  · intro T args hT hargs hsup
    obtain ⟨k, hk, hinit⟩ := Init_of_empty be T self problem args hargs hself hsup
    exact ⟨k, hk, by rw [hdisp T hT, hinit]⟩
  · intro T hT hargs
    rw [hdisp T hT]
    exact Init_of_trap be T self problem hargs
  · intro hT
    unfold HeuristicInit
    cases hD : problem.InDataType <;> rw [hD] at hT <;> simp only [ckDataTypeOf] at hT <;>
      cases hT

/-- Witness for C9: the default config, the sample float problem and the three-instance
backend, two of whose instances support the problem. -/
theorem HeuristicInit_default_config_witness :
    defaultConfig.valid_kernels = [] ∧
    (CKArgs.ofProblem sampleProblem).map (supportingTypeStrings sampleBackend3 .float) =
      some ["Fwd<8>", "Fwd<4>"] ∧
    HeuristicInit sampleBackend3 defaultConfig sampleProblem =
      some { index := 0, kernel_id := "Fwd<8>", valid_kernels := ["Fwd<8>", "Fwd<4>"] } ∧
    HeuristicInit sampleBackend3 defaultConfig { sampleProblem with GroupCountG := 0 } =
      none ∧
    ∀ args, CKArgs.ofProblem sampleProblem = some args →
      ∃ k, (supportingTypeStrings sampleBackend3 .float args).head? = some k ∧
        HeuristicInit sampleBackend3 defaultConfig sampleProblem =
          some { index := 0, kernel_id := k,
                 valid_kernels := supportingTypeStrings sampleBackend3 .float args } :=
  ⟨rfl, by decide, by decide, by decide, fun args hargs =>
    (HeuristicInit_default_config sampleBackend3 defaultConfig sampleProblem rfl).1 .float
      args rfl hargs
      ⟨sampleOp "Fwd<8>" 8, by simp [sampleBackend3], by
        have e : CKArgs.ofProblem sampleProblem = some _ := rfl
        rw [e] at hargs
        simp only [Option.some.injEq] at hargs
        subst hargs
        decide⟩⟩

end solver

/-! ## Theorems: tensor-op planner -/

theorem toInt_of_lt (l : Nat) (h : l < 2 ^ 31) : toInt (l : Int) = l := by
  unfold toInt
  omega

theorem toInt_beq_one (l : Nat) (h : l < 2 ^ 31) : (toInt (l : Int) == 1) = !(l != 1) := by
  rw [toInt_of_lt l h]
  by_cases h1 : l = 1
  · subst h1; rfl
  · have h0 : ¬ ((l : Int) = 1) := by omega
    have h2 : ((l : Int) == 1) = false := beq_eq_false_iff_ne.mpr h0
    have h3 : (l != 1) = true := bne_iff_ne.mpr h1
    rw [h2, h3]
    rfl

theorem takeWhile_congr_mem {α : Type} (p q : α → Bool) (l : List α)
    (h : ∀ a ∈ l, p a = q a) : l.takeWhile p = l.takeWhile q := by
  induction l with
  | nil => rfl
  | cons a l ih =>
    have ha := h a (List.mem_cons_self a l)
    have hl := ih (fun b hb => h b (List.mem_cons_of_mem a hb))
    simp only [List.takeWhile_cons, ha, hl]

theorem firstNotOneDistance_eq (blens : List Nat) (hr : ∀ l ∈ blens, l < 2 ^ 31) :
    firstNotOneDistance blens = patternDistance (pattern blens) := by
  rw [firstNotOneDistance, patternDistance, pattern]
  rw [List.length_map, ← List.map_reverse, List.takeWhile_map, List.length_map]
  have key := takeWhile_congr_mem (fun (l : Nat) => toInt (l : Int) == 1)
    ((fun p => !p) ∘ fun (l : Nat) => l != 1) blens.reverse
    (fun l hl => toInt_beq_one l (hr l (List.mem_reverse.mp hl)))
  rw [key]

theorem CreateBitmapAndGrid_loop_bitmap (a_lens c_lens : List Nat) :
    ∀ (k : Nat) (bitmap : Nat) (num_wg work : Int), k ≤ a_lens.length →
      (CreateBitmapAndGrid.loop a_lens c_lens k (bitmap, num_wg, work)).1 =
        patternBitmap.loop (pattern a_lens) k bitmap := by
  intro k
  induction k with
  | zero => intros; rfl
  | succ i ih =>
    intro bitmap num_wg work hk
    have hlen : (pattern a_lens).length = a_lens.length := by simp [pattern]
    have hget : (pattern a_lens).getD i true = (elemAt a_lens i != 1) := by
      have hi : i < a_lens.length := by omega
      simp [pattern, elemAt, List.getD_eq_getElem?_getD, List.getElem?_eq_getElem hi]
    unfold CreateBitmapAndGrid.loop patternBitmap.loop
    rw [hget, hlen]
    by_cases h1 : elemAt a_lens i = 1
    · simp only [h1, ne_eq, not_true_eq_false, if_false, bne_self_eq_false, Bool.false_eq_true]
      exact ih _ _ _ (by omega)
    · have hb : (elemAt a_lens i != 1) = true := by simpa using h1
      simp only [h1, ne_eq, not_false_eq_true, if_true, hb]
      exact ih _ _ _ (by omega)

theorem patternDistance_le (pat : List Bool) : patternDistance pat ≤ pat.length := by
  unfold patternDistance
  omega

theorem computeGrid_pattern (blens clens : List Nat) (hr : ∀ l ∈ blens, l < 2 ^ 31) :
    (computeGrid blens clens).d = patternDistance (pattern blens) ∧
    (computeGrid blens clens).bitmap = patternBitmap (pattern blens) := by
  have hd := firstNotOneDistance_eq blens hr
  have hlen : (pattern blens).length = blens.length := by simp [pattern]
  have hle := patternDistance_le (pattern blens)
  refine ⟨hd, ?_⟩
  unfold computeGrid CreateBitmapAndGrid patternBitmap
  dsimp only
  rw [CreateBitmapAndGrid_loop_bitmap, hd, hlen]
  rw [hd]
  omega

theorem pattern4_bias : ∀ p0 p1 p2 p3 : Bool,
    decide (patternBitmap [p0, p1, p2, p3] = 1 <<< 2) = (!p0 && p1 && !p2 && !p3) := by
  decide

theorem pattern4_leading : ∀ p0 p1 p2 p3 : Bool,
    IsBitmapLeadingOnes (patternBitmap [p0, p1, p2, p3]) 4
        (((patternDistance [p0, p1, p2, p3] : Nat) : Int) - 2) =
      (([p0, p1, p2, p3] : List Bool).dropWhile id).all (fun p => !p) := by
  decide

theorem OpTensor4d_branch_algorithm (T : TypeTable) (x : OpTensorArgs) (v : Locals) :
    (OpTensor4d.branch T x v).algorithm =
      if v.fwd_conv_bias ≠ 0 then
        if v.packed_tensor = true then "OpTensorFwdBias" else "OpTensorFwdBiasGeneric"
      else if v.packed_equal_tensor = true then "Op4dTensorLite"
      else if v.leading_ones = true then
        if v.packed_tensor = true then "OpTensorLeadingOnes" else "OpTensorLeadingOnesGeneric"
      else "Op4dTensorGeneric" := by
  unfold OpTensor4d.branch
  dsimp only
  split_ifs <;> rfl

theorem OpTensor3d_branch_algorithm (T : TypeTable) (x : OpTensorArgs) (v : Locals) :
    (OpTensor3d.branch T x v).algorithm =
      if OpTensor3d.lite x = true then "Op2dTensorLite" else "Op3dTensorGeneric" := by
  unfold OpTensor3d.branch
  dsimp only
  split_ifs <;> rfl

theorem OpTensorOther_branch_algorithm (x : OpTensorArgs) (v : Locals) :
    (OpTensorOther.branch x v).map (fun l => l.algorithm) =
      if x.bTensorDesc.lens.length = 5 then some "Op5dTensorGeneric"
      else if x.bTensorDesc.lens.length = 2 then some "Op2dTensorGeneric"
      else if x.bTensorDesc.lens.length = 1 then some "Op1dTensorGeneric"
      else none := by
  unfold OpTensorOther.branch
  dsimp only
  split_ifs <;> rfl

theorem Handle_run_trace (h : Handle) (l : Launch) :
    ∃ new, (h.run l).trace = h.trace ++ new ∧ launchedAlgorithms new = [l.algorithm] := by
  unfold Handle.run Handle.GetKernels
  dsimp only
  cases hf : h.kernels.filter
      (fun k => k.algorithm == l.algorithm && k.network_config == l.network_config) with
  | nil =>
    refine ⟨[Event.GetKernels l.algorithm l.network_config,
      Event.AddKernel (Handle.AddKernel
        { h with trace := h.trace ++ [Event.GetKernels l.algorithm l.network_config] }
        l.algorithm l.network_config l.program_name l.kernel_name l.vld l.vgd l.parms).1,
      Event.launch (Handle.AddKernel
        { h with trace := h.trace ++ [Event.GetKernels l.algorithm l.network_config] }
        l.algorithm l.network_config l.program_name l.kernel_name l.vld l.vgd l.parms).1
        l.args], ?_, rfl⟩
    simp [Handle.AddKernel, Handle.launch]
  | cons k ks =>
    have hk : k ∈ h.kernels.filter
        (fun k => k.algorithm == l.algorithm && k.network_config == l.network_config) := by
      rw [hf]; exact List.mem_cons_self k ks
    have hk2 := (List.mem_filter.mp hk).2
    simp only [Bool.and_eq_true, beq_iff_eq] at hk2
    refine ⟨[Event.GetKernels l.algorithm l.network_config, Event.launch k l.args], ?_, ?_⟩
    · simp [Handle.launch]
    · simp [launchedAlgorithms, hk2.1]

theorem broadcastMismatch_none_iff (blens clens : List Nat) (i : Nat) :
    broadcastMismatch i blens clens = none ↔
      ∀ (j : Nat) (bj cj : Nat), blens[j]? = some bj → clens[j]? = some cj →
        bj = 1 ∨ bj = cj := by
  induction blens generalizing clens i with
  | nil => simp [broadcastMismatch]
  | cons b bs ih =>
    cases clens with
    | nil => simp [broadcastMismatch]
    | cons c cs =>
      unfold broadcastMismatch
      by_cases hbc : b ≠ 1 ∧ b ≠ c
      · rw [if_pos hbc]
        constructor
        · intro h; cases h
        · intro h
          have := h 0 b c (by simp) (by simp)
          rcases this with h1 | h1
          · exact absurd h1 hbc.1
          · exact absurd h1 hbc.2
      · rw [if_neg hbc, ih]
        constructor
        · intro h j bj cj hb hc
          cases j with
          | zero =>
            simp only [List.getElem?_cons_zero, Option.some.injEq] at hb hc
            subst hb hc
            by_contra hcon
            exact hbc ⟨fun e => hcon (Or.inl e), fun e => hcon (Or.inr e)⟩
          | succ j =>
            simp only [List.getElem?_cons_succ] at hb hc
            exact h j bj cj hb hc
        · intro h j bj cj hb hc
          exact h (j + 1) bj cj (by simpa using hb) (by simpa using hc)

theorem OpTensor_cases (T : TypeTable) (h : Handle) (x : OpTensorArgs) :
    (ValidationFailure x ∧ ∃ e, OpTensor T h x = (some e, h)) ∨
    (¬ ValidationFailure x ∧ OpTensor T h x = (none, OpTensor.dispatch T h x)) := by
  unfold OpTensor ValidationFailure
  by_cases h1 : x.ATensor = 0 ∨ x.BTensor = 0 ∨ x.CTensor = 0
  · exact Or.inl ⟨Or.inl h1, _, by rw [if_pos h1]⟩
  rw [if_neg h1]
  by_cases h2 : x.aTensorDesc.GetElementSize ≠ x.cTensorDesc.GetElementSize
  · exact Or.inl ⟨Or.inr (Or.inl h2), _, by rw [if_pos h2]⟩
  rw [if_neg h2]
  by_cases h3 : x.bTensorDesc.type ≠ x.cTensorDesc.type
  · exact Or.inl ⟨Or.inr (Or.inr (Or.inl h3)), _, by rw [if_pos h3]⟩
  rw [if_neg h3]
  dsimp only
  by_cases h4 : x.cTensorDesc.lens.length > 5
  · exact Or.inl ⟨Or.inr (Or.inr (Or.inr (Or.inl h4))), _, by rw [if_pos h4]⟩
  rw [if_neg h4]
  by_cases h5 : x.bTensorDesc.lens.length ≠ x.cTensorDesc.lens.length
  · exact Or.inl ⟨Or.inr (Or.inr (Or.inr (Or.inr (Or.inl h5)))), _, by rw [if_pos h5]⟩
  rw [if_neg h5]
  cases hm : broadcastMismatch 0 x.bTensorDesc.lens x.cTensorDesc.lens with
  | some i =>
    left
    refine ⟨?_, _, rfl⟩
    refine Or.inr (Or.inr (Or.inr (Or.inr (Or.inr ?_))))
    by_contra hcon
    have : broadcastMismatch 0 x.bTensorDesc.lens x.cTensorDesc.lens = none := by
      rw [broadcastMismatch_none_iff]
      intro j bj cj hb hc
      by_contra hne
      exact hcon ⟨j, bj, cj, hb, hc, fun e => hne (Or.inl e), fun e => hne (Or.inr e)⟩
    rw [this] at hm
    cases hm
  | none =>
    right
    constructor
    · rintro (h | h | h | h | h | ⟨j, bj, cj, hb, hc, hn1, hn2⟩)
      · exact h1 h
      · exact h2 h
      · exact h3 h
      · exact h4 h
      · exact h5 h
      · rcases (broadcastMismatch_none_iff _ _ 0).mp hm j bj cj hb hc with e | e
        · exact hn1 e
        · exact hn2 e
    · unfold OpTensor.dispatch
      dsimp only
      split_ifs <;> rfl

theorem OpTensor_accepted (T : TypeTable) (h : Handle) (x : OpTensorArgs)
    (hacc : (OpTensor T h x).1 = none) :
    ¬ ValidationFailure x ∧ OpTensor T h x = (none, OpTensor.dispatch T h x) := by
  rcases OpTensor_cases T h x with ⟨_, e, he⟩ | hok
  · rw [he] at hacc
    cases hacc
  · exact hok

theorem length_eq_four (l : List Nat) (h : l.length = 4) :
    ∃ b0 b1 b2 b3, l = [b0, b1, b2, b3] := by
  match l, h with
  | [b0, b1, b2, b3], _ => exact ⟨b0, b1, b2, b3, rfl⟩

theorem beq_one_eq_not_bne (b : Nat) : (b == 1) = !(b != 1) := by
  simp [bne]

theorem all_pattern (bs : List Nat) :
    (bs.all fun l => !(l != 1)) = ((bs.map fun l => l != 1).all fun p => !p) := by
  induction bs with
  | nil => rfl
  | cons b bs ih => simp only [List.all_cons, List.map_cons, ih]

theorem nonOnesFormPrefix_pattern (blens : List Nat) :
    nonOnesFormPrefix blens = ((pattern blens).dropWhile id).all (fun p => !p) := by
  unfold nonOnesFormPrefix pattern
  induction blens with
  | nil => rfl
  | cons b bs ih =>
    by_cases hb : b = 1
    · subst hb
      simp only [List.map_cons, List.dropWhile_cons, bne_self_eq_false, Bool.false_eq_true,
        if_false, id, List.all_cons, beq_self_eq_true, Bool.not_false, Bool.true_and,
        beq_one_eq_not_bne]
      exact all_pattern bs
    · have hb' : (b != 1) = true := bne_iff_ne.mpr hb
      simp only [List.map_cons, List.dropWhile_cons, hb', id, if_true]
      exact ih

theorem OpTensor4d_plan_strategy (T : TypeTable) (x : OpTensorArgs)
    (hb : x.bTensorDesc.lens.length = 4) (hc : x.cTensorDesc.lens.length = 4)
    (hr : ∀ l ∈ x.bTensorDesc.lens, l < 2 ^ 31) :
    (OpTensor4d.plan T x).algorithm = strategy4d x := by
  obtain ⟨b0, b1, b2, b3, hbl⟩ := length_eq_four _ hb
  obtain ⟨hd, hbm⟩ := computeGrid_pattern x.bTensorDesc.lens x.cTensorDesc.lens hr
  have hpat : pattern x.bTensorDesc.lens = [b0 != 1, b1 != 1, b2 != 1, b3 != 1] := by
    rw [hbl]; rfl
  have e1 : ((OpTensor4d.locals T x).fwd_conv_bias ≠ 0) ↔
      isChannelBias x.bTensorDesc.lens = true := by
    have hf : (OpTensor4d.locals T x).fwd_conv_bias =
        if (computeGrid x.bTensorDesc.lens x.cTensorDesc.lens).bitmap = 1 <<< 2
        then 1 else 0 := rfl
    have hcb : isChannelBias x.bTensorDesc.lens =
        (!(b0 != 1) && (b1 != 1) && !(b2 != 1) && !(b3 != 1)) := by
      rw [hbl]
      simp only [isChannelBias, beq_one_eq_not_bne]
    rw [hf, hbm, hpat, hcb, ← pattern4_bias]
    by_cases hq : patternBitmap [b0 != 1, b1 != 1, b2 != 1, b3 != 1] = 1 <<< 2
    · simp [hq]
    · simp [hq]
  have e2 : (OpTensor4d.locals T x).leading_ones = nonOnesFormPrefix x.bTensorDesc.lens := by
    have hf : (OpTensor4d.locals T x).leading_ones =
        IsBitmapLeadingOnes (computeGrid x.bTensorDesc.lens x.cTensorDesc.lens).bitmap
          x.cTensorDesc.lens.length
          (((computeGrid x.bTensorDesc.lens x.cTensorDesc.lens).d : Int) - 2) := rfl
    rw [hf, hbm, hd, hc, hpat, nonOnesFormPrefix_pattern, hpat]
    exact pattern4_leading _ _ _ _
  have e3 : (OpTensor4d.locals T x).packed_tensor =
      (x.aTensorDesc.IsPacked && x.bTensorDesc.IsPacked && x.cTensorDesc.IsPacked) := by
    show (true && x.aTensorDesc.IsPacked && x.bTensorDesc.IsPacked &&
      x.cTensorDesc.IsPacked) = _
    simp
  have e4 : (OpTensor4d.locals T x).packed_equal_tensor =
      ((x.aTensorDesc.IsPacked && x.bTensorDesc.IsPacked && x.cTensorDesc.IsPacked) &&
        decide (x.bTensorDesc.GetElementSize = x.cTensorDesc.GetElementSize)) := by
    show ((true && x.aTensorDesc.IsPacked && x.bTensorDesc.IsPacked &&
      x.cTensorDesc.IsPacked) && decide _) = _
    simp
  unfold OpTensor4d.plan strategy4d
  rw [OpTensor4d_branch_algorithm, e2, e3, e4]
  dsimp only
  by_cases hbias : isChannelBias x.bTensorDesc.lens = true
  · rw [if_pos (e1.mpr hbias), if_pos hbias]
  · rw [if_neg (fun hh => hbias (e1.mp hh)), if_neg hbias]

/-- C1: `OpTensor` raises a validation error iff one of the six conditions holds (null
pointer, A/C element counts differ, B/C types differ, C has more than 5 dimensions, B and
C differ in rank, some `B[i]` is neither 1 nor `C[i]`).  Hence, the other checks passing,
for B and C of equal rank at most 5 the call is accepted iff every `B[i]` is 1 or `C[i]`;
a rank-6 request is rejected; and a rejected call leaves the handle as it was: no kernel
lookup, no compilation, no launch. -/
theorem OpTensor_validation (T : TypeTable) (h : Handle) (x : OpTensorArgs) :
    ((OpTensor T h x).1 ≠ none ↔ ValidationFailure x) ∧
    ((x.ATensor ≠ 0 ∧ x.BTensor ≠ 0 ∧ x.CTensor ≠ 0) →
      x.aTensorDesc.GetElementSize = x.cTensorDesc.GetElementSize →
      x.bTensorDesc.type = x.cTensorDesc.type →
      x.bTensorDesc.lens.length = x.cTensorDesc.lens.length →
      x.cTensorDesc.lens.length ≤ 5 →
      ((OpTensor T h x).1 = none ↔
        ∀ (i : Nat) (bi ci : Nat), x.bTensorDesc.lens[i]? = some bi →
          x.cTensorDesc.lens[i]? = some ci → bi = 1 ∨ bi = ci)) ∧
    (x.cTensorDesc.lens.length = 6 → (OpTensor T h x).1 ≠ none) ∧
    ((OpTensor T h x).1 ≠ none → (OpTensor T h x).2 = h) := by
  have hiff : (OpTensor T h x).1 ≠ none ↔ ValidationFailure x := by
    rcases OpTensor_cases T h x with ⟨hv, e, he⟩ | ⟨hv, he⟩
    · rw [he]; simp [hv]
    · rw [he]; simp [hv]
  refine ⟨hiff, ?_, ?_, ?_⟩
  · intro hp hel hty hlen h5
    have hv : ValidationFailure x ↔ ∃ (i : Nat) (bi ci : Nat),
        x.bTensorDesc.lens[i]? = some bi ∧ x.cTensorDesc.lens[i]? = some ci ∧
          bi ≠ 1 ∧ bi ≠ ci := by
      unfold ValidationFailure
      constructor
      · rintro (hh | hh | hh | hh | hh | hh)
        · rcases hh with e | e | e
          · exact absurd e hp.1
          · exact absurd e hp.2.1
          · exact absurd e hp.2.2
        · exact absurd hel hh
        · exact absurd hty hh
        · omega
        · exact absurd hlen hh
        · exact hh
      · intro hh
        exact Or.inr (Or.inr (Or.inr (Or.inr (Or.inr hh))))
    constructor
    · intro hacc i bi ci hb hc
      by_contra hne
      have : ValidationFailure x :=
        hv.mpr ⟨i, bi, ci, hb, hc, fun e => hne (Or.inl e), fun e => hne (Or.inr e)⟩
      exact (hiff.mpr this) hacc
    · intro hall
      by_contra hne
      obtain ⟨i, bi, ci, hb, hc, h1, h2⟩ := hv.mp (hiff.mp hne)
      rcases hall i bi ci hb hc with e | e
      · exact h1 e
      · exact h2 e
  · intro h6
    apply hiff.mpr
    unfold ValidationFailure
    exact Or.inr (Or.inr (Or.inr (Or.inl (by omega))))
  · intro hrej
    rcases OpTensor_cases T h x with ⟨_, e, he⟩ | ⟨hv, _⟩
    · rw [he]
    · exact absurd (hiff.mp hrej) hv

/-- C2 fails on the code: B = [1, 4294967297, 1, 1] against C = [2, 4294967297, 1, 1]
(packed, accepted) has the channel-bias shape `[1, c, 1, 1]` with `c ≠ 1`, so the priority
list names `OpTensorFwdBias`; but the predicate `[](int i) { return i != 1; }` reads the
`size_t` length 4294967297 as the `int` 1, finds no length other than 1, and `OpTensor4d`
computes the bitmap 16 and launches `OpTensorLeadingOnes`. -/
theorem OpTensor4d_truncated_channel_length :
    (OpTensor sampleTypes emptyHandle
      (sampleCall [1, 4294967297, 1, 1] [2, 4294967297, 1, 1])).1 = none ∧
    isChannelBias (sampleCall [1, 4294967297, 1, 1] [2, 4294967297, 1, 1]).bTensorDesc.lens =
      true ∧
    strategy4d (sampleCall [1, 4294967297, 1, 1] [2, 4294967297, 1, 1]) = "OpTensorFwdBias" ∧
    toInt 4294967297 = 1 ∧
    firstNotOneDistance [1, 4294967297, 1, 1] = 0 ∧
    (OpTensor4d.locals sampleTypes
      (sampleCall [1, 4294967297, 1, 1] [2, 4294967297, 1, 1])).bitmap = 16 ∧
    (OpTensor4d.plan sampleTypes
      (sampleCall [1, 4294967297, 1, 1] [2, 4294967297, 1, 1])).algorithm =
      "OpTensorLeadingOnes" ∧
    launchedAlgorithms (OpTensor sampleTypes emptyHandle
      (sampleCall [1, 4294967297, 1, 1] [2, 4294967297, 1, 1])).2.trace =
      ["OpTensorLeadingOnes"] :=
  ⟨by decide, by decide, by decide, by decide, by decide, by decide, by decide, by decide⟩

/-- Within the range of `int` the priority list of C2 is followed: for an accepted 4-D
call whose B lengths are below `2^31`, the kernel `OpTensor4d` selects is the one named by the priority list: forward-bias iff B is
`[1, c, 1, 1]` with `c ≠ 1` (packed or generic variant by the packing of A, B, C);
otherwise `Op4dTensorLite` iff all three are packed and B and C have equal element
counts; otherwise leading-ones iff the non-1 dimensions of B form a prefix (packed or
generic variant); otherwise `Op4dTensorGeneric`.  That kernel is the one kernel the call
launches. -/
theorem OpTensor4d_strategy (T : TypeTable) (h : Handle) (x : OpTensorArgs)
    (hacc : (OpTensor T h x).1 = none)
    (hrank : x.cTensorDesc.lens.length = 4)
    (hrange : ∀ l ∈ x.bTensorDesc.lens, l < 2 ^ 31) :
    (OpTensor4d.plan T x).algorithm = strategy4d x ∧
    ∃ new, (OpTensor T h x).2.trace = h.trace ++ new ∧
      launchedAlgorithms new = [strategy4d x] := by
  obtain ⟨hv, he⟩ := OpTensor_accepted T h x hacc
  have hlen : x.bTensorDesc.lens.length = 4 := by
    by_contra hne
    apply hv
    unfold ValidationFailure
    exact Or.inr (Or.inr (Or.inr (Or.inr (Or.inl (by omega)))))
  have hs := OpTensor4d_plan_strategy T x hlen hrank hrange
  refine ⟨hs, ?_⟩
  rw [he]
  unfold OpTensor.dispatch
  rw [if_neg (by omega), if_pos hlen]
  unfold OpTensor4d
  obtain ⟨new, h1, h2⟩ := Handle_run_trace h (OpTensor4d.plan T x)
  exact ⟨new, h1, by rw [h2, hs]⟩

/-- The call C = [8,16,32,32], B = [1,16,1,1], packed, selects forward-bias. -/
theorem OpTensor4d_strategy_witness :
    (OpTensor sampleTypes emptyHandle (sampleCall [1, 16, 1, 1] [8, 16, 32, 32])).1 = none ∧
    (sampleCall [1, 16, 1, 1] [8, 16, 32, 32]).cTensorDesc.lens.length = 4 ∧
    strategy4d (sampleCall [1, 16, 1, 1] [8, 16, 32, 32]) = "OpTensorFwdBias" ∧
    ((OpTensor4d.plan sampleTypes (sampleCall [1, 16, 1, 1] [8, 16, 32, 32])).algorithm =
        strategy4d (sampleCall [1, 16, 1, 1] [8, 16, 32, 32]) ∧
      ∃ new, (OpTensor sampleTypes emptyHandle
          (sampleCall [1, 16, 1, 1] [8, 16, 32, 32])).2.trace = emptyHandle.trace ++ new ∧
        launchedAlgorithms new = [strategy4d (sampleCall [1, 16, 1, 1] [8, 16, 32, 32])]) :=
  ⟨by decide, by decide, by decide,
    OpTensor4d_strategy sampleTypes emptyHandle (sampleCall [1, 16, 1, 1] [8, 16, 32, 32])
      (by decide) (by decide) (by decide)⟩

theorem OpTensorOther_trace (T : TypeTable) (h : Handle) (x : OpTensorArgs) (a : String)
    (ha : (OpTensorOther.branch x (OpTensorOther.locals T x)).map (fun l => l.algorithm) =
      some a) :
    ∃ new, (OpTensorOther T h x).trace = h.trace ++ new ∧ launchedAlgorithms new = [a] := by
  unfold OpTensorOther OpTensorOther.plan
  cases hp : OpTensorOther.branch x (OpTensorOther.locals T x) with
  | none => rw [hp] at ha; cases ha
  | some l =>
    rw [hp] at ha
    simp only [Option.map_some', Option.some.injEq] at ha
    obtain ⟨new, h1, h2⟩ := Handle_run_trace h l
    exact ⟨new, h1, by rw [h2, ha]⟩

/-- C3: every accepted `OpTensor` call of rank 1 to 5 launches exactly one kernel, exactly
once, whether the kernel object was cached or freshly added, and the family of that
kernel is fixed by the rank: rank 1 `Op1dTensorGeneric`, rank 2 `Op2dTensorGeneric`,
rank 5 `Op5dTensorGeneric`, rank 3 `Op2dTensorLite` or `Op3dTensorGeneric`, rank 4 one of
the six 4-D kernels. -/
theorem OpTensor_one_kernel (T : TypeTable) (h : Handle) (x : OpTensorArgs)
    (hacc : (OpTensor T h x).1 = none)
    (hlo : 1 ≤ x.cTensorDesc.lens.length) (hhi : x.cTensorDesc.lens.length ≤ 5) :
    ∃ new a, (OpTensor T h x).2.trace = h.trace ++ new ∧ launchedAlgorithms new = [a] ∧
      (x.cTensorDesc.lens.length = 1 → a = "Op1dTensorGeneric") ∧
      (x.cTensorDesc.lens.length = 2 → a = "Op2dTensorGeneric") ∧
      (x.cTensorDesc.lens.length = 5 → a = "Op5dTensorGeneric") ∧
      (x.cTensorDesc.lens.length = 3 → a = "Op2dTensorLite" ∨ a = "Op3dTensorGeneric") ∧
      (x.cTensorDesc.lens.length = 4 →
        a ∈ ["OpTensorFwdBias", "OpTensorFwdBiasGeneric", "Op4dTensorLite",
          "OpTensorLeadingOnes", "OpTensorLeadingOnesGeneric", "Op4dTensorGeneric"]) := by
  obtain ⟨hv, he⟩ := OpTensor_accepted T h x hacc
  have hlen : x.bTensorDesc.lens.length = x.cTensorDesc.lens.length := by
    by_contra hne
    apply hv
    unfold ValidationFailure
    exact Or.inr (Or.inr (Or.inr (Or.inr (Or.inl hne))))
  rw [he]
  unfold OpTensor.dispatch
  have hcases : x.bTensorDesc.lens.length = 1 ∨ x.bTensorDesc.lens.length = 2 ∨
      x.bTensorDesc.lens.length = 3 ∨ x.bTensorDesc.lens.length = 4 ∨
      x.bTensorDesc.lens.length = 5 := by omega
  rcases hcases with h1 | h2 | h3 | h4 | h5
  · rw [if_neg (by omega), if_neg (by omega)]
    have ha := OpTensorOther_branch_algorithm x (OpTensorOther.locals T x)
    rw [if_neg (by omega), if_neg (by omega), if_pos h1] at ha
    obtain ⟨new, e1, e2⟩ := OpTensorOther_trace T h x _ ha
    exact ⟨new, _, e1, e2, fun _ => rfl, by omega, by omega, by omega, by omega⟩
  · rw [if_neg (by omega), if_neg (by omega)]
    have ha := OpTensorOther_branch_algorithm x (OpTensorOther.locals T x)
    rw [if_neg (by omega), if_pos h2] at ha
    obtain ⟨new, e1, e2⟩ := OpTensorOther_trace T h x _ ha
    exact ⟨new, _, e1, e2, by omega, fun _ => rfl, by omega, by omega, by omega⟩
  · rw [if_pos h3]
    unfold OpTensor3d OpTensor3d.plan
    obtain ⟨new, e1, e2⟩ := Handle_run_trace h (OpTensor3d.branch T x (OpTensor3d.locals T x))
    refine ⟨new, _, e1, e2, by omega, by omega, by omega, fun _ => ?_, by omega⟩
    rw [OpTensor3d_branch_algorithm]
    split_ifs
    · exact Or.inl rfl
    · exact Or.inr rfl
  · rw [if_neg (by omega), if_pos h4]
    unfold OpTensor4d OpTensor4d.plan
    obtain ⟨new, e1, e2⟩ := Handle_run_trace h (OpTensor4d.branch T x (OpTensor4d.locals T x))
    refine ⟨new, _, e1, e2, by omega, by omega, by omega, by omega, fun _ => ?_⟩
    rw [OpTensor4d_branch_algorithm]
    split_ifs <;> simp
  · rw [if_neg (by omega), if_neg (by omega)]
    have ha := OpTensorOther_branch_algorithm x (OpTensorOther.locals T x)
    rw [if_pos h5] at ha
    obtain ⟨new, e1, e2⟩ := OpTensorOther_trace T h x _ ha
    exact ⟨new, _, e1, e2, by omega, by omega, fun _ => rfl, by omega, by omega⟩

/-- Witness for C3: the 5-D call C = B = [2,3,4,5,6] launches `Op5dTensorGeneric` once. -/
theorem OpTensor_one_kernel_witness :
    (OpTensor sampleTypes emptyHandle
      (sampleCall [2, 3, 4, 5, 6] [2, 3, 4, 5, 6])).1 = none ∧
    launchedAlgorithms (OpTensor sampleTypes emptyHandle
      (sampleCall [2, 3, 4, 5, 6] [2, 3, 4, 5, 6])).2.trace = ["Op5dTensorGeneric"] ∧
    ∃ new a, (OpTensor sampleTypes emptyHandle
        (sampleCall [2, 3, 4, 5, 6] [2, 3, 4, 5, 6])).2.trace = emptyHandle.trace ++ new ∧
      launchedAlgorithms new = [a] ∧
      ((sampleCall [2, 3, 4, 5, 6] [2, 3, 4, 5, 6]).cTensorDesc.lens.length = 1 →
        a = "Op1dTensorGeneric") ∧
      ((sampleCall [2, 3, 4, 5, 6] [2, 3, 4, 5, 6]).cTensorDesc.lens.length = 2 →
        a = "Op2dTensorGeneric") ∧
      ((sampleCall [2, 3, 4, 5, 6] [2, 3, 4, 5, 6]).cTensorDesc.lens.length = 5 →
        a = "Op5dTensorGeneric") ∧
      ((sampleCall [2, 3, 4, 5, 6] [2, 3, 4, 5, 6]).cTensorDesc.lens.length = 3 →
        a = "Op2dTensorLite" ∨ a = "Op3dTensorGeneric") ∧
      ((sampleCall [2, 3, 4, 5, 6] [2, 3, 4, 5, 6]).cTensorDesc.lens.length = 4 →
        a ∈ ["OpTensorFwdBias", "OpTensorFwdBiasGeneric", "Op4dTensorLite",
          "OpTensorLeadingOnes", "OpTensorLeadingOnesGeneric", "Op4dTensorGeneric"]) :=
  ⟨by decide, by decide,
    OpTensor_one_kernel sampleTypes emptyHandle (sampleCall [2, 3, 4, 5, 6] [2, 3, 4, 5, 6])
      (by decide) (by decide) (by decide)⟩

set_option maxRecDepth 16384 in
/-- C10 fails on the code: the accepted 3-D calls with C = B = [1,3,12] and with
C = B = [1,23,1] both select `Op2dTensorLite` and both produce the network config
`110123104096` (the lengths 12 and 3, and 1 and 23, are concatenated without a
separator), yet their compiler options and global work sizes differ; run one after the
other on the same handle, the second call adds no kernel and launches the kernel object
built for the first. -/
theorem network_config_collision :
    (OpTensor sampleTypes emptyHandle (sampleCall [1, 3, 12] [1, 3, 12])).1 = none ∧
    (OpTensor sampleTypes emptyHandle (sampleCall [1, 23, 1] [1, 23, 1])).1 = none ∧
    (OpTensor3d.plan sampleTypes (sampleCall [1, 3, 12] [1, 3, 12])).algorithm =
      "Op2dTensorLite" ∧
    (OpTensor3d.plan sampleTypes (sampleCall [1, 23, 1] [1, 23, 1])).algorithm =
      "Op2dTensorLite" ∧
    (OpTensor3d.plan sampleTypes (sampleCall [1, 3, 12] [1, 3, 12])).network_config =
      "110123104096" ∧
    (OpTensor3d.plan sampleTypes (sampleCall [1, 23, 1] [1, 23, 1])).network_config =
      "110123104096" ∧
    (OpTensor3d.plan sampleTypes (sampleCall [1, 3, 12] [1, 3, 12])).parms ≠
      (OpTensor3d.plan sampleTypes (sampleCall [1, 23, 1] [1, 23, 1])).parms ∧
    (OpTensor3d.plan sampleTypes (sampleCall [1, 3, 12] [1, 3, 12])).vgd = [3, 3, 1] ∧
    (OpTensor3d.plan sampleTypes (sampleCall [1, 23, 1] [1, 23, 1])).vgd = [1, 23, 1] ∧
    (OpTensor sampleTypes
      (OpTensor sampleTypes emptyHandle (sampleCall [1, 3, 12] [1, 3, 12])).2
      (sampleCall [1, 23, 1] [1, 23, 1])).2.kernels =
      (OpTensor sampleTypes emptyHandle (sampleCall [1, 3, 12] [1, 3, 12])).2.kernels ∧
    ((OpTensor sampleTypes
      (OpTensor sampleTypes emptyHandle (sampleCall [1, 3, 12] [1, 3, 12])).2
      (sampleCall [1, 23, 1] [1, 23, 1])).2.kernels.map (fun k => k.vgd)) = [[3, 3, 1]] :=
  ⟨by decide, by decide, by decide, by decide, by decide, by decide, by decide, by decide,
    by decide, by decide, by decide⟩

theorem OpTensor_dispatch_four (T : TypeTable) (h : Handle) (x : OpTensorArgs)
    (hacc : (OpTensor T h x).1 = none) (hrank : x.cTensorDesc.lens.length = 4) :
    x.bTensorDesc.lens.length = 4 ∧ (OpTensor T h x).2 = h.run (OpTensor4d.plan T x) := by
  obtain ⟨hv, he⟩ := OpTensor_accepted T h x hacc
  have hlen : x.bTensorDesc.lens.length = 4 := by
    by_contra hne
    apply hv
    unfold ValidationFailure
    exact Or.inr (Or.inr (Or.inr (Or.inr (Or.inl (by omega)))))
  refine ⟨hlen, ?_⟩
  rw [he]
  unfold OpTensor.dispatch
  rw [if_neg (by omega), if_pos hlen]
  rfl

theorem length_eq_three (l : List Nat) (h : l.length = 3) : ∃ b0 b1 b2, l = [b0, b1, b2] := by
  match l, h with
  | [b0, b1, b2], _ => exact ⟨b0, b1, b2, rfl⟩

theorem OpTensor_dispatch_three (T : TypeTable) (h : Handle) (x : OpTensorArgs)
    (hacc : (OpTensor T h x).1 = none) (hrank : x.cTensorDesc.lens.length = 3) :
    x.bTensorDesc.lens.length = 3 ∧ (OpTensor T h x).2 = h.run (OpTensor3d.plan T x) := by
  obtain ⟨hv, he⟩ := OpTensor_accepted T h x hacc
  have hlen : x.bTensorDesc.lens.length = 3 := by
    by_contra hne
    apply hv
    unfold ValidationFailure
    exact Or.inr (Or.inr (Or.inr (Or.inr (Or.inl (by omega)))))
  refine ⟨hlen, ?_⟩
  rw [he]
  unfold OpTensor.dispatch
  rw [if_pos hlen]
  rfl

/-- C11 fails on the code: of the six checks of `OpTensor` only the null-pointer check
passes `miopenStatusBadParm` to `MIOPEN_THROW`; a call failing one of the other five (A
and C of different element counts, B and C of different types, rank 6, B and C of
different ranks, a length of B that is neither 1 nor that of C) raises an exception that
is given a message and no status code. -/
theorem OpTensor_message_only_throws :
    (OpTensor sampleTypes emptyHandle { sampleCall [2, 3] [2, 3] with ATensor := 0 }).1 =
      some (.status .miopenStatusBadParm) ∧
    (OpTensor sampleTypes emptyHandle
      { sampleCall [2, 3] [2, 3] with aTensorDesc := packedFloat [2, 4] }).1 =
      some (.message "A and C Tensors do not match") ∧
    (OpTensor sampleTypes emptyHandle
      { sampleCall [2, 3] [2, 3] with
        bTensorDesc := { packedFloat [2, 3] with type := .miopenHalf } }).1 =
      some (.message "Datatypes for B and C tensors do not match !") ∧
    (OpTensor sampleTypes emptyHandle (sampleCall [1, 1, 1, 1, 1, 1] [1, 1, 1, 1, 1, 1])).1 =
      some (.message "Tensor dimension larger than 5: 6") ∧
    (OpTensor sampleTypes emptyHandle (sampleCall [3] [2, 3])).1 =
      some (.message "Number of dims in B and C Tensors do not match: 1, 2") ∧
    (OpTensor sampleTypes emptyHandle (sampleCall [2, 2] [2, 3])).1 =
      some (.message "BTensor dim != 1 && BTensor dim != CTensor dim: 1") ∧
    ((OpTensor sampleTypes emptyHandle
      { sampleCall [2, 3] [2, 3] with aTensorDesc := packedFloat [2, 4] }).1.bind
        Thrown.namedStatus) = none :=
  ⟨by decide, by decide, by decide, by decide, by decide, by decide, by decide⟩

/-- C12 fails on its own example: the accepted 3-D call with C = B = [4,8,8], all three
tensors packed and B and C of 256 elements each, launches `Op3dTensorGeneric`. -/
theorem OpTensor3d_packed_equal_counterexample :
    (OpTensor sampleTypes emptyHandle (sampleCall [4, 8, 8] [4, 8, 8])).1 = none ∧
    ((sampleCall [4, 8, 8] [4, 8, 8]).aTensorDesc.IsPacked &&
      (sampleCall [4, 8, 8] [4, 8, 8]).bTensorDesc.IsPacked &&
      (sampleCall [4, 8, 8] [4, 8, 8]).cTensorDesc.IsPacked) = true ∧
    (sampleCall [4, 8, 8] [4, 8, 8]).bTensorDesc.GetElementSize =
      (sampleCall [4, 8, 8] [4, 8, 8]).cTensorDesc.GetElementSize ∧
    launchedAlgorithms
      (OpTensor sampleTypes emptyHandle (sampleCall [4, 8, 8] [4, 8, 8])).2.trace =
      ["Op3dTensorGeneric"] :=
  ⟨by decide, by decide, by decide, by decide⟩

theorem OpTensor3d_lite_iff (x : OpTensorArgs) (hb : x.bTensorDesc.lens.length = 3)
    (hc : x.cTensorDesc.lens.length = 3) :
    OpTensor3d.lite x = true ↔
      (x.cTensorDesc.lens[0]? = some 1 ∧ x.bTensorDesc.lens[0]? = some 1 ∧
        x.aTensorDesc.lens[0]? = some 1 ∧
        (x.bTensorDesc.lens[1]? = x.cTensorDesc.lens[1]? ∨ x.bTensorDesc.lens[1]? = some 1) ∧
        x.bTensorDesc.lens[2]? = x.cTensorDesc.lens[2]?) := by
  obtain ⟨b0, b1, b2, hbl⟩ := length_eq_three _ hb
  obtain ⟨c0, c1, c2, hcl⟩ := length_eq_three _ hc
  unfold OpTensor3d.lite
  rw [hbl, hcl]
  cases x.aTensorDesc.lens with
  | nil => simp [elemAt]
  | cons a0 as => simp [elemAt, and_assoc]

/-- C12, amended: an accepted 3-D call launches exactly one kernel, which is
`Op2dTensorLite` iff the first lengths of C, B and A are all 1, `B[1]` is `C[1]` or 1, and
`B[2] = C[2]`, and `Op3dTensorGeneric` otherwise; neither the packing of the tensors nor
their element counts enter the choice. -/
theorem OpTensor3d_strategy (T : TypeTable) (h : Handle) (x : OpTensorArgs)
    (hacc : (OpTensor T h x).1 = none) (hrank : x.cTensorDesc.lens.length = 3) :
    ∃ new, (OpTensor T h x).2.trace = h.trace ++ new ∧
      launchedAlgorithms new =
        [if x.cTensorDesc.lens[0]? = some 1 ∧ x.bTensorDesc.lens[0]? = some 1 ∧
            x.aTensorDesc.lens[0]? = some 1 ∧
            (x.bTensorDesc.lens[1]? = x.cTensorDesc.lens[1]? ∨
              x.bTensorDesc.lens[1]? = some 1) ∧
            x.bTensorDesc.lens[2]? = x.cTensorDesc.lens[2]?
          then "Op2dTensorLite" else "Op3dTensorGeneric"] := by
  obtain ⟨hlen, he⟩ := OpTensor_dispatch_three T h x hacc hrank
  obtain ⟨new, h1, h2⟩ := Handle_run_trace h (OpTensor3d.plan T x)
  refine ⟨new, by rw [he, h1], ?_⟩
  rw [h2]
  unfold OpTensor3d.plan
  rw [OpTensor3d_branch_algorithm]
  by_cases hl : OpTensor3d.lite x = true
  · rw [if_pos hl, if_pos ((OpTensor3d_lite_iff x hlen hrank).mp hl)]
  · rw [if_neg hl, if_neg (fun hh => hl ((OpTensor3d_lite_iff x hlen hrank).mpr hh))]

/-- Witness for C12 (amended): C = B = [1,8,8] launches `Op2dTensorLite`. -/
theorem OpTensor3d_strategy_witness :
    launchedAlgorithms
      (OpTensor sampleTypes emptyHandle (sampleCall [1, 8, 8] [1, 8, 8])).2.trace =
      ["Op2dTensorLite"] ∧
    ∃ new, (OpTensor sampleTypes emptyHandle (sampleCall [1, 8, 8] [1, 8, 8])).2.trace =
        emptyHandle.trace ++ new ∧
      launchedAlgorithms new =
        [if (sampleCall [1, 8, 8] [1, 8, 8]).cTensorDesc.lens[0]? = some 1 ∧
            (sampleCall [1, 8, 8] [1, 8, 8]).bTensorDesc.lens[0]? = some 1 ∧
            (sampleCall [1, 8, 8] [1, 8, 8]).aTensorDesc.lens[0]? = some 1 ∧
            ((sampleCall [1, 8, 8] [1, 8, 8]).bTensorDesc.lens[1]? =
                (sampleCall [1, 8, 8] [1, 8, 8]).cTensorDesc.lens[1]? ∨
              (sampleCall [1, 8, 8] [1, 8, 8]).bTensorDesc.lens[1]? = some 1) ∧
            (sampleCall [1, 8, 8] [1, 8, 8]).bTensorDesc.lens[2]? =
              (sampleCall [1, 8, 8] [1, 8, 8]).cTensorDesc.lens[2]?
          then "Op2dTensorLite" else "Op3dTensorGeneric"] :=
  ⟨by decide,
    OpTensor3d_strategy sampleTypes emptyHandle (sampleCall [1, 8, 8] [1, 8, 8])
      (by decide) (by decide)⟩

/-- C13 fails on the code: the accepted, packed 4-D call with C = [2,1,1,4] and
B = [1,1,1,4] launches `Op4dTensorGeneric`. -/
theorem OpTensor4d_trailing_dim_counterexample :
    (OpTensor sampleTypes emptyHandle (sampleCall [1, 1, 1, 4] [2, 1, 1, 4])).1 = none ∧
    launchedAlgorithms
      (OpTensor sampleTypes emptyHandle (sampleCall [1, 1, 1, 4] [2, 1, 1, 4])).2.trace =
      ["Op4dTensorGeneric"] :=
  ⟨by decide, by decide⟩

/-- C13, amended: every accepted 4-D call with C = [2,1,1,4] and B = [1,1,1,4], packed or
not, launches exactly one kernel, `Op4dTensorGeneric`: the only length of B other than 1
is the last, so the bitmap is `0b0001` and has no leading one. -/
theorem OpTensor4d_trailing_dim_generic (T : TypeTable) (h : Handle) (x : OpTensorArgs)
    (hacc : (OpTensor T h x).1 = none)
    (hc : x.cTensorDesc.lens = [2, 1, 1, 4]) (hb : x.bTensorDesc.lens = [1, 1, 1, 4]) :
    (OpTensor4d.locals T x).bitmap = 1 ∧
    (OpTensor4d.locals T x).leading_ones = false ∧
    ∃ new, (OpTensor T h x).2.trace = h.trace ++ new ∧
      launchedAlgorithms new = ["Op4dTensorGeneric"] := by
  have hrank : x.cTensorDesc.lens.length = 4 := by rw [hc]; rfl
  have hrange : ∀ l ∈ x.bTensorDesc.lens, l < 2 ^ 31 := by rw [hb]; decide
  obtain ⟨hlen, he⟩ := OpTensor_dispatch_four T h x hacc hrank
  have hs := OpTensor4d_plan_strategy T x hlen hrank hrange
  have hstr : strategy4d x = "Op4dTensorGeneric" := by
    unfold strategy4d TensorDescriptor.GetElementSize
    rw [hb, hc]
    simp [isChannelBias, nonOnesFormPrefix]
  have hbit : (OpTensor4d.locals T x).bitmap = 1 := by
    show (computeGrid x.bTensorDesc.lens x.cTensorDesc.lens).bitmap = 1
    rw [hb, hc]
    decide
  have hlead : (OpTensor4d.locals T x).leading_ones = false := by
    show IsBitmapLeadingOnes (computeGrid x.bTensorDesc.lens x.cTensorDesc.lens).bitmap
      x.cTensorDesc.lens.length
      (((computeGrid x.bTensorDesc.lens x.cTensorDesc.lens).d : Int) - 2) = false
    rw [hb, hc]
    decide
  obtain ⟨new, h1, h2⟩ := Handle_run_trace h (OpTensor4d.plan T x)
  exact ⟨hbit, hlead, new, by rw [he, h1], by rw [h2, hs, hstr]⟩

/-- Witness for C13 (amended): the packed float call C = [2,1,1,4], B = [1,1,1,4]. -/
theorem OpTensor4d_trailing_dim_generic_witness :
    (OpTensor sampleTypes emptyHandle (sampleCall [1, 1, 1, 4] [2, 1, 1, 4])).1 = none ∧
    ((OpTensor4d.locals sampleTypes (sampleCall [1, 1, 1, 4] [2, 1, 1, 4])).bitmap = 1 ∧
    (OpTensor4d.locals sampleTypes (sampleCall [1, 1, 1, 4] [2, 1, 1, 4])).leading_ones =
      false ∧
    ∃ new, (OpTensor sampleTypes emptyHandle
        (sampleCall [1, 1, 1, 4] [2, 1, 1, 4])).2.trace = emptyHandle.trace ++ new ∧
      launchedAlgorithms new = ["Op4dTensorGeneric"]) :=
  ⟨by decide,
    OpTensor4d_trailing_dim_generic sampleTypes emptyHandle
      (sampleCall [1, 1, 1, 4] [2, 1, 1, 4]) (by decide) rfl rfl⟩

theorem OpTensor4d_branch_lite (T : TypeTable) (x : OpTensorArgs) (v : Locals)
    (h1 : v.fwd_conv_bias = 0) (h2 : v.packed_equal_tensor = true) :
    (OpTensor4d.branch T x v).parms =
      (let L := x.cTensorDesc.GetElementSize
       let RD_BLCK : Nat :=
         if L % 4 = 0 then 4 else if L % 3 = 0 then 3 else if L % 2 = 0 then 2 else 1
       v.parms ++ " -DUSE_4D_TENSOR_LITE" ++
        (" -DRD_BLCK=" ++ toString RD_BLCK ++ " -DMAP_RD=" ++ toString (L / RD_BLCK) ++
          " -DREAD_TYPE=" ++
          (if RD_BLCK = 1 then T.GetDataType x.bTensorDesc.type
           else T.GetDataType x.bTensorDesc.type ++ toString RD_BLCK)) ++
        (if x.beta_is_zero = true then "" else " -DBETA")) ∧
    (OpTensor4d.branch T x v).vgd =
      (let L := x.cTensorDesc.GetElementSize
       let RD_BLCK : Nat :=
         if L % 4 = 0 then 4 else if L % 3 = 0 then 3 else if L % 2 = 0 then 2 else 1
       [L / RD_BLCK, 1, 1]) ∧
    (OpTensor4d.branch T x v).vld = [v.local_threads, 1, 1] := by
  unfold OpTensor4d.branch
  dsimp only
  rw [if_neg (by simp [h1]), if_pos h2]
  dsimp only
  refine ⟨?_, rfl, rfl⟩
  cases x.beta_is_zero
  · rfl
  · simp

theorem OpTensor4d_branch_lite_iff (T : TypeTable) (x : OpTensorArgs) (v : Locals) :
    (OpTensor4d.branch T x v).algorithm = "Op4dTensorLite" ↔
      v.fwd_conv_bias = 0 ∧ v.packed_equal_tensor = true := by
  rw [OpTensor4d_branch_algorithm]
  split_ifs with a b c d e <;> simp_all

theorem readBlock_largest (L : Nat) :
    (if L % 4 = 0 then 4 else if L % 3 = 0 then 3 else if L % 2 = 0 then 2 else 1 : Nat) ∈
      [4, 3, 2, 1] ∧
    (if L % 4 = 0 then 4 else if L % 3 = 0 then 3 else if L % 2 = 0 then 2 else 1 : Nat) ∣ L ∧
    ∀ m ∈ [4, 3, 2, 1], m ∣ L →
      m ≤ (if L % 4 = 0 then 4 else if L % 3 = 0 then 3 else if L % 2 = 0 then 2 else 1 : Nat)
      := by
  have hdvd : ∀ m : Nat, m ∣ L ↔ L % m = 0 := fun _ => Nat.dvd_iff_mod_eq_zero
  refine ⟨?_, ?_, ?_⟩
  · split_ifs <;> simp
  · split_ifs with h4 h3 h2
    · exact (hdvd 4).mpr h4
    · exact (hdvd 3).mpr h3
    · exact (hdvd 2).mpr h2
    · exact one_dvd L
  · intro m hm hd
    simp only [List.mem_cons, List.mem_singleton, List.not_mem_nil, or_false] at hm
    rcases hm with rfl | rfl | rfl | rfl
    · rw [if_pos ((hdvd 4).mp hd)]
    · rw [if_pos ((hdvd 3).mp hd)]; split_ifs <;> omega
    · rw [if_pos ((hdvd 2).mp hd)]; split_ifs <;> omega
    · split_ifs <;> omega

/-- C14: an accepted 4-D call routed to `Op4dTensorLite`, C having `L` elements, is
planned with a block size `RD_BLCK` that is the largest member of 4, 3, 2, 1 dividing `L`;
with `MAP_RD = L / RD_BLCK`, so that `RD_BLCK * MAP_RD = L`; with `READ_TYPE` the name of
the element type followed by `RD_BLCK` (by nothing when `RD_BLCK` is 1); these three are
put into the build options after `-DUSE_4D_TENSOR_LITE`; and the kernel gets the
one-dimensional global work size `L / RD_BLCK`. -/
theorem Op4dTensorLite_vector_width (T : TypeTable) (h : Handle) (x : OpTensorArgs)
    (hacc : (OpTensor T h x).1 = none) (hrank : x.cTensorDesc.lens.length = 4)
    (hlite : (OpTensor4d.plan T x).algorithm = "Op4dTensorLite") :
    (OpTensor T h x).2 = h.run (OpTensor4d.plan T x) ∧
    ∃ RD_BLCK MAP_RD : Nat, ∃ READ_TYPE : String,
      RD_BLCK ∈ [4, 3, 2, 1] ∧ RD_BLCK ∣ x.cTensorDesc.GetElementSize ∧
      (∀ m ∈ [4, 3, 2, 1], m ∣ x.cTensorDesc.GetElementSize → m ≤ RD_BLCK) ∧
      MAP_RD = x.cTensorDesc.GetElementSize / RD_BLCK ∧
      RD_BLCK * MAP_RD = x.cTensorDesc.GetElementSize ∧
      READ_TYPE = (if RD_BLCK = 1 then T.GetDataType x.cTensorDesc.type
        else T.GetDataType x.cTensorDesc.type ++ toString RD_BLCK) ∧
      (OpTensor4d.plan T x).parms =
        (OpTensor4d.locals T x).parms ++ " -DUSE_4D_TENSOR_LITE" ++
          (" -DRD_BLCK=" ++ toString RD_BLCK ++ " -DMAP_RD=" ++ toString MAP_RD ++
            " -DREAD_TYPE=" ++ READ_TYPE) ++
          (if x.beta_is_zero = true then "" else " -DBETA") ∧
      (OpTensor4d.plan T x).vgd = [x.cTensorDesc.GetElementSize / RD_BLCK, 1, 1] := by
  obtain ⟨hv, _⟩ := OpTensor_accepted T h x hacc
  have hty : x.bTensorDesc.type = x.cTensorDesc.type := by
    by_contra hne
    apply hv
    unfold ValidationFailure
    exact Or.inr (Or.inr (Or.inl hne))
  obtain ⟨h1, h2⟩ := (OpTensor4d_branch_lite_iff T x (OpTensor4d.locals T x)).mp hlite
  obtain ⟨hp, hg, _⟩ := OpTensor4d_branch_lite T x (OpTensor4d.locals T x) h1 h2
  obtain ⟨hm, hd, hmax⟩ := readBlock_largest x.cTensorDesc.GetElementSize
  refine ⟨(OpTensor_dispatch_four T h x hacc hrank).2, _, _, _, hm, hd, hmax, rfl,
    Nat.mul_div_cancel' hd, rfl, ?_, hg⟩
  rw [← hty]
  exact hp

/-- Witness for C14: C = B = [2,3,5,7], packed: `L = 210`, `RD_BLCK = 3`. -/
theorem Op4dTensorLite_vector_width_witness :
    (OpTensor4d.plan sampleTypes (sampleCall [2, 3, 5, 7] [2, 3, 5, 7])).vgd = [70, 1, 1] ∧
    ((OpTensor sampleTypes emptyHandle (sampleCall [2, 3, 5, 7] [2, 3, 5, 7])).2 =
        emptyHandle.run (OpTensor4d.plan sampleTypes (sampleCall [2, 3, 5, 7] [2, 3, 5, 7])) ∧
    ∃ RD_BLCK MAP_RD : Nat, ∃ READ_TYPE : String,
      RD_BLCK ∈ [4, 3, 2, 1] ∧
      RD_BLCK ∣ (sampleCall [2, 3, 5, 7] [2, 3, 5, 7]).cTensorDesc.GetElementSize ∧
      (∀ m ∈ [4, 3, 2, 1],
        m ∣ (sampleCall [2, 3, 5, 7] [2, 3, 5, 7]).cTensorDesc.GetElementSize → m ≤ RD_BLCK) ∧
      MAP_RD = (sampleCall [2, 3, 5, 7] [2, 3, 5, 7]).cTensorDesc.GetElementSize / RD_BLCK ∧
      RD_BLCK * MAP_RD = (sampleCall [2, 3, 5, 7] [2, 3, 5, 7]).cTensorDesc.GetElementSize ∧
      READ_TYPE = (if RD_BLCK = 1
        then sampleTypes.GetDataType (sampleCall [2, 3, 5, 7] [2, 3, 5, 7]).cTensorDesc.type
        else sampleTypes.GetDataType (sampleCall [2, 3, 5, 7] [2, 3, 5, 7]).cTensorDesc.type ++
          toString RD_BLCK) ∧
      (OpTensor4d.plan sampleTypes (sampleCall [2, 3, 5, 7] [2, 3, 5, 7])).parms =
        (OpTensor4d.locals sampleTypes (sampleCall [2, 3, 5, 7] [2, 3, 5, 7])).parms ++
          " -DUSE_4D_TENSOR_LITE" ++
          (" -DRD_BLCK=" ++ toString RD_BLCK ++ " -DMAP_RD=" ++ toString MAP_RD ++
            " -DREAD_TYPE=" ++ READ_TYPE) ++
          (if (sampleCall [2, 3, 5, 7] [2, 3, 5, 7]).beta_is_zero = true then ""
            else " -DBETA") ∧
      (OpTensor4d.plan sampleTypes (sampleCall [2, 3, 5, 7] [2, 3, 5, 7])).vgd =
        [(sampleCall [2, 3, 5, 7] [2, 3, 5, 7]).cTensorDesc.GetElementSize / RD_BLCK, 1, 1]) :=
  ⟨by decide,
    Op4dTensorLite_vector_width sampleTypes emptyHandle (sampleCall [2, 3, 5, 7] [2, 3, 5, 7])
      (by decide) (by decide) (by decide)⟩

/-! ## Theorems: launch geometry -/

theorem toSizeT_natCast (n : Nat) (h : n < 2 ^ 31) : toSizeT (n : Int) = n := by
  unfold toSizeT
  omega

theorem mulAssign_of_lt (n y : Nat) (hn : n < 2 ^ 31) (h : n * y < 2 ^ 31) :
    mulAssign (n : Int) y = ((n * y : Nat) : Int) := by
  unfold mulAssign
  rw [toSizeT_natCast n hn]
  have h1 : n * y % 2 ^ 64 = n * y := Nat.mod_eq_of_lt (by omega)
  rw [h1]
  exact toInt_of_lt _ h

theorem nonOnesProduct_append (xs ys : List Nat) :
    nonOnesProduct (xs ++ ys) = nonOnesProduct xs * nonOnesProduct ys := by
  simp [nonOnesProduct, List.filter_append, List.prod_append]

theorem nonOnesProduct_singleton (a : Nat) :
    nonOnesProduct [a] = if a ≠ 1 then a else 1 := by
  by_cases h : a = 1
  · subst h; rfl
  · have hb : (a != 1) = true := bne_iff_ne.mpr h
    simp [nonOnesProduct, List.filter_cons, hb, h]

theorem nonOnesProduct_pos (xs : List Nat) (hpos : ∀ l ∈ xs, 1 ≤ l) :
    1 ≤ nonOnesProduct xs := by
  induction xs with
  | nil => simp [nonOnesProduct]
  | cons a as ih =>
    have ha := hpos a (List.mem_cons_self a as)
    have has := ih (fun l hl => hpos l (List.mem_cons_of_mem a hl))
    have e : nonOnesProduct (a :: as) = nonOnesProduct [a] * nonOnesProduct as :=
      nonOnesProduct_append [a] as
    rw [e, nonOnesProduct_singleton]
    split_ifs
    · exact Nat.mul_pos ha has
    · simpa using has

theorem CreateBitmapAndGrid_loop_num_wg (a_lens c_lens : List Nat)
    (hpos : ∀ l ∈ a_lens, 1 ≤ l) :
    ∀ (k : Nat) (bitmap : Nat) (n : Nat) (work : Int), k ≤ a_lens.length →
      n * nonOnesProduct (a_lens.take k) < 2 ^ 31 →
      (CreateBitmapAndGrid.loop a_lens c_lens k (bitmap, (n : Int), work)).2.1 =
        ((n * nonOnesProduct (a_lens.take k) : Nat) : Int) := by
  intro k
  induction k with
  | zero =>
    intro bitmap n work _ _
    simp [CreateBitmapAndGrid.loop, nonOnesProduct]
  | succ i ih =>
    intro bitmap n work hk hlt
    have hi : i < a_lens.length := by omega
    have hget : elemAt a_lens i = a_lens[i] := by
      simp [elemAt, List.getD_eq_getElem?_getD, List.getElem?_eq_getElem hi]
    have htake : a_lens.take (i + 1) = a_lens.take i ++ [a_lens[i]] := by
      rw [List.take_succ, List.getElem?_eq_getElem hi]
      rfl
    have hP : 1 ≤ nonOnesProduct (a_lens.take i) :=
      nonOnesProduct_pos _ (fun l hl => hpos l (List.mem_of_mem_take hl))
    have ha : 1 ≤ a_lens[i] := hpos _ (List.getElem_mem hi)
    rw [htake, nonOnesProduct_append, nonOnesProduct_singleton] at hlt ⊢
    unfold CreateBitmapAndGrid.loop
    rw [hget]
    by_cases h1 : a_lens[i] = 1
    · rw [if_neg (by simpa using h1)]
      rw [if_neg (by simpa using h1)] at hlt ⊢
      rw [Nat.mul_one] at hlt ⊢
      exact ih _ _ _ (by omega) hlt
    · rw [if_pos h1]
      rw [if_pos h1] at hlt ⊢
      have e : n * (nonOnesProduct (a_lens.take i) * a_lens[i]) =
          n * a_lens[i] * nonOnesProduct (a_lens.take i) := by ring
      rw [e] at hlt ⊢
      have hle : n * a_lens[i] ≤ n * a_lens[i] * nonOnesProduct (a_lens.take i) :=
        Nat.le_mul_of_pos_right _ hP
      have hn : n ≤ n * a_lens[i] := Nat.le_mul_of_pos_right _ ha
      rw [mulAssign_of_lt n a_lens[i] (by omega) (by omega)]
      exact ih _ _ _ (by omega) hlt

theorem toInt_eq_one_iff (l : Nat) (h : l < 2 ^ 31) : toInt (l : Int) = 1 ↔ l = 1 := by
  rw [toInt_of_lt l h]
  omega

theorem firstNotOneDistance_split (blens : List Nat) (hr : ∀ l ∈ blens, l < 2 ^ 31) :
    ∃ pre ones, blens = pre ++ ones ∧ firstNotOneDistance blens = pre.length ∧
      (∀ l ∈ ones, l = 1) ∧ (pre = [] ∨ ∃ pre1 z, pre = pre1 ++ [z] ∧ z ≠ 1) := by
  have happ := List.takeWhile_append_dropWhile (fun (l : Nat) => toInt (l : Int) == 1)
    blens.reverse
  refine ⟨(blens.reverse.dropWhile (fun (l : Nat) => toInt (l : Int) == 1)).reverse,
    (blens.reverse.takeWhile (fun (l : Nat) => toInt (l : Int) == 1)).reverse, ?_, ?_, ?_, ?_⟩
  · rw [← List.reverse_append, happ, List.reverse_reverse]
  · unfold firstNotOneDistance
    have hlen := congrArg List.length happ
    rw [List.length_append, List.length_reverse] at hlen
    rw [List.length_reverse]
    omega
  · intro l hl
    rw [List.mem_reverse] at hl
    have hp := List.mem_takeWhile_imp hl
    have hmem : l ∈ blens := List.mem_reverse.mp ((List.takeWhile_prefix _).subset hl)
    exact (toInt_eq_one_iff l (hr l hmem)).mp (by simpa using hp)
  · cases hd : blens.reverse.dropWhile (fun (l : Nat) => toInt (l : Int) == 1) with
    | nil => exact Or.inl rfl
    | cons z rest =>
      right
      refine ⟨rest.reverse, z, by simp, ?_⟩
      have hz := dropWhile_head_false _ _ z rest hd
      intro h1
      subst h1
      simp [toInt] at hz

theorem nonOnesProduct_ones (ones : List Nat) (h : ∀ l ∈ ones, l = 1) :
    nonOnesProduct ones = 1 := by
  induction ones with
  | nil => rfl
  | cons a as ih =>
    have ha := h a (List.mem_cons_self a as)
    subst ha
    have e : nonOnesProduct (1 :: as) = nonOnesProduct [1] * nonOnesProduct as :=
      nonOnesProduct_append [1] as
    rw [e, ih (fun l hl => h l (List.mem_cons_of_mem 1 hl))]
    rfl

theorem computeGrid_num_wg (blens clens : List Nat) (hr : ∀ l ∈ blens, l < 2 ^ 31)
    (hpos : ∀ l ∈ blens, 1 ≤ l) (hprod : nonOnesProduct blens < 2 ^ 31) :
    (computeGrid blens clens).num_wg = ((nonOnesProduct blens : Nat) : Int) := by
  obtain ⟨pre, ones, hsplit, hd, hones, hpre⟩ := firstNotOneDistance_split blens hr
  have hP : nonOnesProduct blens = nonOnesProduct pre := by
    rw [hsplit, nonOnesProduct_append, nonOnesProduct_ones ones hones, Nat.mul_one]
  unfold computeGrid CreateBitmapAndGrid
  dsimp only
  rw [hd]
  rcases hpre with hnil | ⟨pre1, z, hpz, hz⟩
  · subst hnil
    rw [hP]
    simp [CreateBitmapAndGrid.loop, nonOnesProduct]
  · have hzmem : z ∈ blens := by rw [hsplit, hpz]; simp
    have hz1 : 1 ≤ z := hpos z hzmem
    have hz31 : z < 2 ^ 31 := hr z hzmem
    have hlen : pre.length = pre1.length + 1 := by rw [hpz]; simp
    have hzat : elemAt blens (pre.length - 1) = z := by
      have hidx : pre.length - 1 = pre1.length := by omega
      have hget : (pre1 ++ [z] ++ ones)[pre1.length]? = some z := by
        rw [List.append_assoc, List.getElem?_append_right (le_refl _)]
        simp
      rw [hidx, hsplit, hpz]
      unfold elemAt
      rw [List.getD_eq_getElem?_getD, hget]
      rfl
    have htake : blens.take pre1.length = pre1 := by
      rw [hsplit, hpz, List.append_assoc]
      simp
    have hPz : nonOnesProduct pre = z * nonOnesProduct pre1 := by
      rw [hpz, nonOnesProduct_append, nonOnesProduct_singleton, if_pos hz, Nat.mul_comm]
    have hk : ((pre.length : Int) - 2 + 1).toNat = pre1.length := by omega
    have hle : pre1.length ≤ blens.length := by rw [hsplit, hpz]; simp
    rw [hzat, hk, if_pos (by omega), if_neg (by omega), toInt_of_lt z hz31]
    rw [CreateBitmapAndGrid_loop_num_wg blens clens hpos pre1.length _ z _ hle
      (by rw [htake, ← hPz, ← hP]; exact hprod)]
    rw [htake, hP, hPz]

theorem broadcast_of_index_form (blens clens : List Nat) (hlen : blens.length = clens.length)
    (h : ∀ (j : Nat) (bj cj : Nat), blens[j]? = some bj → clens[j]? = some cj →
      bj = 1 ∨ bj = cj) :
    List.Forall₂ (fun b c => b = 1 ∨ b = c) blens clens := by
  induction blens generalizing clens with
  | nil =>
    cases clens with
    | nil => exact List.Forall₂.nil
    | cons c cs => cases hlen
  | cons b bs ih =>
    cases clens with
    | nil => cases hlen
    | cons c cs =>
      refine List.Forall₂.cons (h 0 b c (by simp) (by simp)) (ih cs (by simpa using hlen) ?_)
      intro j bj cj hb hc
      exact h (j + 1) bj cj (by simpa using hb) (by simpa using hc)

theorem OpTensor_accepted_broadcast (T : TypeTable) (h : Handle) (x : OpTensorArgs)
    (hacc : (OpTensor T h x).1 = none) :
    List.Forall₂ (fun b c => b = 1 ∨ b = c) x.bTensorDesc.lens x.cTensorDesc.lens := by
  obtain ⟨hv, _⟩ := OpTensor_accepted T h x hacc
  have hlen : x.bTensorDesc.lens.length = x.cTensorDesc.lens.length := by
    by_contra hne
    apply hv
    unfold ValidationFailure
    exact Or.inr (Or.inr (Or.inr (Or.inr (Or.inl hne))))
  refine broadcast_of_index_form _ _ hlen ?_
  intro j bj cj hb hc
  by_contra hne
  apply hv
  unfold ValidationFailure
  exact Or.inr (Or.inr (Or.inr (Or.inr (Or.inr
    ⟨j, bj, cj, hb, hc, fun e => hne (Or.inl e), fun e => hne (Or.inr e)⟩))))

theorem GetElementSize_eq_prod (t : TensorDescriptor) : t.GetElementSize = t.lens.prod := by
  unfold TensorDescriptor.GetElementSize
  rw [List.prod_eq_foldl]

theorem le_prod_of_mem (cs : List Nat) (hpos : ∀ l ∈ cs, 1 ≤ l) :
    1 ≤ cs.prod ∧ ∀ l ∈ cs, l ≤ cs.prod := by
  induction cs with
  | nil => simp
  | cons c cs ih =>
    have hc := hpos c (List.mem_cons_self c cs)
    obtain ⟨h1, h2⟩ := ih (fun l hl => hpos l (List.mem_cons_of_mem c hl))
    rw [List.prod_cons]
    refine ⟨Nat.mul_pos hc h1, ?_⟩
    intro l hl
    rcases List.mem_cons.mp hl with rfl | hl
    · exact Nat.le_mul_of_pos_right _ h1
    · exact le_trans (h2 l hl) (Nat.le_mul_of_pos_left _ hc)

theorem broadcast_bounds (blens clens : List Nat)
    (hbc : List.Forall₂ (fun b c => b = 1 ∨ b = c) blens clens)
    (hpos : ∀ l ∈ clens, 1 ≤ l) :
    (∀ l ∈ blens, 1 ≤ l) ∧ (∀ l ∈ blens, l ≤ clens.prod) ∧
      nonOnesProduct blens ≤ clens.prod := by
  induction hbc with
  | nil => simp [nonOnesProduct]
  | @cons b c bs cs hhead _ ih =>
    have hc := hpos c (List.mem_cons_self c cs)
    have hcs : ∀ l ∈ cs, 1 ≤ l := fun l hl => hpos l (List.mem_cons_of_mem c hl)
    obtain ⟨h1, h2, h3⟩ := ih hcs
    obtain ⟨hp1, _⟩ := le_prod_of_mem cs hcs
    have e : nonOnesProduct (b :: bs) = nonOnesProduct [b] * nonOnesProduct bs :=
      nonOnesProduct_append [b] bs
    rw [List.prod_cons]
    refine ⟨?_, ?_, ?_⟩
    · intro l hl
      rcases List.mem_cons.mp hl with rfl | hl
      · rcases hhead with e1 | e1 <;> omega
      · exact h1 l hl
    · intro l hl
      rcases List.mem_cons.mp hl with rfl | hl
      · have : l ≤ c := by rcases hhead with e1 | e1 <;> omega
        exact le_trans this (Nat.le_mul_of_pos_right _ hp1)
      · exact le_trans (h2 l hl) (Nat.le_mul_of_pos_left _ hc)
    · rw [e, nonOnesProduct_singleton]
      have hb : (if b ≠ 1 then b else 1) ≤ c := by
        split_ifs <;> rcases hhead with e1 | e1 <;> omega
      exact Nat.mul_le_mul hb h3

theorem create_directories_dirs (fs fs' : FileSystem) (p : String)
    (h : create_directories fs p = .ok fs') :
    fs'.files = fs.files ∧
    ∀ d, fs'.is_directory d = true ↔
      (fs.is_directory d = true ∨ d ∈ directoryChain (p.length + 1) p) := by
  unfold create_directories at h
  split at h
  · cases h
  · dsimp only at h
    split at h
    · cases h
    · cases h
      refine ⟨rfl, fun d => ?_⟩
      simp only [is_directory_iff, List.mem_append, List.mem_filter, Bool.not_eq_true']
      constructor
      · rintro (⟨h1, _⟩ | h1)
        · exact Or.inr h1
        · exact Or.inl h1
      · rintro (h1 | h1)
        · exact Or.inr h1
        · by_cases hd : d ∈ fs.dirs
          · exact Or.inr hd
          · exact Or.inl ⟨h1, by simpa using hd⟩

/-- C15: with a cache directory configured, `ComputeUserCachePath` resolves the path `p`
that is exactly `ExpandUser(MIOPEN_CUSTOM_CACHE_DIR)` when that variable is non-empty (no
version component, no test for a networked file system), and otherwise
`ExpandUser(MIOPEN_CACHE_DIR) / "MAJOR.MINOR.PATCH.TWEAK"`, replaced by the temporary
directory when the build is not a development build and that path is on a networked file
system.  In both cases: if `p` exists or the user tier is disabled, `p` is returned and
the file system is untouched; if `p` does not exist and the user tier is enabled,
`create_directories(p)` runs, its failure is the failure of the call, and on success `p`
is returned with `p` and its ancestors being directories and no file changed. -/
theorem ComputeUserCachePath_resolution (B : BuildConfig) (H : Host) (fs : FileSystem)
    (cache_dir : String) (hcfg : B.MIOPEN_CACHE_DIR = some cache_dir) :
    ∃ p : String,
      (H.MIOPEN_CUSTOM_CACHE_DIR ≠ "" → p = H.ExpandUser H.MIOPEN_CUSTOM_CACHE_DIR) ∧
      (H.MIOPEN_CUSTOM_CACHE_DIR = "" →
        p = if B.MIOPEN_BUILD_DEV = false ∧
              H.IsNetworkedFilesystem (pathAppend (H.ExpandUser cache_dir)
                (toString B.MIOPEN_VERSION_MAJOR ++ "." ++ toString B.MIOPEN_VERSION_MINOR ++
                  "." ++ toString B.MIOPEN_VERSION_PATCH ++ "." ++ B.MIOPEN_VERSION_TWEAK)) =
                true
            then H.temp_directory_path
            else pathAppend (H.ExpandUser cache_dir)
              (toString B.MIOPEN_VERSION_MAJOR ++ "." ++ toString B.MIOPEN_VERSION_MINOR ++
                "." ++ toString B.MIOPEN_VERSION_PATCH ++ "." ++ B.MIOPEN_VERSION_TWEAK)) ∧
      (fs.pathExists p = true ∨ B.MIOPEN_DISABLE_USERDB = true →
        ComputeUserCachePath B H fs = .ok (p, fs)) ∧
      (fs.pathExists p = false ∧ B.MIOPEN_DISABLE_USERDB = false →
        (∀ e, create_directories fs p = .error e → ComputeUserCachePath B H fs = .error e) ∧
        (∀ fs', create_directories fs p = .ok fs' →
          ComputeUserCachePath B H fs = .ok (p, fs') ∧ fs'.files = fs.files ∧
          (∀ d ∈ directoryChain (p.length + 1) p, fs'.is_directory d = true) ∧
          (∀ d, fs'.is_directory d = true →
            fs.is_directory d = true ∨ d ∈ directoryChain (p.length + 1) p))) := by
  refine ⟨userCachePathName B H cache_dir, ?_, ?_, ?_, ?_⟩
  · intro hc
    unfold userCachePathName
    dsimp only
    rw [if_pos hc]
  · intro hc
    unfold userCachePathName
    dsimp only
    rw [if_neg (by simp [hc])]
    cases B.MIOPEN_BUILD_DEV <;>
      cases H.IsNetworkedFilesystem (pathAppend (H.ExpandUser cache_dir)
        (toString B.MIOPEN_VERSION_MAJOR ++ "." ++ toString B.MIOPEN_VERSION_MINOR ++
          "." ++ toString B.MIOPEN_VERSION_PATCH ++ "." ++ B.MIOPEN_VERSION_TWEAK)) <;> simp
  · intro hex
    unfold ComputeUserCachePath
    simp only [hcfg]
    rcases hex with hex | hex
    · simp [hex]
    · simp [hex]
  · rintro ⟨hex, hdis⟩
    unfold ComputeUserCachePath
    simp only [hcfg, hex, hdis]
    refine ⟨?_, ?_⟩
    · intro e he
      simp [he]
    · intro fs' he
      obtain ⟨hf, hd⟩ := create_directories_dirs fs fs' _ he
      refine ⟨by simp [he], hf, fun d hdc => (hd d).mpr (Or.inr hdc), fun d hdd => (hd d).mp hdd⟩

/-- Witness for C15: the sample build and host resolve `~/.cache/miopen` to
`/home/u/.cache/miopen/2.20.0.abc` and create it. -/
theorem ComputeUserCachePath_resolution_witness :
    ComputeUserCachePath sampleBuild sampleHost sampleProcess.fs =
      .ok ("/home/u/.cache/miopen/2.20.0.abc", sampleResolvedProcess.fs) ∧
    ∃ p : String,
      (sampleHost.MIOPEN_CUSTOM_CACHE_DIR ≠ "" →
        p = sampleHost.ExpandUser sampleHost.MIOPEN_CUSTOM_CACHE_DIR) ∧
      (sampleHost.MIOPEN_CUSTOM_CACHE_DIR = "" →
        p = if sampleBuild.MIOPEN_BUILD_DEV = false ∧
              sampleHost.IsNetworkedFilesystem (pathAppend
                (sampleHost.ExpandUser "~/.cache/miopen")
                (toString sampleBuild.MIOPEN_VERSION_MAJOR ++ "." ++
                  toString sampleBuild.MIOPEN_VERSION_MINOR ++
                  "." ++ toString sampleBuild.MIOPEN_VERSION_PATCH ++ "." ++
                  sampleBuild.MIOPEN_VERSION_TWEAK)) = true
            then sampleHost.temp_directory_path
            else pathAppend (sampleHost.ExpandUser "~/.cache/miopen")
              (toString sampleBuild.MIOPEN_VERSION_MAJOR ++ "." ++
                toString sampleBuild.MIOPEN_VERSION_MINOR ++
                "." ++ toString sampleBuild.MIOPEN_VERSION_PATCH ++ "." ++
                sampleBuild.MIOPEN_VERSION_TWEAK)) ∧
      (sampleProcess.fs.pathExists p = true ∨ sampleBuild.MIOPEN_DISABLE_USERDB = true →
        ComputeUserCachePath sampleBuild sampleHost sampleProcess.fs =
          .ok (p, sampleProcess.fs)) ∧
      (sampleProcess.fs.pathExists p = false ∧ sampleBuild.MIOPEN_DISABLE_USERDB = false →
        (∀ e, create_directories sampleProcess.fs p = .error e →
          ComputeUserCachePath sampleBuild sampleHost sampleProcess.fs = .error e) ∧
        (∀ fs', create_directories sampleProcess.fs p = .ok fs' →
          ComputeUserCachePath sampleBuild sampleHost sampleProcess.fs = .ok (p, fs') ∧
          fs'.files = sampleProcess.fs.files ∧
          (∀ d ∈ directoryChain (p.length + 1) p, fs'.is_directory d = true) ∧
          (∀ d, fs'.is_directory d = true →
            sampleProcess.fs.is_directory d = true ∨
              d ∈ directoryChain (p.length + 1) p))) :=
  ⟨rfl, ComputeUserCachePath_resolution sampleBuild sampleHost sampleProcess.fs
    "~/.cache/miopen" rfl⟩

/-- C16: on its first call `GetCachePath(is_system)` fails only if `ComputeUserCachePath`
does; otherwise it returns the empty path when the requested tier is disabled, for the
enabled system tier `ExpandUser(GetSystemDbPath())` if that path exists and the empty path
if not, and for the enabled user tier the path `ComputeUserCachePath` resolved.  The file
system it leaves is the one `ComputeUserCachePath` left: resolving the system path creates
nothing.  Every later call, for either tier, changes nothing, and repeats the answer. -/
theorem GetCachePath_tiers (B : BuildConfig) (H : Host) (is_system : Bool) (s : Process)
    (hfresh : s.cache_paths = none) :
    (∀ e, ComputeUserCachePath B H s.fs = .error e →
      GetCachePath B H is_system s = .error e) ∧
    (∀ user_path fs', ComputeUserCachePath B H s.fs = .ok (user_path, fs') →
      ∃ r s1, GetCachePath B H is_system s = .ok (r, s1) ∧ s1.fs = fs' ∧
        (is_system = true → B.MIOPEN_DISABLE_SYSDB = true → r = "") ∧
        (is_system = false → B.MIOPEN_DISABLE_USERDB = true → r = "") ∧
        (is_system = true → B.MIOPEN_DISABLE_SYSDB = false →
          r = if fs'.pathExists (H.ExpandUser H.GetSystemDbPath) = true
            then H.ExpandUser H.GetSystemDbPath else "") ∧
        (is_system = false → B.MIOPEN_DISABLE_USERDB = false → r = user_path) ∧
        GetCachePath B H is_system s1 = .ok (r, s1) ∧
        ∀ b, ∃ r2, GetCachePath B H b s1 = .ok (r2, s1)) := by
  constructor
  · intro e he
    unfold GetCachePath
    simp only [hfresh, he]
  · intro user_path fs' hu
    have hsys : ComputeSysCachePath H fs' =
        if fs'.pathExists (H.ExpandUser H.GetSystemDbPath) = true
          then H.ExpandUser H.GetSystemDbPath else "" := by
      unfold ComputeSysCachePath
      dsimp only
      cases fs'.pathExists (H.ExpandUser H.GetSystemDbPath) <;> simp
    have hmemo : ∀ b, GetCachePath B H b
        { fs := fs', cache_paths := some (user_path, ComputeSysCachePath H fs') } =
        .ok (cachePathOf B b user_path (ComputeSysCachePath H fs'),
          { fs := fs', cache_paths := some (user_path, ComputeSysCachePath H fs') }) :=
      fun b => GetCachePath_initialised B H b _ _ _ rfl
    refine ⟨cachePathOf B is_system user_path (ComputeSysCachePath H fs'),
      { fs := fs', cache_paths := some (user_path, ComputeSysCachePath H fs') },
      ?_, rfl, ?_, ?_, ?_, ?_, hmemo is_system, fun b => ⟨_, hmemo b⟩⟩
    · unfold GetCachePath cachePathOf
      simp only [hfresh, hu]
      cases is_system <;> cases B.MIOPEN_DISABLE_SYSDB <;>
        cases B.MIOPEN_DISABLE_USERDB <;> rfl
    · intro h1 h2
      simp [cachePathOf, h1, h2]
    · intro h1 h2
      simp [cachePathOf, h1, h2]
    · intro h1 h2
      rw [← hsys]
      simp [cachePathOf, h1, h2]
    · intro h1 h2
      simp [cachePathOf, h1, h2]

/-- Witness for C16: the first call for the system tier on the sample process, where no
system database directory exists. -/
theorem GetCachePath_tiers_witness :
    GetCachePath sampleBuild sampleHost true sampleProcess = .ok ("", sampleResolvedProcess) ∧
    ((∀ e, ComputeUserCachePath sampleBuild sampleHost sampleProcess.fs = .error e →
      GetCachePath sampleBuild sampleHost true sampleProcess = .error e) ∧
    (∀ user_path fs',
      ComputeUserCachePath sampleBuild sampleHost sampleProcess.fs = .ok (user_path, fs') →
      ∃ r s1, GetCachePath sampleBuild sampleHost true sampleProcess = .ok (r, s1) ∧
        s1.fs = fs' ∧
        (true = true → sampleBuild.MIOPEN_DISABLE_SYSDB = true → r = "") ∧
        (true = false → sampleBuild.MIOPEN_DISABLE_USERDB = true → r = "") ∧
        (true = true → sampleBuild.MIOPEN_DISABLE_SYSDB = false →
          r = if fs'.pathExists (sampleHost.ExpandUser sampleHost.GetSystemDbPath) = true
            then sampleHost.ExpandUser sampleHost.GetSystemDbPath else "") ∧
        (true = false → sampleBuild.MIOPEN_DISABLE_USERDB = false → r = user_path) ∧
        GetCachePath sampleBuild sampleHost true s1 = .ok (r, s1) ∧
        ∀ b, ∃ r2, GetCachePath sampleBuild sampleHost b s1 = .ok (r2, s1))) :=
  ⟨rfl, GetCachePath_tiers sampleBuild sampleHost true sampleProcess rfl⟩

theorem lookup_filter_remove (files : List (String × List UInt8)) (p : String) :
    (files.filter (fun e => e.1 != p)).lookup p = none ∧
    ∀ q, q ≠ p → (files.filter (fun e => e.1 != p)).lookup q = files.lookup q := by
  induction files with
  | nil => exact ⟨rfl, fun _ _ => rfl⟩
  | cons e es ih =>
    obtain ⟨k, v⟩ := e
    by_cases hk : k = p
    · have hb : ((k, v).1 != p) = false := by simp [hk]
      simp only [List.filter_cons, hb, Bool.false_eq_true, if_false]
      refine ⟨ih.1, fun q hq => ?_⟩
      have hqk : (q == k) = false := beq_eq_false_iff_ne.mpr (fun h => hq (h.trans hk))
      rw [List.lookup_cons, hqk]
      exact ih.2 q hq
    · have hb : ((k, v).1 != p) = true := by simp [hk]
      simp only [List.filter_cons, hb, if_true]
      constructor
      · have hpk : (p == k) = false := beq_eq_false_iff_ne.mpr (fun h => hk h.symm)
        rw [List.lookup_cons, hpk]
        exact ih.1
      · intro q hq
        rw [List.lookup_cons, List.lookup_cons, ih.2 q hq]

/-- C17: `IsCacheDisabled()` is true exactly when no cache directory is configured, or
both tiers are disabled, or `MIOPEN_DISABLE_CACHE` is enabled.  Whenever it is true,
`SaveBinary` on an artifact file at `binary_path` completes without error, leaves no file
at `binary_path`, leaves every other file, the set of directories and the resolved cache
paths as they were, and `LoadBinary` (before or after the save) returns the empty path
and changes nothing. -/
theorem SaveBinary_cache_disabled (B : BuildConfig) (H : Host) (binary_path : String)
    (target : TargetProperties) (num_cu : Nat) (name args : String) (s : Process)
    (bytes : List UInt8)
    (hdisabled : IsCacheDisabled B H = true)
    (hfile : s.fs.read binary_path = some bytes) :
    (B.MIOPEN_CACHE_DIR = none ∨
      (B.MIOPEN_DISABLE_USERDB = true ∧ B.MIOPEN_DISABLE_SYSDB = true) ∨
      H.MIOPEN_DISABLE_CACHE = true) ∧
    LoadBinary B H target num_cu name args s = .ok ("", s) ∧
    ∃ s', SaveBinary B H binary_path target name args s = .ok s' ∧
      s'.fs.read binary_path = none ∧
      (∀ q, q ≠ binary_path → s'.fs.read q = s.fs.read q) ∧
      s'.fs.dirs = s.fs.dirs ∧
      s'.cache_paths = s.cache_paths ∧
      LoadBinary B H target num_cu name args s' = .ok ("", s') := by
  refine ⟨?_, ?_, ?_⟩
  · unfold IsCacheDisabled at hdisabled
    cases hc : B.MIOPEN_CACHE_DIR with
    | none => exact Or.inl rfl
    | some c =>
      rw [hc] at hdisabled
      dsimp only at hdisabled
      cases hu : B.MIOPEN_DISABLE_USERDB <;> cases hs : B.MIOPEN_DISABLE_SYSDB <;>
        simp [hu, hs] at hdisabled ⊢ <;> exact hdisabled
  · unfold LoadBinary
    rw [if_pos hdisabled]
  · have hl := lookup_filter_remove s.fs.files binary_path
    refine ⟨{ s with fs := { s.fs with
        files := s.fs.files.filter (fun e => e.1 != binary_path) } }, ?_, hl.1, hl.2,
      rfl, rfl, ?_⟩
    · unfold SaveBinary remove
      rw [if_pos hdisabled]
      simp [hfile]
    · unfold LoadBinary
      rw [if_pos hdisabled]

/-- Witness for C17: the sample host with `MIOPEN_DISABLE_CACHE` enabled discards the
sample artifact. -/
theorem SaveBinary_cache_disabled_witness :
    IsCacheDisabled sampleBuild { sampleHost with MIOPEN_DISABLE_CACHE := true } = true ∧
    sampleProcess.fs.read "/tmp/kernel.tmp" = some [0x7f, 0x45, 0x4c] ∧
    ((sampleBuild.MIOPEN_CACHE_DIR = none ∨
      (sampleBuild.MIOPEN_DISABLE_USERDB = true ∧ sampleBuild.MIOPEN_DISABLE_SYSDB = true) ∨
      ({ sampleHost with MIOPEN_DISABLE_CACHE := true } : Host).MIOPEN_DISABLE_CACHE = true) ∧
    LoadBinary sampleBuild { sampleHost with MIOPEN_DISABLE_CACHE := true } ⟨"gfx90a"⟩ 104
      "conv" "-O3" sampleProcess = .ok ("", sampleProcess) ∧
    ∃ s', SaveBinary sampleBuild { sampleHost with MIOPEN_DISABLE_CACHE := true }
        "/tmp/kernel.tmp" ⟨"gfx90a"⟩ "conv" "-O3" sampleProcess = .ok s' ∧
      s'.fs.read "/tmp/kernel.tmp" = none ∧
      (∀ q, q ≠ "/tmp/kernel.tmp" → s'.fs.read q = sampleProcess.fs.read q) ∧
      s'.fs.dirs = sampleProcess.fs.dirs ∧
      s'.cache_paths = sampleProcess.cache_paths ∧
      LoadBinary sampleBuild { sampleHost with MIOPEN_DISABLE_CACHE := true } ⟨"gfx90a"⟩ 104
        "conv" "-O3" s' = .ok ("", s')) :=
  ⟨rfl, rfl,
    SaveBinary_cache_disabled sampleBuild { sampleHost with MIOPEN_DISABLE_CACHE := true }
      "/tmp/kernel.tmp" ⟨"gfx90a"⟩ 104 "conv" "-O3" sampleProcess [0x7f, 0x45, 0x4c] rfl rfl⟩

/-- C18 fails on the code: in a build with only the user tier disabled
(`MIOPEN_DISABLE_USERDB` on, `MIOPEN_DISABLE_SYSDB` off, `MIOPEN_DISABLE_CACHE` unset)
`GetCachePath(false)` returns the empty path, yet `IsCacheDisabled()` is false, so
`SaveBinary` moves the artifact to the relative path `d10/conv.o` (the digest directory
under the current directory), and `LoadBinary` then returns that path. -/
theorem SaveBinary_with_empty_user_path :
    (∃ s1, GetCachePath sampleBuildNoUserDb sampleHost false sampleProcess = .ok ("", s1)) ∧
    IsCacheDisabled sampleBuildNoUserDb sampleHost = false ∧
    ∃ s', SaveBinary sampleBuildNoUserDb sampleHost "/tmp/kernel.tmp" ⟨"gfx90a"⟩ "conv" "-O3"
        sampleProcess = .ok s' ∧
      s'.fs.read "d10/conv.o" = some [0x7f, 0x45, 0x4c] ∧
      s'.fs.is_directory "d10" = true ∧
      LoadBinary sampleBuildNoUserDb sampleHost ⟨"gfx90a"⟩ 104 "conv" "-O3" s' =
        .ok ("d10/conv.o", s') :=
  ⟨⟨_, rfl⟩, rfl, _, rfl, rfl, rfl, rfl⟩

theorem GetDb_paths_eq (K : KernDbConfig) (fs : FileSystem) (userDir sysDir : String)
    (target : TargetProperties) (num_cu : Nat) :
    GetDb.paths K fs userDir sysDir target num_cu =
      selectedDbFiles K fs userDir sysDir target num_cu := by
  unfold GetDb.paths selectedDbFiles
  dsimp only
  by_cases hu : userDir = ""
  · subst hu
    cases h1 : fs.pathExists (pathAppend sysDir (K.GetDbBasename target num_cu ++ ".kdb")) <;>
      cases h2 : fs.pathExists (pathAppend sysDir (target.DbId ++ ".kdb")) <;>
      cases h3 : K.MIOPEN_EMBED_DB <;> simp [h1, h2]
  · cases h1 : fs.pathExists (pathAppend sysDir (K.GetDbBasename target num_cu ++ ".kdb")) <;>
      cases h2 : fs.pathExists (pathAppend sysDir (target.DbId ++ ".kdb")) <;>
      cases h3 : K.MIOPEN_EMBED_DB <;> simp [h1, h2, hu]

/-- C19: `GetDb` opens the pair of files the claim describes.  With `userDir` and `sysDir`
the values of its statics (on the first call: what `ComputeUserCachePath` and
`ComputeSysCachePath` return; later: the remembered values), the user file is
`userDir / (GetDbBasename(target, num_cu) + ".ukdb")`, or empty when `userDir` is empty;
the system file is `sysDir / (GetDbBasename(target, num_cu) + ".kdb")` if that file
exists, otherwise `sysDir / (target.DbId() + ".kdb")`, and in a non-embedded build it is
empty when that second file does not exist either.  The call fails only when the
directory creation of the first call does. -/
theorem GetDb_file_selection (B : BuildConfig) (H : Host) (K : KernDbConfig)
    (target : TargetProperties) (num_cu : Nat) (s : DbProcess) :
    (∀ userDir sysDir, s.db_dirs = some (userDir, sysDir) →
      GetDb B H K target num_cu s =
        .ok (selectedDbFiles K s.fs userDir sysDir target num_cu, s)) ∧
    (s.db_dirs = none → ∀ userDir fs', ComputeUserCachePath B H s.fs = .ok (userDir, fs') →
      GetDb B H K target num_cu s =
        .ok (selectedDbFiles K fs' userDir (ComputeSysCachePath H fs') target num_cu,
          { fs := fs', db_dirs := some (userDir, ComputeSysCachePath H fs') })) ∧
    (s.db_dirs = none → ∀ e, ComputeUserCachePath B H s.fs = .error e →
      GetDb B H K target num_cu s = .error e) := by
  refine ⟨?_, ?_, ?_⟩
  · intro userDir sysDir hd
    unfold GetDb
    simp only [hd]
    rw [GetDb_paths_eq]
  · intro hd userDir fs' hu
    unfold GetDb
    simp only [hd, hu]
    rw [GetDb_paths_eq]
  · intro hd e hu
    unfold GetDb
    simp only [hd, hu]

/-- Witness for C19: with only the per-device system database installed, `GetDb` for
`gfx90a` with 104 compute units opens `gfx90a.kdb` and the user file `gfx90a_104.ukdb`. -/
theorem GetDb_file_selection_witness :
    GetDb sampleBuild sampleHost sampleKernDb ⟨"gfx90a"⟩ 104 sampleDbProcess =
      .ok (("/opt/rocm/share/miopen/db/gfx90a.kdb",
        "/home/u/.cache/miopen/2.20.0.abc/gfx90a_104.ukdb"), sampleDbProcess) :=
  (GetDb_file_selection sampleBuild sampleHost sampleKernDb ⟨"gfx90a"⟩ 104 sampleDbProcess).1
    "/home/u/.cache/miopen/2.20.0.abc" "/opt/rocm/share/miopen/db" rfl

/-! ## Theorems: the broadcast bitmap in closed form -/

theorem broadcastBits_pattern (blens : List Nat) :
    broadcastBits blens = patternBits (pattern blens) := by
  unfold broadcastBits patternBits pattern
  rw [List.length_map]
  congr 1
  apply List.map_congr_left
  intro i _
  have h : (List.map (fun l => l != 1) blens).getD i false = (blens.getD i 1 != 1) := by
    rw [List.getD_eq_getElem?_getD, List.getD_eq_getElem?_getD, List.getElem?_map]
    cases blens[i]? <;> simp
  rw [h]
  by_cases h1 : blens.getD i 1 = 1
  · simp [h1]
  · simp [h1]

theorem pattern1_bits : ∀ p0 : Bool, p0 = true →
    patternBitmap [p0] = patternBits [p0] := by decide

theorem pattern2_bits : ∀ p0 p1 : Bool, (p0 || p1) = true →
    patternBitmap [p0, p1] = patternBits [p0, p1] := by decide

theorem pattern3_bits : ∀ p0 p1 p2 : Bool, (p0 || p1 || p2) = true →
    patternBitmap [p0, p1, p2] = patternBits [p0, p1, p2] := by decide

theorem pattern4_bits : ∀ p0 p1 p2 p3 : Bool, (p0 || p1 || p2 || p3) = true →
    patternBitmap [p0, p1, p2, p3] = patternBits [p0, p1, p2, p3] := by decide

theorem pattern5_bits : ∀ p0 p1 p2 p3 p4 : Bool, (p0 || p1 || p2 || p3 || p4) = true →
    patternBitmap [p0, p1, p2, p3, p4] = patternBits [p0, p1, p2, p3, p4] := by decide

theorem pattern_any (blens : List Nat) (h : ∃ l ∈ blens, l ≠ 1) :
    (pattern blens).any id = true := by
  obtain ⟨l, hl, h1⟩ := h
  rw [List.any_eq_true]
  exact ⟨l != 1, List.mem_map.mpr ⟨l, hl, rfl⟩, by simpa using h1⟩

theorem patternBitmap_bits (pat : List Bool) (hlo : 1 ≤ pat.length) (hhi : pat.length ≤ 5)
    (hany : pat.any id = true) : patternBitmap pat = patternBits pat := by
  match pat, hlo, hhi with
  | [p0], _, _ => exact pattern1_bits p0 (by simpa using hany)
  | [p0, p1], _, _ => exact pattern2_bits p0 p1 (by simpa using hany)
  | [p0, p1, p2], _, _ => exact pattern3_bits p0 p1 p2 (by simpa [Bool.or_assoc] using hany)
  | [p0, p1, p2, p3], _, _ =>
    exact pattern4_bits p0 p1 p2 p3 (by simpa [Bool.or_assoc] using hany)
  | [p0, p1, p2, p3, p4], _, _ =>
    exact pattern5_bits p0 p1 p2 p3 p4 (by simpa [Bool.or_assoc] using hany)

/-- C22 fails on the code: the predicate `[](int i) { return i != 1; }` reads the `size_t`
length 4294967297 as the `int` 1.  For the accepted 4-D call with B = [1, 4294967297, 1, 1]
it finds no length other than 1, so `d = 0` and the bitmap is `1 << 4 = 16`, where the
convention gives `2^(4-1-1) = 4`; for the accepted 1-D call with B = [4294967297] the
bitmap is 2, where the convention gives 1. -/
theorem bitmap_of_truncated_length :
    (OpTensor sampleTypes emptyHandle
      (sampleCall [1, 4294967297, 1, 1] [2, 4294967297, 1, 1])).1 = none ∧
    broadcastBits [1, 4294967297, 1, 1] = 4 ∧
    (computeGrid [1, 4294967297, 1, 1] [2, 4294967297, 1, 1]).d = 0 ∧
    (computeGrid [1, 4294967297, 1, 1] [2, 4294967297, 1, 1]).bitmap = 16 ∧
    (OpTensor4d.locals sampleTypes
      (sampleCall [1, 4294967297, 1, 1] [2, 4294967297, 1, 1])).bitmap = 16 ∧
    (OpTensor sampleTypes emptyHandle (sampleCall [4294967297] [4294967297])).1 = none ∧
    broadcastBits [4294967297] = 1 ∧
    (OpTensorOther.locals sampleTypes (sampleCall [4294967297] [4294967297])).bitmap = 2 :=
  ⟨by decide, by decide, by decide, by decide, by decide, by decide, by decide, by decide⟩

/-- Within the range of `int` the bitmap convention of C22 holds: for an accepted
`OpTensor` call of rank `n` from 1 to 5 whose B has a length other than 1, all lengths of
B being below `2^31`, the bitmap computed by
the opening statements shared by `OpTensor3d`, `OpTensor4d` and `OpTensorOther` is the sum
of `2 ^ (n - 1 - i)` over the dimensions `i` with `B[i] ≠ 1`; it is the bitmap each of the
three planner functions works with. -/
theorem bitmap_convention (T : TypeTable) (h : Handle) (x : OpTensorArgs)
    (hacc : (OpTensor T h x).1 = none)
    (hlo : 1 ≤ x.cTensorDesc.lens.length) (hhi : x.cTensorDesc.lens.length ≤ 5)
    (hrange : ∀ l ∈ x.bTensorDesc.lens, l < 2 ^ 31)
    (hsome : ∃ l ∈ x.bTensorDesc.lens, l ≠ 1) :
    (computeGrid x.bTensorDesc.lens x.cTensorDesc.lens).bitmap =
      broadcastBits x.bTensorDesc.lens ∧
    (OpTensor3d.locals T x).bitmap = broadcastBits x.bTensorDesc.lens ∧
    (OpTensor4d.locals T x).bitmap = broadcastBits x.bTensorDesc.lens ∧
    (OpTensorOther.locals T x).bitmap = broadcastBits x.bTensorDesc.lens := by
  have hlen : x.bTensorDesc.lens.length = x.cTensorDesc.lens.length :=
    (OpTensor_accepted_broadcast T h x hacc).length_eq
  have hplen : (pattern x.bTensorDesc.lens).length = x.bTensorDesc.lens.length := by
    simp [pattern]
  have key : (computeGrid x.bTensorDesc.lens x.cTensorDesc.lens).bitmap =
      broadcastBits x.bTensorDesc.lens := by
    rw [(computeGrid_pattern _ _ hrange).2, broadcastBits_pattern]
    exact patternBitmap_bits _ (by omega) (by omega) (pattern_any _ hsome)
  exact ⟨key, key, key, key⟩

/-- The call C = [8,16,32,32], B = [1,16,1,1] has the bitmap `0b0100`. -/
theorem bitmap_convention_witness :
    broadcastBits sampleBiasCall.bTensorDesc.lens = 4 ∧
    ((computeGrid sampleBiasCall.bTensorDesc.lens sampleBiasCall.cTensorDesc.lens).bitmap =
      broadcastBits sampleBiasCall.bTensorDesc.lens ∧
    (OpTensor3d.locals sampleTypes sampleBiasCall).bitmap =
      broadcastBits sampleBiasCall.bTensorDesc.lens ∧
    (OpTensor4d.locals sampleTypes sampleBiasCall).bitmap =
      broadcastBits sampleBiasCall.bTensorDesc.lens ∧
    (OpTensorOther.locals sampleTypes sampleBiasCall).bitmap =
      broadcastBits sampleBiasCall.bTensorDesc.lens) :=
  ⟨by decide, bitmap_convention sampleTypes emptyHandle sampleBiasCall (by decide) (by decide)
    (by decide) (by decide) ⟨16, by decide, by decide⟩⟩

/-- C25 fails on the code: when every length of B is 1 the distance `d` is 0 and the
statement `bitmap |= (1 << (bsize - d))` sets bit `n`, so the bitmap is `2 ^ n`: 16 for
the accepted 4-D call C = [2,3,4,5], B = [1,1,1,1], and likewise 2, 4, 8, 32 for the
ranks 1, 2, 3, 5. -/
theorem bitmap_of_scalar_B :
    (OpTensor sampleTypes emptyHandle (sampleCall [1, 1, 1, 1] [2, 3, 4, 5])).1 = none ∧
    (OpTensor4d.locals sampleTypes (sampleCall [1, 1, 1, 1] [2, 3, 4, 5])).bitmap = 2 ^ 4 ∧
    (OpTensor sampleTypes emptyHandle (sampleCall [1] [7])).1 = none ∧
    (OpTensorOther.locals sampleTypes (sampleCall [1] [7])).bitmap = 2 ^ 1 ∧
    (OpTensor sampleTypes emptyHandle (sampleCall [1, 1] [2, 3])).1 = none ∧
    (OpTensorOther.locals sampleTypes (sampleCall [1, 1] [2, 3])).bitmap = 2 ^ 2 ∧
    (OpTensor sampleTypes emptyHandle (sampleCall [1, 1, 1] [2, 3, 4])).1 = none ∧
    (OpTensor3d.locals sampleTypes (sampleCall [1, 1, 1] [2, 3, 4])).bitmap = 2 ^ 3 ∧
    (OpTensor sampleTypes emptyHandle (sampleCall [1, 1, 1, 1, 1] [2, 3, 4, 5, 6])).1 = none ∧
    (OpTensorOther.locals sampleTypes
      (sampleCall [1, 1, 1, 1, 1] [2, 3, 4, 5, 6])).bitmap = 2 ^ 5 :=
  ⟨by decide, by decide, by decide, by decide, by decide, by decide, by decide, by decide,
    by decide, by decide⟩

/-! ## Theorems: the work split and the forward-bias rebalancing -/

theorem foldl_work (rest : List Nat) (hpos : ∀ l ∈ rest, 1 ≤ l) :
    ∀ acc : Nat, 1 ≤ acc → acc * rest.prod < 2 ^ 31 →
      rest.foldl (fun (a : Int) (l : Nat) => toInt (a * toInt (l : Int))) (acc : Int) =
        ((acc * rest.prod : Nat) : Int) := by
  induction rest with
  | nil => intro acc _ _; simp
  | cons l ls ih =>
    intro acc hacc hlt
    have hl : 1 ≤ l := hpos l (List.mem_cons_self l ls)
    have hls : ∀ m ∈ ls, 1 ≤ m := fun m hm => hpos m (List.mem_cons_of_mem l hm)
    have hp : 1 ≤ ls.prod := (le_prod_of_mem ls hls).1
    rw [List.prod_cons] at hlt
    have e : acc * (l * ls.prod) = acc * l * ls.prod := by ring
    rw [e] at hlt
    have h1 : acc * l ≤ acc * l * ls.prod := Nat.le_mul_of_pos_right _ hp
    have h2 : l ≤ acc * l := Nat.le_mul_of_pos_left _ hacc
    rw [List.foldl_cons, toInt_of_lt l (by omega)]
    have h3 : ((acc : Int) * (l : Int)) = ((acc * l : Nat) : Int) := by push_cast; ring
    rw [h3, toInt_of_lt (acc * l) (by omega), ih hls (acc * l) (Nat.mul_pos hacc hl) hlt,
      List.prod_cons, e]

theorem broadcastWork_pos (bs cs : List Nat) (hpos : ∀ l ∈ cs, 1 ≤ l) :
    1 ≤ broadcastWork bs cs := by
  induction bs generalizing cs with
  | nil => simp [broadcastWork]
  | cons b bs ih =>
    cases cs with
    | nil => simp [broadcastWork]
    | cons c cs =>
      have hc := hpos c (List.mem_cons_self c cs)
      have := ih cs (fun l hl => hpos l (List.mem_cons_of_mem c hl))
      unfold broadcastWork at this ⊢
      rw [List.zipWith_cons_cons, List.prod_cons]
      split_ifs
      · exact Nat.mul_pos hc this
      · simpa using this

theorem broadcastWork_append (b1 b2 c1 c2 : List Nat) (h : b1.length = c1.length) :
    broadcastWork (b1 ++ b2) (c1 ++ c2) = broadcastWork b1 c1 * broadcastWork b2 c2 := by
  unfold broadcastWork
  rw [List.zipWith_append _ _ _ _ _ h, List.prod_append]

theorem broadcastWork_ones (ones cs : List Nat) (h : ∀ l ∈ ones, l = 1)
    (hlen : ones.length = cs.length) : broadcastWork ones cs = cs.prod := by
  induction ones generalizing cs with
  | nil =>
    cases cs with
    | nil => rfl
    | cons c cs => cases hlen
  | cons a as ih =>
    cases cs with
    | nil => cases hlen
    | cons c cs =>
      have ha := h a (List.mem_cons_self a as)
      have := ih cs (fun l hl => h l (List.mem_cons_of_mem a hl)) (by simpa using hlen)
      unfold broadcastWork at this ⊢
      rw [List.zipWith_cons_cons, List.prod_cons, List.prod_cons, if_pos ha, this]

theorem CreateBitmapAndGrid_loop_work (a_lens c_lens : List Nat)
    (hpos : ∀ l ∈ c_lens, 1 ≤ l) :
    ∀ (k : Nat) (bitmap : Nat) (n : Int) (w : Nat), k ≤ a_lens.length → k ≤ c_lens.length →
      1 ≤ w → w * broadcastWork (a_lens.take k) (c_lens.take k) < 2 ^ 31 →
      (CreateBitmapAndGrid.loop a_lens c_lens k (bitmap, n, (w : Int))).2.2 =
        ((w * broadcastWork (a_lens.take k) (c_lens.take k) : Nat) : Int) := by
  intro k
  induction k with
  | zero =>
    intro bitmap n w _ _ _ _
    simp [CreateBitmapAndGrid.loop, broadcastWork]
  | succ i ih =>
    intro bitmap n w hka hkc hw hlt
    have hia : i < a_lens.length := by omega
    have hic : i < c_lens.length := by omega
    have hgeta : elemAt a_lens i = a_lens[i] := by
      simp [elemAt, List.getD_eq_getElem?_getD, List.getElem?_eq_getElem hia]
    have hgetc : elemAt c_lens i = c_lens[i] := by
      simp [elemAt, List.getD_eq_getElem?_getD, List.getElem?_eq_getElem hic]
    have htakea : a_lens.take (i + 1) = a_lens.take i ++ [a_lens[i]] := by
      rw [List.take_succ, List.getElem?_eq_getElem hia]
      rfl
    have htakec : c_lens.take (i + 1) = c_lens.take i ++ [c_lens[i]] := by
      rw [List.take_succ, List.getElem?_eq_getElem hic]
      rfl
    have hW : 1 ≤ broadcastWork (a_lens.take i) (c_lens.take i) :=
      broadcastWork_pos _ _ (fun l hl => hpos l (List.mem_of_mem_take hl))
    have hc : 1 ≤ c_lens[i] := hpos _ (List.getElem_mem hic)
    have hsingle : broadcastWork [a_lens[i]] [c_lens[i]] =
        if a_lens[i] = 1 then c_lens[i] else 1 := by
      simp [broadcastWork]
    have hlens : (a_lens.take i).length = (c_lens.take i).length := by
      rw [List.length_take, List.length_take]
      omega
    rw [htakea, htakec, broadcastWork_append _ _ _ _ hlens, hsingle] at hlt ⊢
    unfold CreateBitmapAndGrid.loop
    rw [hgeta, hgetc]
    by_cases h1 : a_lens[i] = 1
    · rw [if_neg (by simpa using h1)]
      rw [if_pos h1] at hlt ⊢
      have e : w * (broadcastWork (a_lens.take i) (c_lens.take i) * c_lens[i]) =
          w * c_lens[i] * broadcastWork (a_lens.take i) (c_lens.take i) := by ring
      rw [e] at hlt ⊢
      have hle : w * c_lens[i] ≤ w * c_lens[i] * broadcastWork (a_lens.take i) (c_lens.take i) :=
        Nat.le_mul_of_pos_right _ hW
      have hn : w ≤ w * c_lens[i] := Nat.le_mul_of_pos_right _ hc
      rw [mulAssign_of_lt w c_lens[i] (by omega) (by omega)]
      exact ih _ _ _ (by omega) (by omega) (Nat.mul_pos hw hc) hlt
    · rw [if_pos h1]
      rw [if_neg h1, Nat.mul_one] at hlt ⊢
      exact ih _ _ _ (by omega) (by omega) hw hlt

theorem foldl_work_one (rest : List Nat) (hpos : ∀ l ∈ rest, 1 ≤ l)
    (hlt : rest.prod < 2 ^ 31) :
    rest.foldl (fun (a : Int) (l : Nat) => toInt (a * toInt (l : Int))) 1 =
      ((rest.prod : Nat) : Int) := by
  have := foldl_work rest hpos 1 (le_refl 1) (by rw [Nat.one_mul]; exact hlt)
  rw [Nat.one_mul] at this
  exact this

theorem broadcastWork_le (bs cs : List Nat) (hpos : ∀ l ∈ cs, 1 ≤ l) :
    broadcastWork bs cs ≤ cs.prod := by
  induction bs generalizing cs with
  | nil => simpa [broadcastWork] using (le_prod_of_mem cs hpos).1
  | cons b bs ih =>
    cases cs with
    | nil => simp [broadcastWork]
    | cons c cs =>
      have hc := hpos c (List.mem_cons_self c cs)
      have := ih cs (fun l hl => hpos l (List.mem_cons_of_mem c hl))
      unfold broadcastWork at this ⊢
      rw [List.zipWith_cons_cons, List.prod_cons, List.prod_cons]
      split_ifs
      · exact Nat.mul_le_mul_left _ this
      · exact Nat.mul_le_mul hc this

theorem computeGrid_work_per_wg (blens clens : List Nat) (hlen : blens.length = clens.length)
    (hr : ∀ l ∈ blens, l < 2 ^ 31) (hpos : ∀ l ∈ clens, 1 ≤ l)
    (hprod : clens.prod < 2 ^ 31) :
    (computeGrid blens clens).work_per_wg = ((broadcastWork blens clens : Nat) : Int) := by
  obtain ⟨pre, ones, hsplit, hd, hones, hpre⟩ := firstNotOneDistance_split blens hr
  have hdle : pre.length ≤ clens.length := by
    rw [← hlen, hsplit, List.length_append]
    omega
  have hdrop_pos : ∀ l ∈ clens.drop pre.length, 1 ≤ l :=
    fun l hl => hpos l (List.mem_of_mem_drop hl)
  have htake_len : pre.length = (clens.take pre.length).length := by
    rw [List.length_take]
    omega
  have hones_len : ones.length = (clens.drop pre.length).length := by
    rw [List.length_drop, ← hlen, hsplit, List.length_append]
    omega
  have hW : broadcastWork blens clens =
      broadcastWork pre (clens.take pre.length) * (clens.drop pre.length).prod := by
    conv_lhs => rw [hsplit, ← List.take_append_drop pre.length clens]
    rw [broadcastWork_append _ _ _ _ htake_len, broadcastWork_ones ones _ hones hones_len]
  have hWle := broadcastWork_le blens clens hpos
  have hpre_pos : 1 ≤ broadcastWork pre (clens.take pre.length) :=
    broadcastWork_pos _ _ (fun l hl => hpos l (List.mem_of_mem_take hl))
  have hdrop_le : (clens.drop pre.length).prod ≤ broadcastWork blens clens := by
    rw [hW]
    exact Nat.le_mul_of_pos_left _ hpre_pos
  unfold computeGrid CreateBitmapAndGrid
  dsimp only
  rw [hd, foldl_work_one _ hdrop_pos (by omega)]
  rcases hpre with hnil | ⟨pre1, z, hpz, hz⟩
  · subst hnil
    rw [hW]
    simp [CreateBitmapAndGrid.loop, broadcastWork]
  · have hlen1 : pre.length = pre1.length + 1 := by rw [hpz]; simp
    have hk : ((pre.length : Int) - 2 + 1).toNat = pre1.length := by omega
    have hic : pre1.length < clens.length := by omega
    have htakeb : blens.take pre1.length = pre1 := by
      rw [hsplit, hpz, List.append_assoc]
      simp
    have htakec : clens.take pre.length = clens.take pre1.length ++ [clens[pre1.length]] := by
      rw [hlen1, List.take_succ, List.getElem?_eq_getElem hic]
      rfl
    have hlens : pre1.length = (clens.take pre1.length).length := by
      rw [List.length_take]
      omega
    have hpre_eq : broadcastWork pre (clens.take pre.length) =
        broadcastWork pre1 (clens.take pre1.length) := by
      rw [htakec, hpz, broadcastWork_append _ _ _ _ hlens]
      simp [broadcastWork, hz]
    have hfinal : (clens.drop pre.length).prod *
        broadcastWork (blens.take pre1.length) (clens.take pre1.length) =
        broadcastWork blens clens := by
      rw [htakeb, hW, hpre_eq, Nat.mul_comm]
    rw [hk, CreateBitmapAndGrid_loop_work blens clens hpos pre1.length _ _ _
      (by rw [hsplit, hpz]; simp) (by omega) (le_prod_of_mem _ hdrop_pos).1
      (by rw [hfinal]; omega), hfinal]

theorem product_split (blens clens : List Nat)
    (hbc : List.Forall₂ (fun b c => b = 1 ∨ b = c) blens clens) :
    nonOnesProduct blens * broadcastWork blens clens = clens.prod := by
  induction hbc with
  | nil => simp [nonOnesProduct, broadcastWork]
  | @cons b c bs cs hhead _ ih =>
    have e : nonOnesProduct (b :: bs) = nonOnesProduct [b] * nonOnesProduct bs :=
      nonOnesProduct_append [b] bs
    have e2 : broadcastWork (b :: bs) (c :: cs) =
        (if b = 1 then c else 1) * broadcastWork bs cs := by
      unfold broadcastWork
      rw [List.zipWith_cons_cons, List.prod_cons]
    rw [e, e2, nonOnesProduct_singleton, List.prod_cons, ← ih]
    by_cases h1 : b = 1
    · rw [if_neg (by simpa using h1), if_pos h1]
      ring
    · rw [if_pos h1, if_neg h1]
      rcases hhead with e3 | e3
      · exact absurd e3 h1
      · rw [e3]
        ring

/-- C23 fails on the code: for the accepted call C = B = [64, 512, 256, 256] (2^31
elements, all lengths positive) the work-group count is accumulated in `int`:
`256 * 256 * 512 * 64 = 2^31` wraps to `-2147483648`, where the claim gives the product
`2147483648` of B's lengths; `num_wg * work_per_wg` is `-2147483648`, not the element
count of C. -/
theorem num_wg_overflow :
    (OpTensor sampleTypes emptyHandle
      (sampleCall [64, 512, 256, 256] [64, 512, 256, 256])).1 = none ∧
    nonOnesProduct [64, 512, 256, 256] = 2147483648 ∧
    broadcastWork [64, 512, 256, 256] [64, 512, 256, 256] = 1 ∧
    (sampleCall [64, 512, 256, 256] [64, 512, 256, 256]).cTensorDesc.GetElementSize =
      2147483648 ∧
    (computeGrid [64, 512, 256, 256] [64, 512, 256, 256]).num_wg = -2147483648 ∧
    (computeGrid [64, 512, 256, 256] [64, 512, 256, 256]).work_per_wg = 1 ∧
    (OpTensor4d.locals sampleTypes
      (sampleCall [64, 512, 256, 256] [64, 512, 256, 256])).num_wg_orig = -2147483648 :=
  ⟨by decide, by decide, by decide, by decide, by decide, by decide, by decide⟩

/-- Within the range of `int` the work split of C23 holds: for an accepted `OpTensor`
call whose C has positive lengths and an element count below `2^31`, the opening statements shared by the three planner functions
leave, before any rebalancing or clamping, `num_wg` equal to the product of the lengths of
B that are not 1 and `work_per_wg` equal to the product of the lengths of C in the
dimensions where B has length 1; their product is the element count of C.  These are the
values `OpTensor3d` and `OpTensorOther` keep as `num_wg_orig` and `work_per_wg`, and the
values of `OpTensor4d` when it does not rebalance. -/
theorem work_split (T : TypeTable) (h : Handle) (x : OpTensorArgs)
    (hacc : (OpTensor T h x).1 = none)
    (hpos : ∀ l ∈ x.cTensorDesc.lens, 1 ≤ l)
    (hint : x.cTensorDesc.GetElementSize < 2 ^ 31) :
    (computeGrid x.bTensorDesc.lens x.cTensorDesc.lens).num_wg =
      ((nonOnesProduct x.bTensorDesc.lens : Nat) : Int) ∧
    (computeGrid x.bTensorDesc.lens x.cTensorDesc.lens).work_per_wg =
      ((broadcastWork x.bTensorDesc.lens x.cTensorDesc.lens : Nat) : Int) ∧
    nonOnesProduct x.bTensorDesc.lens * broadcastWork x.bTensorDesc.lens x.cTensorDesc.lens =
      x.cTensorDesc.GetElementSize ∧
    (OpTensor3d.locals T x).num_wg_orig = ((nonOnesProduct x.bTensorDesc.lens : Nat) : Int) ∧
    (OpTensor3d.locals T x).work_per_wg =
      ((broadcastWork x.bTensorDesc.lens x.cTensorDesc.lens : Nat) : Int) ∧
    (OpTensorOther.locals T x).num_wg_orig =
      ((nonOnesProduct x.bTensorDesc.lens : Nat) : Int) ∧
    (OpTensorOther.locals T x).work_per_wg =
      ((broadcastWork x.bTensorDesc.lens x.cTensorDesc.lens : Nat) : Int) ∧
    ((OpTensor4d.locals T x).incr_wg = 0 →
      (OpTensor4d.locals T x).num_wg_orig =
        ((nonOnesProduct x.bTensorDesc.lens : Nat) : Int) ∧
      (OpTensor4d.locals T x).work_per_wg =
        ((broadcastWork x.bTensorDesc.lens x.cTensorDesc.lens : Nat) : Int)) := by
  have hbc := OpTensor_accepted_broadcast T h x hacc
  rw [GetElementSize_eq_prod] at hint ⊢
  obtain ⟨hposb, hleb, hP⟩ := broadcast_bounds _ _ hbc hpos
  have hr : ∀ l ∈ x.bTensorDesc.lens, l < 2 ^ 31 := fun l hl => by
    have := hleb l hl
    omega
  have hn := computeGrid_num_wg x.bTensorDesc.lens x.cTensorDesc.lens hr hposb (by omega)
  have hw := computeGrid_work_per_wg x.bTensorDesc.lens x.cTensorDesc.lens hbc.length_eq hr
    hpos hint
  refine ⟨hn, hw, product_split _ _ hbc, hn, hw, hn, hw, ?_⟩
  intro hincr
  have hi : (OpTensor4d.locals T x).incr_wg =
      if ((OpTensor4d.locals T x).fwd_conv_bias == 1 &&
          decide (x.cTensorDesc.lens.length < 5) &&
          decide ((computeGrid x.bTensorDesc.lens x.cTensorDesc.lens).num_wg < 640) &&
          decide ((computeGrid x.bTensorDesc.lens x.cTensorDesc.lens).work_per_wg > 256) &&
          decide (elemAt x.cTensorDesc.lens 0 > 0)) = true then 1 else 0 := rfl
  have hnd : (OpTensor4d.locals T x).num_wg_orig =
      if ((OpTensor4d.locals T x).fwd_conv_bias == 1 &&
          decide (x.cTensorDesc.lens.length < 5) &&
          decide ((computeGrid x.bTensorDesc.lens x.cTensorDesc.lens).num_wg < 640) &&
          decide ((computeGrid x.bTensorDesc.lens x.cTensorDesc.lens).work_per_wg > 256) &&
          decide (elemAt x.cTensorDesc.lens 0 > 0)) = true
      then mulAssign (computeGrid x.bTensorDesc.lens x.cTensorDesc.lens).num_wg
        (elemAt x.cTensorDesc.lens 0)
      else (computeGrid x.bTensorDesc.lens x.cTensorDesc.lens).num_wg := rfl
  have hwd : (OpTensor4d.locals T x).work_per_wg =
      if ((OpTensor4d.locals T x).fwd_conv_bias == 1 &&
          decide (x.cTensorDesc.lens.length < 5) &&
          decide ((computeGrid x.bTensorDesc.lens x.cTensorDesc.lens).num_wg < 640) &&
          decide ((computeGrid x.bTensorDesc.lens x.cTensorDesc.lens).work_per_wg > 256) &&
          decide (elemAt x.cTensorDesc.lens 0 > 0)) = true
      then divAssign (computeGrid x.bTensorDesc.lens x.cTensorDesc.lens).work_per_wg
        (elemAt x.cTensorDesc.lens 0)
      else (computeGrid x.bTensorDesc.lens x.cTensorDesc.lens).work_per_wg := rfl
  rw [hi] at hincr
  split_ifs at hincr with hre
  · exact absurd hincr (by decide)
  · rw [hnd, hwd, if_neg hre, if_neg hre]
    exact ⟨hn, hw⟩

/-- The call C = [8,16,32,32], B = [1,16,1,1] splits into 16 work-groups of 8192
elements each. -/
theorem work_split_witness :
    nonOnesProduct sampleBiasCall.bTensorDesc.lens = 16 ∧
    broadcastWork sampleBiasCall.bTensorDesc.lens sampleBiasCall.cTensorDesc.lens = 8192 ∧
    ((computeGrid sampleBiasCall.bTensorDesc.lens sampleBiasCall.cTensorDesc.lens).num_wg =
      ((nonOnesProduct sampleBiasCall.bTensorDesc.lens : Nat) : Int) ∧
    (computeGrid sampleBiasCall.bTensorDesc.lens sampleBiasCall.cTensorDesc.lens).work_per_wg =
      ((broadcastWork sampleBiasCall.bTensorDesc.lens sampleBiasCall.cTensorDesc.lens : Nat) :
        Int) ∧
    nonOnesProduct sampleBiasCall.bTensorDesc.lens *
        broadcastWork sampleBiasCall.bTensorDesc.lens sampleBiasCall.cTensorDesc.lens =
      sampleBiasCall.cTensorDesc.GetElementSize ∧
    (OpTensor3d.locals sampleTypes sampleBiasCall).num_wg_orig =
      ((nonOnesProduct sampleBiasCall.bTensorDesc.lens : Nat) : Int) ∧
    (OpTensor3d.locals sampleTypes sampleBiasCall).work_per_wg =
      ((broadcastWork sampleBiasCall.bTensorDesc.lens sampleBiasCall.cTensorDesc.lens : Nat) :
        Int) ∧
    (OpTensorOther.locals sampleTypes sampleBiasCall).num_wg_orig =
      ((nonOnesProduct sampleBiasCall.bTensorDesc.lens : Nat) : Int) ∧
    (OpTensorOther.locals sampleTypes sampleBiasCall).work_per_wg =
      ((broadcastWork sampleBiasCall.bTensorDesc.lens sampleBiasCall.cTensorDesc.lens : Nat) :
        Int) ∧
    ((OpTensor4d.locals sampleTypes sampleBiasCall).incr_wg = 0 →
      (OpTensor4d.locals sampleTypes sampleBiasCall).num_wg_orig =
        ((nonOnesProduct sampleBiasCall.bTensorDesc.lens : Nat) : Int) ∧
      (OpTensor4d.locals sampleTypes sampleBiasCall).work_per_wg =
        ((broadcastWork sampleBiasCall.bTensorDesc.lens sampleBiasCall.cTensorDesc.lens :
          Nat) : Int))) :=
  ⟨by decide, by decide,
    work_split sampleTypes emptyHandle sampleBiasCall (by decide) (by decide) (by decide)⟩

theorem two_exp_ceiling_loop_spec :
    ∀ (fuel i m : Nat), m < 2 ^ fuel →
      ∃ k, k ≤ fuel ∧ m < 2 ^ k ∧ (k = 0 ∨ 2 ^ (k - 1) ≤ m) ∧
        (i * 2 ^ k < 2 ^ 64 → two_exp_ceiling_t.loop fuel i m = some (i * 2 ^ k)) := by
  intro fuel
  induction fuel with
  | zero =>
    intro i m hm
    have : m = 0 := by simpa using hm
    subst this
    exact ⟨0, le_refl 0, by simp, Or.inl rfl, fun _ => by simp [two_exp_ceiling_t.loop]⟩
  | succ f ih =>
    intro i m hm
    by_cases h0 : m = 0
    · subst h0
      exact ⟨0, by omega, by simp, Or.inl rfl, fun _ => by simp [two_exp_ceiling_t.loop]⟩
    · have hhalf : m / 2 < 2 ^ f := by
        rw [Nat.pow_succ] at hm
        omega
      obtain ⟨k, hk, hlt, hge, hval⟩ := ih (i * 2 % 2 ^ 64) (m / 2) hhalf
      refine ⟨k + 1, by omega, ?_, Or.inr ?_, ?_⟩
      · rw [Nat.pow_succ]
        omega
      · rw [Nat.add_sub_cancel]
        rcases hge with rfl | hge
        · simp
          omega
        · by_cases hk0 : k = 0
          · subst hk0
            simp
            omega
          · have : 2 ^ k = 2 ^ (k - 1) * 2 := by
              rw [← Nat.pow_succ]
              congr 1
              omega
            omega
      · intro hfit
        have e : i * 2 ^ (k + 1) = i * 2 * 2 ^ k := by rw [Nat.pow_succ]; ring
        rw [e] at hfit ⊢
        have hk1 : 1 ≤ 2 ^ k := Nat.one_le_two_pow
        have hi2 : i * 2 ≤ i * 2 * 2 ^ k := Nat.le_mul_of_pos_right _ hk1
        have hmod : i * 2 % 2 ^ 64 = i * 2 := Nat.mod_eq_of_lt (by omega)
        rw [hmod] at hval
        unfold two_exp_ceiling_t.loop
        rw [if_neg h0, hmod]
        exact hval hfit

theorem two_exp_ceiling_spec (n p : Nat) (hn : 0 < n) (hp : IsTwoExpCeiling n p)
    (hfit : p < 2 ^ 64) : two_exp_ceiling_t n = some p := by
  obtain ⟨⟨k0, hk0⟩, hle, hmin⟩ := hp
  have hk064 : k0 < 64 := by
    rw [hk0] at hfit
    exact (Nat.pow_lt_pow_iff_right (by omega)).mp hfit
  have hn63 : n ≤ 2 ^ 63 := by
    have : 2 ^ k0 ≤ 2 ^ 63 := Nat.pow_le_pow_right (by omega) (by omega)
    omega
  obtain ⟨k, _, hlt, hge, hval⟩ := two_exp_ceiling_loop_spec 64 1 (n - 1) (by omega)
  have hnk : n ≤ 2 ^ k := by omega
  have hpk : p ≤ 2 ^ k := hmin k hnk
  have hkp : 2 ^ k ≤ p := by
    rcases hge with rfl | hge
    · rw [hk0]
      exact Nat.one_le_two_pow
    · rw [hk0]
      apply Nat.pow_le_pow_right (by omega)
      by_contra hcon
      have : k0 ≤ k - 1 := by omega
      have : 2 ^ k0 ≤ 2 ^ (k - 1) := Nat.pow_le_pow_right (by omega) this
      omega
  have hpe : p = 2 ^ k := Nat.le_antisymm hpk hkp
  unfold two_exp_ceiling_t
  rw [if_neg (by omega), hpe]
  have := hval (by rw [Nat.one_mul, ← hpe]; exact hfit)
  rw [Nat.one_mul] at this
  exact this

theorem reduce_step_size (a b : Nat) (ha : a < 64) (hb : 1 ≤ b) :
    ((2 ^ a + 2 ^ 64 - 1) % 2 ^ 64 / 2 ^ b + 1) % 2 ^ 64 = 2 ^ (a - min a b) := by
  have hA1 : 1 ≤ 2 ^ a := Nat.one_le_two_pow
  have hA : 2 ^ a ≤ 2 ^ 63 := Nat.pow_le_pow_right (by omega) (by omega)
  have h1 : (2 ^ a + 2 ^ 64 - 1) % 2 ^ 64 = 2 ^ a - 1 := by omega
  rw [h1]
  by_cases hab : b ≤ a
  · have hmin : min a b = b := by omega
    rw [hmin]
    have hsplit : 2 ^ a = 2 ^ b * 2 ^ (a - b) := by
      have hsum : b + (a - b) = a := by omega
      rw [← Nat.pow_add, hsum]
    have hc1 : 1 ≤ 2 ^ (a - b) := Nat.one_le_two_pow
    have hB1 : 1 ≤ 2 ^ b := Nat.one_le_two_pow
    have hcA : 2 ^ (a - b) ≤ 2 ^ a := Nat.pow_le_pow_right (by omega) (by omega)
    have hdiv : (2 ^ a - 1) / 2 ^ b = 2 ^ (a - b) - 1 := by
      apply Nat.div_eq_of_lt_le
      · rw [hsplit, Nat.mul_comm (2 ^ b), Nat.sub_mul]
        omega
      · rw [hsplit, Nat.mul_comm (2 ^ b)]
        have : 2 ^ (a - b) - 1 + 1 = 2 ^ (a - b) := by omega
        rw [this]
        have := Nat.mul_pos hc1 hB1
        omega
    rw [hdiv]
    have : 2 ^ (a - b) - 1 + 1 = 2 ^ (a - b) := by omega
    rw [this]
    exact Nat.mod_eq_of_lt (by omega)
  · have hmin : min a b = a := by omega
    rw [hmin, Nat.sub_self]
    have hlt : 2 ^ a < 2 ^ b := Nat.pow_lt_pow_right (by omega) (by omega)
    rw [Nat.div_eq_of_lt (by omega)]
    rfl

theorem reduce_spec : ∀ (es : List Nat) (b : Nat), (∀ e ∈ es, e < 64) → b ≤ es.sum →
    ∃ es', get_worker_sizes.reduce (2 ^ b) (es.map (fun e => 2 ^ e)) =
        some (es'.map (fun e => 2 ^ e)) ∧
      List.Forall₂ (fun e' e => e' ≤ e) es' es ∧ es'.sum + b = es.sum := by
  intro es
  induction es with
  | nil =>
    intro b _ hb
    have : b = 0 := by simpa using hb
    subst this
    exact ⟨[], rfl, List.Forall₂.nil, rfl⟩
  | cons e es ih =>
    intro b hes hb
    have he : e < 64 := hes e (List.mem_cons_self e es)
    by_cases hb0 : b = 0
    · subst hb0
      refine ⟨e :: es, ?_, ?_, rfl⟩
      · simp [get_worker_sizes.reduce]
      · exact List.forall₂_same.mpr (fun _ _ => le_refl _)
    · have hn : 2 ^ b > 1 := Nat.one_lt_two_pow hb0
      have hw := reduce_step_size e b he (by omega)
      have hm : min e b ≤ e := by omega
      have hq : 2 ^ e / 2 ^ (e - min e b) = 2 ^ min e b := by
        have hsub : e - (e - min e b) = min e b := by omega
        rw [Nat.pow_div (by omega) (by omega), hsub]
      have hn' : 2 ^ b / 2 ^ min e b = 2 ^ (b - min e b) :=
        Nat.pow_div (by omega) (by omega)
      rw [List.sum_cons] at hb
      obtain ⟨es', hr, hf, hs⟩ := ih (b - min e b)
        (fun x hx => hes x (List.mem_cons_of_mem e hx)) (by omega)
      refine ⟨(e - min e b) :: es', ?_, List.Forall₂.cons (by omega) hf, ?_⟩
      · rw [List.map_cons]
        unfold get_worker_sizes.reduce
        rw [if_pos hn]
        dsimp only
        rw [hw, hq, hn',
          if_neg (by have := @Nat.one_le_two_pow (e - min e b); omega),
          if_neg (by have := @Nat.one_le_two_pow (min e b); omega), hr]
        rfl
      · rw [List.sum_cons, List.sum_cons]
        omega

theorem exponents_of_powers (ps : List Nat) (h : ∀ p ∈ ps, ∃ k, p = 2 ^ k) :
    ∃ es : List Nat, ps = es.map (fun e => 2 ^ e) := by
  induction ps with
  | nil => exact ⟨[], rfl⟩
  | cons p ps ih =>
    obtain ⟨k, hk⟩ := h p (List.mem_cons_self p ps)
    obtain ⟨es, hes⟩ := ih (fun q hq => h q (List.mem_cons_of_mem p hq))
    exact ⟨k :: es, by rw [hk, hes]; rfl⟩

theorem prod_powers (es : List Nat) : (es.map (fun e => 2 ^ e)).prod = 2 ^ es.sum := by
  induction es with
  | nil => rfl
  | cons e es ih => rw [List.map_cons, List.prod_cons, List.sum_cons, ih, Nat.pow_add]

theorem foldl_sizes (ps : List Nat) (hpos : ∀ p ∈ ps, 1 ≤ p) :
    ∀ acc : Nat, 1 ≤ acc → acc * ps.prod < 2 ^ 64 →
      ps.foldl (fun acc w => acc * w % 2 ^ 64) acc = acc * ps.prod := by
  induction ps with
  | nil => intro acc _ _; simp
  | cons p ps ih =>
    intro acc hacc hlt
    have hp : 1 ≤ p := hpos p (List.mem_cons_self p ps)
    have hps : ∀ q ∈ ps, 1 ≤ q := fun q hq => hpos q (List.mem_cons_of_mem p hq)
    have hpp : 1 ≤ ps.prod := (le_prod_of_mem ps hps).1
    rw [List.prod_cons] at hlt ⊢
    have e : acc * (p * ps.prod) = acc * p * ps.prod := by ring
    rw [e] at hlt ⊢
    have h1 : acc * p ≤ acc * p * ps.prod := Nat.le_mul_of_pos_right _ hpp
    rw [List.foldl_cons, Nat.mod_eq_of_lt (by omega)]
    exact ih hps (acc * p) (Nat.mul_pos hacc hp) hlt

theorem transform_spec (data ps : List Nat) (hps : List.Forall₂ IsTwoExpCeiling data ps)
    (hpos : ∀ d ∈ data, 0 < d) (hfit : ∀ p ∈ ps, p < 2 ^ 64) :
    get_worker_sizes.transform data = some ps := by
  induction hps with
  | nil => rfl
  | @cons d p ds ps hhead _ ih =>
    have h1 := two_exp_ceiling_spec d p (hpos d (List.mem_cons_self d ds)) hhead
      (hfit p (List.mem_cons_self p ps))
    have h2 := ih (fun x hx => hpos x (List.mem_cons_of_mem d hx))
      (fun x hx => hfit x (List.mem_cons_of_mem p hx))
    unfold get_worker_sizes.transform
    rw [h1, h2]

theorem ceilings_are_powers (data ps : List Nat)
    (hps : List.Forall₂ IsTwoExpCeiling data ps) : ∀ p ∈ ps, ∃ k, p = 2 ^ k := by
  induction hps with
  | nil => intro p hp; cases hp
  | @cons d q ds qs hhead _ ih =>
    intro p hp
    rcases List.mem_cons.mp hp with rfl | hp
    · exact hhead.1
    · exact ih p hp

theorem isTwoExpCeiling_of_lt (n p k : Nat) (hk : p = 2 ^ k) (hle : n ≤ p)
    (hlt : p < 2 * n) : IsTwoExpCeiling n p := by
  refine ⟨⟨k, hk⟩, hle, ?_⟩
  intro j hj
  rw [hk]
  apply Nat.pow_le_pow_right (by omega)
  by_contra hcon
  have h1 : j + 1 ≤ k := by omega
  have h2 : 2 ^ (j + 1) ≤ 2 ^ k := Nat.pow_le_pow_right (by omega) h1
  rw [Nat.pow_succ] at h2
  omega

/-- C30: let `data` be a list of positive sizes and `ps` the list of their round-ups
`p(data[i])` to the smallest power of two, with a product that fits `std::size_t`.  Then
`get_worker_sizes(data)` returns (its loops end and no division has the divisor 0) a list
of worker sizes, each a power of two with `1 ≤ worker[i] ≤ p(data[i])`, whose product is
`min(product of the p(data[i]), 65536)`. -/
theorem get_worker_sizes_bound (data ps : List Nat)
    (hpos : ∀ d ∈ data, 0 < d)
    (hps : List.Forall₂ IsTwoExpCeiling data ps)
    (hfit : ps.prod < 2 ^ 64) :
    ∃ ws, get_worker_sizes data = some ws ∧
      List.Forall₂ (fun w p => (∃ k, w = 2 ^ k) ∧ 1 ≤ w ∧ w ≤ p) ws ps ∧
      ws.prod = min ps.prod 65536 := by
  have hpow : ∀ p ∈ ps, ∃ k, p = 2 ^ k := ceilings_are_powers data ps hps
  obtain ⟨es, hes⟩ := exponents_of_powers ps hpow
  subst hes
  have hp1 : ∀ p ∈ es.map (fun e => 2 ^ e), 1 ≤ p := by
    intro p hp
    obtain ⟨e, _, he⟩ := List.mem_map.mp hp
    rw [← he]
    exact Nat.one_le_two_pow
  have hplt : ∀ p ∈ es.map (fun e => 2 ^ e), p < 2 ^ 64 := fun p hp =>
    lt_of_le_of_lt ((le_prod_of_mem _ hp1).2 p hp) hfit
  have he64 : ∀ e ∈ es, e < 64 := by
    intro e he
    have := hplt (2 ^ e) (List.mem_map.mpr ⟨e, he, rfl⟩)
    exact (Nat.pow_lt_pow_iff_right (by omega)).mp this
  have htr := transform_spec data _ hps hpos hplt
  have hwgd := foldl_sizes _ hp1 1 (le_refl 1) (by rw [Nat.one_mul]; exact hfit)
  rw [Nat.one_mul, prod_powers] at hwgd
  rw [prod_powers] at hfit ⊢
  unfold get_worker_sizes
  rw [htr]
  dsimp only
  rw [hwgd]
  by_cases hbig : 2 ^ es.sum > 65536
  · rw [if_pos hbig]
    have h16 : 16 < es.sum := by
      have : (2 : Nat) ^ 16 < 2 ^ es.sum := hbig
      exact (Nat.pow_lt_pow_iff_right (by omega)).mp this
    have hn : 2 ^ es.sum / 65536 = 2 ^ (es.sum - 16) := by
      have : (65536 : Nat) = 2 ^ 16 := by norm_num
      rw [this]
      exact Nat.pow_div (by omega) (by omega)
    rw [hn]
    obtain ⟨es', hr, hf, hs⟩ := reduce_spec es (es.sum - 16) he64 (by omega)
    refine ⟨_, hr, ?_, ?_⟩
    · rw [List.forall₂_map_left_iff, List.forall₂_map_right_iff]
      exact hf.imp (fun e' e hle =>
        ⟨⟨e', rfl⟩, Nat.one_le_two_pow, Nat.pow_le_pow_right (by omega) hle⟩)
    · rw [prod_powers]
      have : es'.sum = 16 := by omega
      rw [this]
      omega
  · rw [if_neg hbig]
    refine ⟨_, rfl, ?_, ?_⟩
    · rw [List.forall₂_same]
      intro p hp
      exact ⟨hpow p hp, hp1 p hp, le_refl p⟩
    · rw [prod_powers]
      omega

/-- Witness for C30: the data sizes 300, 500, 7 are rounded up to 512, 512, 8, a product
of 2^21, and reduced to the worker sizes 16, 512, 8. -/
theorem get_worker_sizes_bound_witness :
    get_worker_sizes [300, 500, 7] = some [16, 512, 8] ∧
    ∃ ws, get_worker_sizes [300, 500, 7] = some ws ∧
      List.Forall₂ (fun w p => (∃ k, w = 2 ^ k) ∧ 1 ≤ w ∧ w ≤ p) ws [512, 512, 8] ∧
      ws.prod = min ([512, 512, 8] : List Nat).prod 65536 :=
  ⟨by decide,
    get_worker_sizes_bound [300, 500, 7] [512, 512, 8] (by decide)
      (List.Forall₂.cons (isTwoExpCeiling_of_lt 300 512 9 (by decide) (by decide) (by decide))
        (List.Forall₂.cons
          (isTwoExpCeiling_of_lt 500 512 9 (by decide) (by decide) (by decide))
          (List.Forall₂.cons (isTwoExpCeiling_of_lt 7 8 3 (by decide) (by decide) (by decide))
            List.Forall₂.nil)))
      (by decide)⟩

/-! ## Theorems: flattening of tensor descriptors -/

theorem mem_offsets_cons (l s : Nat) (ls ss : List Nat) (o : Nat) :
    o ∈ offsets (l :: ls) (s :: ss) ↔
      ∃ i, i < l ∧ ∃ o', o' ∈ offsets ls ss ∧ o = i * s + o' := by
  have e : offsets (l :: ls) (s :: ss) =
      (List.range l).flatMap (fun i => (offsets ls ss).map (fun o => i * s + o)) := by
    rw [offsets]
  rw [e]
  simp only [List.mem_flatMap, List.mem_range, List.mem_map]
  constructor
  · rintro ⟨i, hi, o', ho', rfl⟩
    exact ⟨i, hi, o', ho', rfl⟩
  · rintro ⟨i, hi, o', ho', rfl⟩
    exact ⟨i, hi, o', ho', rfl⟩

theorem mem_pairOffsets_cons (p : Nat × Nat) (ps : List (Nat × Nat)) (o : Nat) :
    o ∈ pairOffsets (p :: ps) ↔
      ∃ i, i < p.1 ∧ ∃ o', o' ∈ pairOffsets ps ∧ o = i * p.2 + o' := by
  unfold pairOffsets
  rw [List.map_cons, List.map_cons, mem_offsets_cons]

theorem offsets_nonOnes (lens strides : List Nat) (hpos : ∀ l ∈ lens, 0 < l) (o : Nat) :
    o ∈ offsets lens strides ↔
      o ∈ pairOffsets (flatten_tensor_descriptor.nonOnes lens strides) := by
  induction lens generalizing strides o with
  | nil =>
    unfold flatten_tensor_descriptor.nonOnes pairOffsets offsets
    simp
  | cons l ls ih =>
    cases strides with
    | nil =>
      unfold flatten_tensor_descriptor.nonOnes pairOffsets offsets
      simp
    | cons s ss =>
      have hl := hpos l (List.mem_cons_self l ls)
      have ih' := fun o' => ih ss (fun x hx => hpos x (List.mem_cons_of_mem l hx)) o'
      unfold flatten_tensor_descriptor.nonOnes
      by_cases h1 : l > 1
      · rw [if_pos h1, mem_offsets_cons, mem_pairOffsets_cons]
        constructor
        · rintro ⟨i, hi, o', ho', rfl⟩
          exact ⟨i, hi, o', (ih' o').mp ho', rfl⟩
        · rintro ⟨i, hi, o', ho', rfl⟩
          exact ⟨i, hi, o', (ih' o').mpr ho', rfl⟩
      · rw [if_neg h1, mem_offsets_cons, ← ih' o]
        have hl1 : l = 1 := by omega
        subst hl1
        constructor
        · rintro ⟨i, hi, o', ho', rfl⟩
          have : i = 0 := by omega
          subst this
          simpa using ho'
        · intro ho
          exact ⟨0, by omega, o, ho, by simp⟩

theorem merged_offsets (flen len s : Nat) (rest : List (Nat × Nat)) (hlen : 0 < len)
    (o : Nat) :
    o ∈ pairOffsets ((flen * len, s) :: rest) ↔
      o ∈ pairOffsets ((flen, len * s) :: (len, s) :: rest) := by
  rw [mem_pairOffsets_cons, mem_pairOffsets_cons]
  constructor
  · rintro ⟨k, hk, o', ho', rfl⟩
    refine ⟨k / len, Nat.div_lt_of_lt_mul (by rw [Nat.mul_comm]; exact hk), k % len * s + o',
      ?_, ?_⟩
    · rw [mem_pairOffsets_cons]
      exact ⟨k % len, Nat.mod_lt k hlen, o', ho', rfl⟩
    · have hk2 : k = k / len * len + k % len := by
        rw [Nat.mul_comm]
        exact (Nat.div_add_mod k len).symm
      show k * s + o' = k / len * (len * s) + (k % len * s + o')
      conv_lhs => rw [hk2]
      ring
  · rintro ⟨i, hi, o1, ho1, rfl⟩
    rw [mem_pairOffsets_cons] at ho1
    obtain ⟨j, hj, o', ho', rfl⟩ := ho1
    refine ⟨i * len + j, ?_, o', ho', ?_⟩
    · show i * len + j < flen * len
      have h1 : (i + 1) * len ≤ flen * len := Nat.mul_le_mul_right len hi
      rw [Nat.succ_mul] at h1
      omega
    · show i * (len * s) + (j * s + o') = (i * len + j) * s + o'
      ring

theorem chain_head_length (a b s : Nat) (rest : List (Nat × Nat))
    (h : List.Chain' ExactQuotient ((a, s) :: rest)) :
    List.Chain' ExactQuotient ((b, s) :: rest) := by
  cases rest with
  | nil => exact List.chain'_singleton _
  | cons y l =>
    rw [List.chain'_cons] at h ⊢
    exact ⟨h.1, h.2⟩

theorem merge_spec : ∀ (rest : List (Nat × Nat)) (flen prev : Nat),
    List.Chain' ExactQuotient ((flen, prev) :: rest) →
    (∀ p ∈ rest, 0 < p.1 ∧ 0 < p.2) → 0 < flen →
    flen * (rest.map (fun p => p.1)).prod < 2 ^ 64 →
    ∃ out, flatten_tensor_descriptor.merge flen prev rest = some out ∧ out ≠ [] ∧
      ∀ o, o ∈ pairOffsets out ↔ o ∈ pairOffsets ((flen, prev) :: rest) := by
  intro rest
  induction rest with
  | nil =>
    intro flen prev _ _ _ _
    exact ⟨[(flen, prev)], rfl, by simp, fun _ => Iff.rfl⟩
  | cons q rest ih =>
    intro flen prev hch hpos hflen hfit
    obtain ⟨len, s⟩ := q
    obtain ⟨hlen, hs⟩ := hpos (len, s) (List.mem_cons_self _ _)
    have hrest : ∀ p ∈ rest, 0 < p.1 ∧ 0 < p.2 :=
      fun p hp => hpos p (List.mem_cons_of_mem _ hp)
    have hprod_pos : 1 ≤ (rest.map (fun p => p.1)).prod := by
      apply (le_prod_of_mem _ _).1
      intro l hl
      obtain ⟨p, hp, rfl⟩ := List.mem_map.mp hl
      exact (hrest p hp).1
    rw [List.chain'_cons] at hch
    obtain ⟨hR, hch'⟩ := hch
    rw [List.map_cons, List.prod_cons] at hfit
    have e : flen * (len * (rest.map (fun p => p.1)).prod) =
        flen * len * (rest.map (fun p => p.1)).prod := by ring
    rw [e] at hfit
    have hfl : flen * len ≤ flen * len * (rest.map (fun p => p.1)).prod :=
      Nat.le_mul_of_pos_right _ hprod_pos
    unfold flatten_tensor_descriptor.merge
    rw [if_neg (by omega)]
    by_cases hm : len = prev / s
    · rw [if_pos hm, Nat.mod_eq_of_lt (by omega)]
      have hprev : prev = len * s := hR hm
      obtain ⟨out, hout, hne, hset⟩ := ih (flen * len) s (chain_head_length len _ s rest hch')
        hrest (Nat.mul_pos hflen hlen) hfit
      refine ⟨out, hout, hne, fun o => ?_⟩
      rw [hset o, hprev]
      exact merged_offsets flen len s rest hlen o
    · rw [if_neg hm]
      have hlfit : len * (rest.map (fun p => p.1)).prod < 2 ^ 64 := by
        have h1 : len * (rest.map (fun p => p.1)).prod ≤
            flen * len * (rest.map (fun p => p.1)).prod := by
          apply Nat.mul_le_mul_right
          exact Nat.le_mul_of_pos_left _ hflen
        omega
      obtain ⟨out, hout, _, hset⟩ := ih len s hch' hrest hlen hlfit
      rw [hout]
      refine ⟨(flen, prev) :: out, rfl, by simp, fun o => ?_⟩
      rw [mem_pairOffsets_cons, mem_pairOffsets_cons]
      constructor
      · rintro ⟨i, hi, o', ho', rfl⟩
        exact ⟨i, hi, o', (hset o').mp ho', rfl⟩
      · rintro ⟨i, hi, o', ho', rfl⟩
        exact ⟨i, hi, o', (hset o').mpr ho', rfl⟩

theorem nonOnes_props (lens strides : List Nat) (hpos : ∀ l ∈ lens, 0 < l)
    (hspos : ∀ s ∈ strides, 0 < s) :
    (∀ p ∈ flatten_tensor_descriptor.nonOnes lens strides, 0 < p.1 ∧ 0 < p.2) ∧
    ((flatten_tensor_descriptor.nonOnes lens strides).map (fun p => p.1)).prod ≤ lens.prod := by
  induction lens generalizing strides with
  | nil =>
    unfold flatten_tensor_descriptor.nonOnes
    simp
  | cons l ls ih =>
    have hl := hpos l (List.mem_cons_self l ls)
    have hls : ∀ x ∈ ls, 0 < x := fun x hx => hpos x (List.mem_cons_of_mem l hx)
    cases strides with
    | nil =>
      unfold flatten_tensor_descriptor.nonOnes
      simp only [List.not_mem_nil, false_implies, implies_true, List.map_nil, List.prod_nil,
        true_and]
      exact (le_prod_of_mem _ hpos).1
    | cons s ss =>
      have hs := hspos s (List.mem_cons_self s ss)
      obtain ⟨h1, h2⟩ := ih ss hls (fun x hx => hspos x (List.mem_cons_of_mem s hx))
      unfold flatten_tensor_descriptor.nonOnes
      rw [List.prod_cons]
      by_cases hgt : l > 1
      · rw [if_pos hgt]
        constructor
        · intro p hp
          rcases List.mem_cons.mp hp with rfl | hp
          · exact ⟨hl, hs⟩
          · exact h1 p hp
        · rw [List.map_cons, List.prod_cons]
          exact Nat.mul_le_mul_left _ h2
      · rw [if_neg hgt]
        exact ⟨h1, le_trans h2 (Nat.le_mul_of_pos_left _ hl)⟩

/-- C28 fails on the code: for the non-packed descriptor with lengths [2,3] and strides
[7,2] the truncated quotient `7 / 2 = 3` equals the second length, so the two dimensions
are merged into one of length 6 and stride 2, which is what `SetTensor` hands to its
kernel; the offset 7 of element (1,0) is reachable in the original descriptor and not in
the flattened one, and the offset 6 conversely. -/
theorem flatten_merges_inexact_quotient :
    flatten_tensor_descriptor sampleStrided = some (1, [6], [2]) ∧
    offsets sampleStrided.lens sampleStrided.strides = [0, 2, 4, 7, 9, 11] ∧
    offsets [6] [2] = [0, 2, 4, 6, 8, 10] ∧
    7 ∈ offsets sampleStrided.lens sampleStrided.strides ∧ 7 ∉ offsets [6] [2] ∧
    6 ∈ offsets [6] [2] ∧ 6 ∉ offsets sampleStrided.lens sampleStrided.strides :=
  ⟨by decide, by decide, by decide, by decide, by decide, by decide, by decide⟩

/-- Where every quotient that triggers a merge is exact, flattening preserves the
addressing of C28: let a non-packed descriptor have positive lengths and strides and an
element count that fits `std::size_t`, and let, among its dimensions of length greater
than 1, every dimension whose length equals the truncated quotient
`strides[i-1] / strides[i]` have `strides[i-1] = len[i] * strides[i]` exactly (as is the
case whenever each stride is a multiple of the next).  Then `flatten_tensor_descriptor`
returns equally many flattened lengths and strides, and the set of offsets reachable
through them is the set of offsets reachable through the original lengths and strides. -/
theorem flatten_preserves_offsets (desc : TensorDescriptor)
    (hnp : desc.IsPacked = false)
    (hpos : ∀ l ∈ desc.lens, 0 < l) (hspos : ∀ s ∈ desc.strides, 0 < s)
    (hfit : desc.lens.prod < 2 ^ 64)
    (hexact : List.Chain' ExactQuotient
      (flatten_tensor_descriptor.nonOnes desc.lens desc.strides)) :
    ∃ flens fstrides,
      flatten_tensor_descriptor desc = some (flens.length, flens, fstrides) ∧
      flens.length = fstrides.length ∧ 0 < flens.length ∧
      ∀ o, o ∈ offsets flens fstrides ↔ o ∈ offsets desc.lens desc.strides := by
  obtain ⟨hk, hkprod⟩ := nonOnes_props desc.lens desc.strides hpos hspos
  unfold flatten_tensor_descriptor
  rw [hnp]
  simp only [Bool.false_eq_true, if_false]
  cases hno : flatten_tensor_descriptor.nonOnes desc.lens desc.strides with
  | nil =>
    refine ⟨[1], [1], rfl, rfl, by decide, fun o => ?_⟩
    have e1 : offsets [1] [1] = [0] := by decide
    have e2 : pairOffsets [] = [0] := by decide
    rw [offsets_nonOnes desc.lens desc.strides hpos o, hno, e1, e2]
  | cons p rest =>
    obtain ⟨len0, s0⟩ := p
    rw [hno] at hk hkprod hexact
    have h0 := hk (len0, s0) (List.mem_cons_self _ _)
    rw [List.map_cons, List.prod_cons] at hkprod
    dsimp only at hkprod
    obtain ⟨out, hout, hne, hset⟩ := merge_spec rest len0 s0 hexact
      (fun q hq => hk q (List.mem_cons_of_mem _ hq)) h0.1 (by omega)
    dsimp only
    rw [hout]
    refine ⟨out.map (fun p => p.1), out.map (fun p => p.2), by simp, by simp,
      by simpa using List.length_pos.mpr hne, fun o => ?_⟩
    rw [offsets_nonOnes desc.lens desc.strides hpos o, hno]
    exact hset o

/-- The 2x3x4 view with strides 24, 4, 1 (exact quotients) is flattened to the
lengths [2,12] with strides [24,1]. -/
theorem flatten_preserves_offsets_witness :
    flatten_tensor_descriptor sampleView = some (2, [2, 12], [24, 1]) ∧
    ∃ flens fstrides,
      flatten_tensor_descriptor sampleView = some (flens.length, flens, fstrides) ∧
      flens.length = fstrides.length ∧ 0 < flens.length ∧
      ∀ o, o ∈ offsets flens fstrides ↔ o ∈ offsets sampleView.lens sampleView.strides :=
  ⟨by decide,
    flatten_preserves_offsets sampleView rfl (by decide) (by decide) (by decide)
      (by
        have e : flatten_tensor_descriptor.nonOnes sampleView.lens sampleView.strides =
            [(2, 24), (3, 4), (4, 1)] := by decide
        rw [e]
        simp [ExactQuotient])⟩

/-! ## Theorems: group normalisation -/

namespace groupnorm

/-- C21: for a problem whose x has the first length `N`, `GetSolution` builds exactly one
kernel, `GroupNormFwdContiguous` from `MIOpenGroupNorm.cpp`, with local size (256, 1, 1)
and a global size `(g, 1, 1)` in which `g` is a multiple of 256 and equals
`N * num_groups * 256` (as long as that product fits `size_t`); its options are generated
from the defines, in which `LOCAL_SIZE` is 256 and, for the data types half, float, double
and bfloat16, exactly the matching one of `MIOPEN_USE_FP16`, `MIOPEN_USE_FP32`,
`MIOPEN_USE_FP64`, `MIOPEN_USE_BFP16` is 1 and the other three are 0. -/
theorem GetSolution_geometry (GenerateFor : List (String × Int) → String)
    (problem : ProblemDescription) (N : Nat) (rest : List Nat)
    (hdims : problem.xDesc.lens = N :: rest) :
    ∃ (kernel : KernelInfo) (g : Nat),
      Option.map (fun r => r.construction_params) (GetSolution GenerateFor problem) =
        some [kernel] ∧
      kernel.kernel_file = "MIOpenGroupNorm.cpp" ∧
      kernel.kernel_name = "GroupNormFwdContiguous" ∧
      kernel.l_wk = [256, 1, 1] ∧ kernel.g_wk = [g, 1, 1] ∧ 256 ∣ g ∧
      (N * problem.num_groups * 256 < 2 ^ 64 → g = N * problem.num_groups * 256) ∧
      kernel.comp_options = GenerateFor (build_params problem.xDesc.type) ∧
      (build_params problem.xDesc.type).lookup "LOCAL_SIZE" = some 256 ∧
      (build_params problem.xDesc.type).map (fun p => p.1) =
        ["MIOPEN_USE_FP16", "MIOPEN_USE_FP32", "MIOPEN_USE_FP64", "MIOPEN_USE_BFP16",
          "LOCAL_SIZE"] ∧
      (problem.xDesc.type = .miopenHalf →
        (build_params problem.xDesc.type).map (fun p => p.2) = [1, 0, 0, 0, 256]) ∧
      (problem.xDesc.type = .miopenFloat →
        (build_params problem.xDesc.type).map (fun p => p.2) = [0, 1, 0, 0, 256]) ∧
      (problem.xDesc.type = .miopenDouble →
        (build_params problem.xDesc.type).map (fun p => p.2) = [0, 0, 1, 0, 256]) ∧
      (problem.xDesc.type = .miopenBFloat16 →
        (build_params problem.xDesc.type).map (fun p => p.2) = [0, 0, 0, 1, 256]) := by
  have h0 : problem.xDesc.lens[0]? = some N := by rw [hdims]; simp
  refine ⟨KernelInfo.mk "MIOpenGroupNorm.cpp" "GroupNormFwdContiguous"
      (GenerateFor (build_params problem.xDesc.type)) [256, 1, 1]
      [N * problem.num_groups % 2 ^ 64 * 256 % 2 ^ 64, 1, 1],
    N * problem.num_groups % 2 ^ 64 * 256 % 2 ^ 64, ?_, rfl, rfl, rfl, rfl, ?_, ?_,
    rfl, ?_, rfl, ?_, ?_, ?_, ?_⟩
  · unfold GetSolution
    simp only [h0]
    rfl
  · omega
  · intro hfit
    have : N * problem.num_groups < 2 ^ 64 := by omega
    rw [Nat.mod_eq_of_lt this, Nat.mod_eq_of_lt hfit]
  · cases problem.xDesc.type <;> decide
  · intro ht; rw [ht]; decide
  · intro ht; rw [ht]; decide
  · intro ht; rw [ht]; decide
  · intro ht; rw [ht]; decide

/-- Witness for C21: the sample problem is launched with 4 * 8 work-groups. -/
theorem GetSolution_geometry_witness :
    Option.map (fun r => r.construction_params.map (fun k => (k.l_wk, k.g_wk, k.comp_options)))
      (GetSolution sampleGenerateFor sampleGroupNorm) =
      some [([256, 1, 1], [8192, 1, 1],
        "-DMIOPEN_USE_FP16=0 -DMIOPEN_USE_FP32=1 -DMIOPEN_USE_FP64=0 -DMIOPEN_USE_BFP16=0 " ++
          "-DLOCAL_SIZE=256")] ∧
    ∃ (kernel : KernelInfo) (g : Nat),
      Option.map (fun r => r.construction_params) (GetSolution sampleGenerateFor sampleGroupNorm) =
        some [kernel] ∧
      kernel.kernel_file = "MIOpenGroupNorm.cpp" ∧
      kernel.kernel_name = "GroupNormFwdContiguous" ∧
      kernel.l_wk = [256, 1, 1] ∧ kernel.g_wk = [g, 1, 1] ∧ 256 ∣ g ∧
      (4 * sampleGroupNorm.num_groups * 256 < 2 ^ 64 →
        g = 4 * sampleGroupNorm.num_groups * 256) ∧
      kernel.comp_options = sampleGenerateFor (build_params sampleGroupNorm.xDesc.type) ∧
      (build_params sampleGroupNorm.xDesc.type).lookup "LOCAL_SIZE" = some 256 ∧
      (build_params sampleGroupNorm.xDesc.type).map (fun p => p.1) =
        ["MIOPEN_USE_FP16", "MIOPEN_USE_FP32", "MIOPEN_USE_FP64", "MIOPEN_USE_BFP16",
          "LOCAL_SIZE"] ∧
      (sampleGroupNorm.xDesc.type = .miopenHalf →
        (build_params sampleGroupNorm.xDesc.type).map (fun p => p.2) = [1, 0, 0, 0, 256]) ∧
      (sampleGroupNorm.xDesc.type = .miopenFloat →
        (build_params sampleGroupNorm.xDesc.type).map (fun p => p.2) = [0, 1, 0, 0, 256]) ∧
      (sampleGroupNorm.xDesc.type = .miopenDouble →
        (build_params sampleGroupNorm.xDesc.type).map (fun p => p.2) = [0, 0, 1, 0, 256]) ∧
      (sampleGroupNorm.xDesc.type = .miopenBFloat16 →
        (build_params sampleGroupNorm.xDesc.type).map (fun p => p.2) = [0, 0, 0, 1, 256]) :=
  ⟨by decide, GetSolution_geometry sampleGenerateFor sampleGroupNorm 4 [32, 16, 16] rfl⟩

end groupnorm

/-! ## Theorems: default configuration and stride layout of the grouped 3-D solver -/

namespace solver

theorem Init_default_of_support (be : Backend) (T : CKDataType) (problem : ProblemDescription)
    (args : CKArgs) (hargs : CKArgs.ofProblem problem = some args)
    (hsup : ∃ p ∈ be T, p.IsSupportedArgument args = true) :
    ∃ c, Init be T defaultConfig problem = some c ∧ c.index = 0 ∧
      c.valid_kernels = supportingTypeStrings be T args ∧ c.valid_kernels ≠ [] ∧
      IsValidValue c = true ∧ c.valid_kernels[0]? = some c.kernel_id ∧
      ∃ p ∈ be T, p.GetTypeString = c.kernel_id ∧ p.IsSupportedArgument args = true := by
  obtain ⟨k, hk, hinit⟩ := Init_of_empty be T defaultConfig problem args hargs rfl hsup
  have hmem : k ∈ supportingTypeStrings be T args := List.mem_of_mem_head? hk
  have hne : supportingTypeStrings be T args ≠ [] := List.ne_nil_of_mem hmem
  refine ⟨_, hinit, rfl, rfl, hne, ?_, ?_, ?_⟩
  · unfold IsValidValue
    simp only [decide_eq_true_eq]
    exact List.length_pos.mpr hne
  · rw [← List.head?_eq_getElem?]
    exact hk
  · unfold supportingTypeStrings at hmem
    obtain ⟨p, hp, hpk⟩ := List.mem_map.mp hmem
    obtain ⟨hp1, hp2⟩ := List.mem_filter.mp hp
    exact ⟨p, hp1, hpk, hp2⟩

theorem CheckCKApplicability_true (be : Backend) (T : CKDataType) (problem : ProblemDescription)
    (out : List String) (h : CheckCKApplicability be T problem = some (true, out)) :
    be T ≠ [] ∧ ∃ args, CKArgs.ofProblem problem = some args ∧
      ∃ p ∈ be T, p.IsSupportedArgument args = true := by
  have hnn : CheckCKApplicability be T problem ≠ none := by rw [h]; simp
  have hne : be T ≠ [] := fun he =>
    hnn ((CheckCKApplicability_none_iff be T problem).mpr (Or.inl he))
  cases hargs : CKArgs.ofProblem problem with
  | none => exact absurd ((CheckCKApplicability_none_iff be T problem).mpr (Or.inr hargs)) hnn
  | some args =>
    obtain ⟨b, o, hb, hiff, _⟩ := CheckCKApplicability_spec be T problem args hne hargs
    rw [h] at hb
    simp only [Option.some.injEq, Prod.mk.injEq] at hb
    exact ⟨hne, args, rfl, (hiff.mp hb.1.symm).2⟩

/-- C26: whenever `IsApplicable(ctx, problem)` returns `true`, the data type has a backend
instantiation `T` with a non-empty instance list, and `HeuristicInit(problem)` on a
default-constructed config completes (both assertions of `Init` hold) with the candidate
list of all supporting instances, which is non-empty; the config it produces, which is
the one `GetDefaultPerformanceConfig` returns, satisfies `IsValidValue()`, has index 0,
and its `kernel_id` is `valid_kernels[0]`, the type string of a backend instance that
supports the problem. -/
theorem applicable_default_config (env : DebugEnv) (be : Backend) (ctx : ConvolutionContext)
    (problem : ProblemDescription) (out : List String)
    (happ : IsApplicable env be ctx problem = some (true, out)) :
    ∃ T c args, ckDataTypeOf problem.InDataType = some T ∧
      CKArgs.ofProblem problem = some args ∧ be T ≠ [] ∧
      HeuristicInit be defaultConfig problem = some c ∧
      GetDefaultPerformanceConfig be defaultConfig problem = some c ∧
      c.valid_kernels = supportingTypeStrings be T args ∧ c.valid_kernels ≠ [] ∧
      IsValidValue c = true ∧ c.index = 0 ∧ c.valid_kernels[0]? = some c.kernel_id ∧
      ∃ p ∈ be T, p.GetTypeString = c.kernel_id ∧ p.IsSupportedArgument args = true := by
  by_cases hG : env.solverDisabled = false ∧ env.deterministic = false ∧
      problem.InDataType = problem.WeightsDataType ∧
      problem.WeightsDataType = problem.OutDataType ∧
      problem.IsForward = true ∧ problem.Is3d = true ∧ problem.IsLayoutNHWC = true ∧
      (ctx.GetDeviceName = "gfx908" ∨ ctx.GetDeviceName = "gfx90a")
  swap
  · rw [IsApplicable_of_not_guards env be ctx problem hG] at happ
    simp at happ
  rw [IsApplicable_of_guards env be ctx problem hG] at happ
  have key : ∀ T, ckDataTypeOf problem.InDataType = some T →
      HeuristicInit be defaultConfig problem = Init be T defaultConfig problem := by
    intro T hT
    unfold HeuristicInit
    cases hd : problem.InDataType <;> rw [hd] at hT <;> simp [ckDataTypeOf] at hT <;>
      subst hT <;> rfl
  cases hT : ckDataTypeOf problem.InDataType with
  | none =>
    rw [hT] at happ
    simp at happ
  | some T =>
    rw [hT] at happ
    obtain ⟨hne, args, hargs, hsup⟩ := CheckCKApplicability_true be T problem out happ
    obtain ⟨c, h1, h2, h3, h4, h5, h6, h7⟩ :=
      Init_default_of_support be T problem args hargs hsup
    exact ⟨T, c, args, rfl, hargs, hne, by rw [key T hT, h1],
      by unfold GetDefaultPerformanceConfig; rw [key T hT, h1], h3, h4, h5, h2, h6, h7⟩

/-- Witness for C26: the sample float problem on gfx90a with the three-instance backend. -/
theorem applicable_default_config_witness :
    IsApplicable ⟨false, false⟩ sampleBackend3 ⟨"gfx90a"⟩ sampleProblem = some (true, []) ∧
    GetDefaultPerformanceConfig sampleBackend3 defaultConfig sampleProblem =
      some { index := 0, kernel_id := "Fwd<8>", valid_kernels := ["Fwd<8>", "Fwd<4>"] } ∧
    ∃ T c args, ckDataTypeOf sampleProblem.InDataType = some T ∧
      CKArgs.ofProblem sampleProblem = some args ∧ sampleBackend3 T ≠ [] ∧
      HeuristicInit sampleBackend3 defaultConfig sampleProblem = some c ∧
      GetDefaultPerformanceConfig sampleBackend3 defaultConfig sampleProblem = some c ∧
      c.valid_kernels = supportingTypeStrings sampleBackend3 T args ∧
      c.valid_kernels ≠ [] ∧
      IsValidValue c = true ∧ c.index = 0 ∧ c.valid_kernels[0]? = some c.kernel_id ∧
      ∃ p ∈ sampleBackend3 T, p.GetTypeString = c.kernel_id ∧
        p.IsSupportedArgument args = true :=
  ⟨by decide, by decide,
    applicable_default_config ⟨false, false⟩ sampleBackend3 ⟨"gfx90a"⟩ sampleProblem []
      (by decide)⟩

/-- C27 fails on the code: on a default-constructed config (empty `kernel_id`, empty
candidate list) and a backend of three instances, none of which has the empty type
string, the search loop of `CheckIsSupportCKArgs` ends with `i = 3`; the test
`i == valid_kernels.size()` compares 3 with 0, so the function does not return and goes
on to read `conv_ptrs[3]`, past the end of the list. -/
theorem CheckIsSupportCKArgs_reads_past_end :
    findKernelId defaultConfig.kernel_id (sampleBackend3 .float) = 3 ∧
    (sampleBackend3 .float).length = 3 ∧
    defaultConfig.valid_kernels.length = 0 ∧
    (sampleBackend3 .float)[findKernelId defaultConfig.kernel_id (sampleBackend3 .float)]? =
      none ∧
    CheckIsSupportCKArgs sampleBackend3 .float defaultConfig sampleProblem = none ∧
    IsValid sampleBackend3 defaultConfig sampleProblem = none :=
  ⟨by decide, by decide, by decide, by simp [sampleBackend3, findKernelId, sampleOp,
    defaultConfig], by decide, by decide⟩

theorem pack_bound (r d acc M : Int) (hd0 : 0 ≤ d) (hd : d < r) (ha0 : 0 ≤ acc)
    (ha : acc < M) : 0 ≤ d + r * acc ∧ d + r * acc < r * M := by
  have hr : 0 < r := by omega
  have h1 : 0 ≤ r * acc := Int.mul_nonneg (by omega) ha0
  have h2 : r * (acc + 1) ≤ r * M := Int.mul_le_mul_of_nonneg_left (by omega) (by omega)
  have h3 : r * (acc + 1) = r * acc + r := by ring
  constructor <;> omega

theorem pack_inj (r d acc d' acc' : Int) (hd0 : 0 ≤ d) (hd : d < r) (hd0' : 0 ≤ d')
    (hd' : d' < r) (h : d + r * acc = d' + r * acc') : d = d' ∧ acc = acc' := by
  have hr : 0 < r := by omega
  have e1 : (d + r * acc) % r = d := by
    rw [Int.add_mul_emod_self_left]
    exact Int.emod_eq_of_lt hd0 hd
  have e2 : (d' + r * acc') % r = d' := by
    rw [Int.add_mul_emod_self_left]
    exact Int.emod_eq_of_lt hd0' hd'
  have hdd : d = d' := by rw [← e1, ← e2, h]
  subst hdd
  have : r * acc = r * acc' := by omega
  exact ⟨rfl, Int.eq_of_mul_eq_mul_left (by omega) this⟩

theorem pack_surj (r M o : Int) (hr : 0 < r) (ho0 : 0 ≤ o) (ho : o < r * M) :
    ∃ d acc : Int, 0 ≤ d ∧ d < r ∧ 0 ≤ acc ∧ acc < M ∧ o = d + r * acc := by
  refine ⟨o % r, o / r, Int.emod_nonneg o (by omega), Int.emod_lt_of_pos o hr,
    Int.ediv_nonneg ho0 (by omega), ?_, (Int.emod_add_ediv o r).symm⟩
  exact Int.ediv_lt_of_lt_mul hr (by rw [Int.mul_comm]; exact ho)

theorem offset6_nested (L0 L2 L3 L4 L5 g n c d h w : Int) :
    offset6 [L2, L3 * L4 * L5 * L0 * L2, 1, L4 * L5 * L0 * L2, L5 * L0 * L2, L0 * L2]
        g n c d h w =
      c + L2 * (g + L0 * (w + L5 * (h + L4 * (d + L3 * n)))) := by
  unfold offset6
  simp only [List.getD_cons_succ, List.getD_cons_zero]
  ring

theorem denseLayout_of_shape (L0 L1 L2 L3 L4 L5 : Int) (h0 : 0 < L0) (h2 : 0 < L2)
    (h3 : 0 < L3) (h4 : 0 < L4) (h5 : 0 < L5) :
    DenseLayout [L0, L1, L2, L3, L4, L5]
      [L2, L3 * L4 * L5 * L0 * L2, 1, L4 * L5 * L0 * L2, L5 * L0 * L2, L0 * L2] := by
  have hprod : ([L0, L1, L2, L3, L4, L5] : List Int).prod =
      L2 * (L0 * (L5 * (L4 * (L3 * L1)))) := by
    simp only [List.prod_cons, List.prod_nil]
    ring
  unfold DenseLayout
  simp only [List.getD_cons_succ, List.getD_cons_zero, offset6_nested, hprod]
  refine ⟨?_, ?_, ?_⟩
  · intro g n c d h w hg0 hg hn0 hn hc0 hc hd0 hd hh0 hh hw0 hw
    obtain ⟨a1, b1⟩ := pack_bound L3 d n L1 hd0 hd hn0 hn
    obtain ⟨a2, b2⟩ := pack_bound L4 h _ _ hh0 hh a1 b1
    obtain ⟨a3, b3⟩ := pack_bound L5 w _ _ hw0 hw a2 b2
    obtain ⟨a4, b4⟩ := pack_bound L0 g _ _ hg0 hg a3 b3
    exact pack_bound L2 c _ _ hc0 hc a4 b4
  · intro g n c d h w g' n' c' d' h' w' hg0 hg hn0 hn hc0 hc hd0 hd hh0 hh hw0 hw
      hg0' hg' hn0' hn' hc0' hc' hd0' hd' hh0' hh' hw0' hw' heq
    obtain ⟨e1, q1⟩ := pack_inj L2 c _ c' _ hc0 hc hc0' hc' heq
    obtain ⟨e2, q2⟩ := pack_inj L0 g _ g' _ hg0 hg hg0' hg' q1
    obtain ⟨e3, q3⟩ := pack_inj L5 w _ w' _ hw0 hw hw0' hw' q2
    obtain ⟨e4, q4⟩ := pack_inj L4 h _ h' _ hh0 hh hh0' hh' q3
    obtain ⟨e5, q5⟩ := pack_inj L3 d _ d' _ hd0 hd hd0' hd' q4
    exact ⟨e2, q5, e1, e5, e4, e3⟩
  · intro o ho0 ho
    obtain ⟨c, o1, hc0, hc, p1, q1, r1⟩ := pack_surj L2 _ o h2 ho0 ho
    obtain ⟨g, o2, hg0, hg, p2, q2, r2⟩ := pack_surj L0 _ o1 h0 p1 q1
    obtain ⟨w, o3, hw0, hw, p3, q3, r3⟩ := pack_surj L5 _ o2 h5 p2 q2
    obtain ⟨h, o4, hh0, hh, p4, q4, r4⟩ := pack_surj L4 _ o3 h4 p3 q3
    obtain ⟨d, n, hd0, hd, hn0, hn, r5⟩ := pack_surj L3 _ o4 h3 p4 q4
    refine ⟨g, n, c, d, h, w, ⟨hg0, hg⟩, ⟨hn0, hn⟩, ⟨hc0, hc⟩, ⟨hd0, hd⟩, ⟨hh0, hh⟩,
      ⟨hw0, hw⟩, ?_⟩
    rw [r1, r2, r3, r4, r5]


theorem toInt_of_range (x : Int) (h0 : -2 ^ 31 ≤ x) (h1 : x < 2 ^ 31) : toInt x = x := by
  unfold toInt
  omega

theorem intMul_of_range (a b : Int) (h0 : 0 ≤ a * b) (h1 : a * b < 2 ^ 31) :
    intMul a b = a * b := by
  unfold intMul
  exact toInt_of_range _ (by omega) h1

theorem strides_exact (L0 L2 L3 L4 L5 : Int) (h0 : 0 < L0) (h2 : 0 < L2) (h3 : 0 < L3)
    (h4 : 0 < L4) (h5 : 0 < L5) (hfit : L3 * L4 * L5 * L0 * L2 < 2 ^ 31) :
    [L2, intMul (intMul (intMul (intMul L3 L4) L5) L0) L2, 1,
        intMul (intMul (intMul L4 L5) L0) L2, intMul (intMul L5 L0) L2, intMul L0 L2] =
      [L2, L3 * L4 * L5 * L0 * L2, 1, L4 * L5 * L0 * L2, L5 * L0 * L2, L0 * L2] := by
  have p34 : 0 < L3 * L4 := Int.mul_pos h3 h4
  have p345 : 0 < L3 * L4 * L5 := Int.mul_pos p34 h5
  have p3450 : 0 < L3 * L4 * L5 * L0 := Int.mul_pos p345 h0
  have p45 : 0 < L4 * L5 := Int.mul_pos h4 h5
  have p450 : 0 < L4 * L5 * L0 := Int.mul_pos p45 h0
  have p4502 : 0 < L4 * L5 * L0 * L2 := Int.mul_pos p450 h2
  have p50 : 0 < L5 * L0 := Int.mul_pos h5 h0
  have p502 : 0 < L5 * L0 * L2 := Int.mul_pos p50 h2
  have p02 : 0 < L0 * L2 := Int.mul_pos h0 h2
  have b3450 : L3 * L4 * L5 * L0 ≤ L3 * L4 * L5 * L0 * L2 :=
    le_mul_of_one_le_right (le_of_lt p3450) h2
  have b345 : L3 * L4 * L5 ≤ L3 * L4 * L5 * L0 := le_mul_of_one_le_right (le_of_lt p345) h0
  have b34 : L3 * L4 ≤ L3 * L4 * L5 := le_mul_of_one_le_right (le_of_lt p34) h5
  have e4502 : L3 * L4 * L5 * L0 * L2 = L3 * (L4 * L5 * L0 * L2) := by ring
  have b4502 : L4 * L5 * L0 * L2 ≤ L3 * L4 * L5 * L0 * L2 := by
    rw [e4502]
    exact le_mul_of_one_le_left (le_of_lt p4502) h3
  have b450 : L4 * L5 * L0 ≤ L4 * L5 * L0 * L2 := le_mul_of_one_le_right (le_of_lt p450) h2
  have b45 : L4 * L5 ≤ L4 * L5 * L0 := le_mul_of_one_le_right (le_of_lt p45) h0
  have e502 : L4 * L5 * L0 * L2 = L4 * (L5 * L0 * L2) := by ring
  have b502 : L5 * L0 * L2 ≤ L4 * L5 * L0 * L2 := by
    rw [e502]
    exact le_mul_of_one_le_left (le_of_lt p502) h4
  have b50 : L5 * L0 ≤ L5 * L0 * L2 := le_mul_of_one_le_right (le_of_lt p50) h2
  have e02 : L5 * L0 * L2 = L5 * (L0 * L2) := by ring
  have b02 : L0 * L2 ≤ L5 * L0 * L2 := by
    rw [e02]
    exact le_mul_of_one_le_left (le_of_lt p02) h5
  have m1 : intMul L3 L4 = L3 * L4 := intMul_of_range _ _ (by omega) (by omega)
  have m2 : intMul (L3 * L4) L5 = L3 * L4 * L5 := intMul_of_range _ _ (by omega) (by omega)
  have m3 : intMul (L3 * L4 * L5) L0 = L3 * L4 * L5 * L0 :=
    intMul_of_range _ _ (by omega) (by omega)
  have m4 : intMul (L3 * L4 * L5 * L0) L2 = L3 * L4 * L5 * L0 * L2 :=
    intMul_of_range _ _ (by omega) (by omega)
  have m5 : intMul L4 L5 = L4 * L5 := intMul_of_range _ _ (by omega) (by omega)
  have m6 : intMul (L4 * L5) L0 = L4 * L5 * L0 := intMul_of_range _ _ (by omega) (by omega)
  have m7 : intMul (L4 * L5 * L0) L2 = L4 * L5 * L0 * L2 :=
    intMul_of_range _ _ (by omega) (by omega)
  have m8 : intMul L5 L0 = L5 * L0 := intMul_of_range _ _ (by omega) (by omega)
  have m9 : intMul (L5 * L0) L2 = L5 * L0 * L2 := intMul_of_range _ _ (by omega) (by omega)
  have m10 : intMul L0 L2 = L0 * L2 := intMul_of_range _ _ (by omega) (by omega)
  rw [m1, m2, m3, m4, m5, m6, m7, m8, m9, m10]

theorem CKArgs_ofProblem_shape (problem : ProblemDescription) (a : CKArgs)
    (h : CKArgs.ofProblem problem = some a) :
    a.input = [a.G, a.N, a.C, a.Di, a.Hi, a.Wi] ∧
    a.output = [a.G, a.N, a.K, a.Do, a.Ho, a.Wo] ∧
    a.weight = [a.G, a.K, a.C, a.Z, a.Y, a.X] ∧
    a.in_strides = [a.C, intMul (intMul (intMul (intMul a.Di a.Hi) a.Wi) a.G) a.C, 1,
      intMul (intMul (intMul a.Hi a.Wi) a.G) a.C, intMul (intMul a.Wi a.G) a.C,
      intMul a.G a.C] ∧
    a.out_strides = [a.K, intMul (intMul (intMul (intMul a.Do a.Ho) a.Wo) a.G) a.K, 1,
      intMul (intMul (intMul a.Ho a.Wo) a.G) a.K, intMul (intMul a.Wo a.G) a.K,
      intMul a.G a.K] ∧
    a.wei_strides = [a.C, intMul (intMul (intMul (intMul a.Z a.Y) a.X) a.G) a.C, 1,
      intMul (intMul (intMul a.Y a.X) a.G) a.C, intMul (intMul a.X a.G) a.C,
      intMul a.G a.C] := by
  unfold CKArgs.ofProblem at h
  dsimp only at h
  cases hC : intDiv problem.InputChannelC problem.GroupCountG with
  | none => rw [hC] at h; cases h
  | some C =>
    rw [hC] at h
    dsimp only at h
    cases hK : intDiv problem.OutputChannelK problem.GroupCountG with
    | none => rw [hK] at h; cases h
    | some K =>
      rw [hK] at h
      simp only [Option.some.injEq] at h
      subst h
      exact ⟨rfl, rfl, rfl, rfl, rfl, rfl⟩

/-- C29 fails on the code: for the problem with an input of 2 x 128 x 512 x 512 x 64
elements (all sizes positive) the batch stride `Di * Hi * Wi * G * C = 2^31` does not fit
the `int` in which the constructor multiplies; it wraps to `-2147483648`, the element
(n = 1, everything else 0) gets the negative offset `-2147483648`, and the offset map is
not a bijection onto `[0, G*N*C*Di*Hi*Wi)`. -/
theorem CKArgs_batch_stride_overflow :
    ∃ a, CKArgs.ofProblem sampleLargeProblem = some a ∧
      (0 < a.G ∧ 0 < a.N ∧ 0 < a.C ∧ 0 < a.K ∧ 0 < a.Di ∧ 0 < a.Hi ∧ 0 < a.Wi) ∧
      a.input = [1, 2, 64, 128, 512, 512] ∧
      a.in_strides = [64, -2147483648, 1, 16777216, 32768, 64] ∧
      a.input.prod = 4294967296 ∧
      offset6 a.in_strides 0 1 0 0 0 0 = -2147483648 ∧
      ¬ DenseLayout a.input a.in_strides := by
  refine ⟨_, rfl, by decide, by decide, by decide, by decide, by decide, ?_⟩
  intro h
  have := (h.1 0 1 0 0 0 0 (by decide) (by decide) (by decide) (by decide) (by decide)
    (by decide) (by decide) (by decide) (by decide) (by decide) (by decide) (by decide)).1
  revert this
  decide

/-- Within the range of `int`, the layout of C29 holds: when the constructor of `CKArgs`
returns, the group count, the per-group channel counts and the spatial sizes are
positive, and the three batch strides `Di*Hi*Wi*G*C`, `Do*Ho*Wo*G*K` and `Z*Y*X*G*C` are
below `2^31`, the three stride vectors describe dense tensors: over the index ranges given
by `input`, the offset map with `in_strides` is a bijection onto `[0, G*N*C*Di*Hi*Wi)`,
and likewise for `output` with `out_strides` and `weight` with `wei_strides`; the offset
is `c + C*(g + G*(w + W*(h + H*(d + D*n))))`. -/
theorem CKArgs_dense_strides (problem : ProblemDescription) (a : CKArgs)
    (ha : CKArgs.ofProblem problem = some a)
    (hG : 0 < a.G) (hC : 0 < a.C) (hK : 0 < a.K)
    (hin : 0 < a.Di ∧ 0 < a.Hi ∧ 0 < a.Wi)
    (hout : 0 < a.Do ∧ 0 < a.Ho ∧ 0 < a.Wo)
    (hwei : 0 < a.Z ∧ 0 < a.Y ∧ 0 < a.X)
    (hfit : a.Di * a.Hi * a.Wi * a.G * a.C < 2 ^ 31 ∧
      a.Do * a.Ho * a.Wo * a.G * a.K < 2 ^ 31 ∧ a.Z * a.Y * a.X * a.G * a.C < 2 ^ 31) :
    DenseLayout a.input a.in_strides ∧
    DenseLayout a.output a.out_strides ∧
    DenseLayout a.weight a.wei_strides ∧
    a.input.prod = a.G * a.N * a.C * a.Di * a.Hi * a.Wi ∧
    (∀ g n c d h w : Int,
      offset6 a.in_strides g n c d h w =
        c + a.C * (g + a.G * (w + a.Wi * (h + a.Hi * (d + a.Di * n)))) ∧
      offset6 a.out_strides g n c d h w =
        c + a.K * (g + a.G * (w + a.Wo * (h + a.Ho * (d + a.Do * n)))) ∧
      offset6 a.wei_strides g n c d h w =
        c + a.C * (g + a.G * (w + a.X * (h + a.Y * (d + a.Z * n))))) := by
  obtain ⟨e1, e2, e3, e4, e5, e6⟩ := CKArgs_ofProblem_shape problem a ha
  rw [strides_exact _ _ _ _ _ hG hC hin.1 hin.2.1 hin.2.2 hfit.1] at e4
  rw [strides_exact _ _ _ _ _ hG hK hout.1 hout.2.1 hout.2.2 hfit.2.1] at e5
  rw [strides_exact _ _ _ _ _ hG hC hwei.1 hwei.2.1 hwei.2.2 hfit.2.2] at e6
  rw [e1, e2, e3, e4, e5, e6]
  refine ⟨denseLayout_of_shape _ _ _ _ _ _ hG hC hin.1 hin.2.1 hin.2.2,
    denseLayout_of_shape _ _ _ _ _ _ hG hK hout.1 hout.2.1 hout.2.2,
    denseLayout_of_shape _ _ _ _ _ _ hG hC hwei.1 hwei.2.1 hwei.2.2, ?_, ?_⟩
  · simp only [List.prod_cons, List.prod_nil]
    ring
  · intro g n c d h w
    exact ⟨offset6_nested _ _ _ _ _ _ _ _ _ _ _, offset6_nested _ _ _ _ _ _ _ _ _ _ _,
      offset6_nested _ _ _ _ _ _ _ _ _ _ _⟩

/-- The sample problem (G = 1, N = 2, C = 4, K = 8, 5x5x5 input) has the input strides
[4, 500, 1, 100, 20, 4], a dense layout. -/
theorem CKArgs_dense_strides_witness :
    ∃ a, CKArgs.ofProblem sampleProblem = some a ∧
      a.in_strides = [4, 500, 1, 100, 20, 4] ∧ DenseLayout a.input a.in_strides :=
  ⟨_, rfl, by decide, (CKArgs_dense_strides sampleProblem _ rfl (by decide) (by decide)
    (by decide) (by decide) (by decide) (by decide) (by decide)).1⟩

end solver

end MIOpen
